import Mathlib

/-! # Loyalty cycle engine of the point-of-sale backend

A shallow embedding of `src/routes/transaction.js`: the cycle simulator
`simulateCycleLoyalty`, the offer query `getXeroxOfferForRole` over the
offer table as a list, and the `POST /create` handler, first on the offer
and ledger row of one customer (`createTransaction`) and then over the
tables (`postCreate`), where each write may throw; the status view of
`GET /customer/:mobile`; two requests of one customer interleaved at their
ledger read and update. From `src/routes/customer.js` the recompute route
`PUT /:id/adjust-xerox`, and from `src/routes/offers.js` the checks of
`POST /offers` and `PUT /offers/:id`.

JavaScript numbers are taken as mathematical integers (`Int`): on integers
`Math.floor` is the identity, and `Math.max`, `Math.min`, `+`, `-`, `===`
are the integer operations. The `while` loop of the simulator need not
terminate for every input (for instance `buyQty = 0`), so it is modelled
with a fuel counter: one unit of fuel per iteration of the loop body, and
`none` when the fuel is exhausted before the loop condition turns false.
-/

namespace DigiCopy

/-! ## The cycle simulator (`transaction.js`, lines 13-59) -/

/-- Argument object of `simulateCycleLoyalty`. -/
structure SimInput where
  qty : Int
  buyQty : Int
  freeQty : Int
  applyOffer : Bool
  progressPaid : Int
  freeBalance : Int
  deriving DecidableEq, Repr

/-- Local variables of `simulateCycleLoyalty` while it runs. -/
structure SimState where
  remaining : Int
  paid : Int
  freeUsed : Int
  earned : Int
  progress : Int
  freeBal : Int
  deriving DecidableEq, Repr

/-- Object returned by `simulateCycleLoyalty`. -/
structure SimResult where
  paid : Int
  freeUsed : Int
  earned : Int
  progress : Int
  freeBal : Int
  deriving DecidableEq, Repr

/-- Lines 21-27: initialisation of the local variables. -/
def simInit (inp : SimInput) : SimState :=
  { remaining := max inp.qty 0
    paid := 0
    freeUsed := 0
    earned := 0
    progress := max inp.progressPaid 0
    freeBal := max inp.freeBalance 0 }

/-- Lines 30-33 and 50-53: take `min(remaining, freeBal)` units from the
free balance. -/
def consumeFree (s : SimState) : SimState :=
  let use := min s.remaining s.freeBal
  { s with
    freeUsed := s.freeUsed + use
    freeBal := s.freeBal - use
    remaining := s.remaining - use }

/-- Lines 29-34: the free balance is used first when `applyOffer` holds. -/
def simPrologue (applyOffer : Bool) (s : SimState) : SimState :=
  if applyOffer && decide (s.freeBal > 0) then consumeFree s else s

/-- Lines 37-55: one execution of the body of the `while` loop. -/
def loopBody (buyQty freeQty : Int) (applyOffer : Bool) (s : SimState) : SimState :=
  let toCycleEnd := buyQty - s.progress
  let payNow := min s.remaining toCycleEnd
  let s1 : SimState :=
    { s with
      paid := s.paid + payNow
      progress := s.progress + payNow
      remaining := s.remaining - payNow }
  if s1.progress = buyQty then
    let s2 : SimState :=
      { s1 with
        earned := s1.earned + freeQty
        freeBal := s1.freeBal + freeQty
        progress := 0 }
    if applyOffer && decide (s2.freeBal > 0) && decide (s2.remaining > 0) then
      consumeFree s2
    else s2
  else s1

/-- Lines 36-56: the `while (remaining > 0)` loop; `none` when the fuel
runs out while the condition still holds. -/
def simLoop (buyQty freeQty : Int) (applyOffer : Bool) : Nat → SimState → Option SimState
  | fuel, s =>
    if s.remaining > 0 then
      match fuel with
      | 0 => none
      | n + 1 => simLoop buyQty freeQty applyOffer n (loopBody buyQty freeQty applyOffer s)
    else some s

/-- Line 58: the returned object. -/
def SimState.toResult (s : SimState) : SimResult :=
  { paid := s.paid, freeUsed := s.freeUsed, earned := s.earned,
    progress := s.progress, freeBal := s.freeBal }

/-- The function `simulateCycleLoyalty`, run with at most `fuel` loop
iterations. -/
def simulateCycleLoyalty (fuel : Nat) (inp : SimInput) : Option SimResult :=
  (simLoop inp.buyQty inp.freeQty inp.applyOffer fuel
      (simPrologue inp.applyOffer (simInit inp))).map SimState.toResult

/-- Precondition of the simulator's contract: non-negative request, positive
cycle length, non-negative reward size, progress inside the cycle and a
non-negative free balance. -/
def SimInput.Valid (inp : SimInput) : Prop :=
  0 ≤ inp.qty ∧ 0 < inp.buyQty ∧ 0 ≤ inp.freeQty ∧
    0 ≤ inp.progressPaid ∧ inp.progressPaid < inp.buyQty ∧ 0 ≤ inp.freeBalance

instance (inp : SimInput) : Decidable inp.Valid :=
  inferInstanceAs (Decidable (0 ≤ inp.qty ∧ 0 < inp.buyQty ∧ 0 ≤ inp.freeQty ∧
    0 ≤ inp.progressPaid ∧ inp.progressPaid < inp.buyQty ∧ 0 ≤ inp.freeBalance))

/-! ## Unit-by-unit reference

The reading of the simulator's doc comment (lines 6-11) one unit at a time:
a unit is taken from the free balance when `applyOffer` holds and the
balance is positive; otherwise it is paid and advances the cycle, and a
completed cycle earns `freeQty` free units. -/

/-- One requested unit. -/
def unitStep (buyQty freeQty : Int) (applyOffer : Bool) (r : SimResult) : SimResult :=
  if applyOffer && decide (r.freeBal > 0) then
    { r with freeUsed := r.freeUsed + 1, freeBal := r.freeBal - 1 }
  else if r.progress + 1 = buyQty then
    { r with
      paid := r.paid + 1
      earned := r.earned + freeQty
      freeBal := r.freeBal + freeQty
      progress := 0 }
  else
    { r with paid := r.paid + 1, progress := r.progress + 1 }

/-- The reference run over `n` units, one after the other. -/
def unitRun (buyQty freeQty : Int) (applyOffer : Bool) : Nat → SimResult → SimResult
  | 0, r => r
  | n + 1, r => unitRun buyQty freeQty applyOffer n (unitStep buyQty freeQty applyOffer r)

/-! ## The `POST /create` handler (`transaction.js`, lines 87-217) -/

/-- Row returned by `getXeroxOfferForRole` (lines 67-71). -/
structure Offer where
  product_id : Int
  buy_quantity : Int
  free_quantity : Int
  role_id : Option Int
  deriving DecidableEq, Repr

/-- Row of `customer_rewards` (the customer id apart). -/
structure Reward where
  total_xerox_pages : Int
  free_xerox_pages : Int
  pages_used : Int
  deriving DecidableEq, Repr

/-- Element of `req.body.items`, its fields after `Number(...)`; prices are
integer amounts. -/
structure Item where
  id : Int
  quantity : Int
  price : Int
  deriving DecidableEq, Repr

/-- Row inserted into `transaction_items` (lines 181-186). -/
structure ItemRow where
  product_id : Int
  quantity : Int
  paid_qty : Int
  free_qty : Int
  price : Int
  deriving DecidableEq, Repr

/-- Variables carried through the items loop (lines 130-144), with the rows
inserted so far, oldest first. -/
structure TxVars where
  progress : Int
  freeBal : Int
  totalAmount : Int
  xeroxRequested : Int
  xeroxFreeUsed : Int
  xeroxFreeEarned : Int
  rows : List ItemRow
  deriving DecidableEq, Repr

/-- Line 104: `offer && offer.buy_quantity > 0 && offer.free_quantity > 0`. -/
def offerValid : Option Offer → Bool
  | none => false
  | some o => decide (o.buy_quantity > 0) && decide (o.free_quantity > 0)

/-- Lines 150-151: `Number(item.id) === Number(offer?.product_id)`; with no
offer the right side is `NaN`, equal to nothing. -/
def isXerox (offer : Option Offer) (item : Item) : Bool :=
  match offer with
  | none => false
  | some o => decide (item.id = o.product_id)

/-- Lines 179-186 for an item with the given split: add to the total and
insert the row. -/
def recordItem (v : TxVars) (item : Item) (paidQty freeQtyUsed : Int) : TxVars :=
  { v with
    totalAmount := v.totalAmount + paidQty * item.price
    rows := v.rows ++ [{ product_id := item.id, quantity := item.quantity,
                         paid_qty := paidQty, free_qty := freeQtyUsed,
                         price := item.price }] }

/-- Lines 148-186: the body of the items loop; `none` when the simulator
call does not return within `fuel` iterations. -/
def processItem (fuel : Nat) (offer : Option Offer) (applyOffer : Bool)
    (v : TxVars) (item : Item) : Option TxVars :=
  match offer with
  | some o =>
    if isXerox (some o) item then
      (simulateCycleLoyalty fuel
          { qty := item.quantity, buyQty := o.buy_quantity, freeQty := o.free_quantity,
            applyOffer := applyOffer, progressPaid := v.progress,
            freeBalance := v.freeBal }).map fun sim =>
        recordItem
          { v with
            progress := sim.progress
            freeBal := sim.freeBal
            xeroxRequested := v.xeroxRequested + item.quantity
            xeroxFreeUsed := v.xeroxFreeUsed + sim.freeUsed
            xeroxFreeEarned := v.xeroxFreeEarned + sim.earned }
          item sim.paid sim.freeUsed
    else some (recordItem v item item.quantity 0)
  | none => some (recordItem v item item.quantity 0)

/-- Lines 147-187: the items loop, in submission order. -/
def itemsLoop (fuel : Nat) (offer : Option Offer) (applyOffer : Bool) :
    TxVars → List Item → Option TxVars
  | v, [] => some v
  | v, item :: rest =>
    (processItem fuel offer applyOffer v item).bind fun v1 =>
      itemsLoop fuel offer applyOffer v1 rest

/-- Lines 125-144: the loop variables before the first item. The `%` of
JavaScript truncates toward zero. -/
def initVars (offer : Option Offer) (reward : Reward) : TxVars :=
  let freeBalance := max (reward.free_xerox_pages - reward.pages_used) 0
  let paidTotal := max (reward.total_xerox_pages - reward.pages_used) 0
  { progress :=
      match offer with
      | some o => if offerValid (some o) then Int.tmod paidTotal o.buy_quantity else 0
      | none => 0
    freeBal := freeBalance
    totalAmount := 0
    xeroxRequested := 0
    xeroxFreeUsed := 0
    xeroxFreeEarned := 0
    rows := [] }

/-- Lines 196-205: the ledger update, skipped unless `xeroxRequested > 0`. -/
def updateRewards (reward : Reward) (v : TxVars) : Reward :=
  if v.xeroxRequested > 0 then
    { total_xerox_pages := reward.total_xerox_pages + v.xeroxRequested
      free_xerox_pages := reward.free_xerox_pages + v.xeroxFreeEarned
      pages_used := reward.pages_used + v.xeroxFreeUsed }
  else reward

/-- What a completed `POST /create` leaves behind: the item rows, the
`total_amount` of the header and the ledger row. -/
structure TxOutcome where
  rows : List ItemRow
  totalAmount : Int
  reward : Reward
  deriving DecidableEq, Repr

/-- Lines 103-205 for a known customer with ledger row `reward` (a zeroed
row when it was absent) and the offer resolved for the customer's role. -/
def createTransaction (fuel : Nat) (offer : Option Offer) (reward : Reward)
    (applyOffer : Bool) (items : List Item) : Option TxOutcome :=
  (itemsLoop fuel offer applyOffer (initVars offer reward) items).map fun v =>
    { rows := v.rows, totalAmount := v.totalAmount, reward := updateRewards reward v }

/-- The simulator results behind a run of the items loop: one entry per
item of the offer's product, in submission order, with what
`simulateCycleLoyalty` returned for it (the loop itself keeps only their
sums, lines 174-176). -/
def simTrace (fuel : Nat) (offer : Option Offer) (applyOffer : Bool) :
    TxVars → List Item → Option (List (Item × SimResult))
  | _, [] => some []
  | v, item :: rest =>
    (processItem fuel offer applyOffer v item).bind fun v1 =>
      (simTrace fuel offer applyOffer v1 rest).bind fun tr =>
        match offer with
        | some o =>
          if isXerox (some o) item then
            (simulateCycleLoyalty fuel
                { qty := item.quantity, buyQty := o.buy_quantity,
                  freeQty := o.free_quantity, applyOffer := applyOffer,
                  progressPaid := v.progress, freeBalance := v.freeBal }).map fun sim =>
              (item, sim) :: tr
          else some tr
        | none => some tr

/-- The state the simulator needs between items: a balance that is not
negative and a progress inside the cycle of the offer, if there is one. -/
def LoopInv (offer : Option Offer) (v : TxVars) : Prop :=
  0 ≤ v.freeBal ∧ 0 ≤ v.progress ∧ ∀ o, offer = some o → v.progress < o.buy_quantity

/-! ## Offer resolution (`transaction.js`, lines 62-84) -/

/-- Row of `offers` joined with its product (lines 72-73); `xeroxName` is
the outcome of `LOWER(TRIM(p.name)) LIKE '%xerox%'` on the product's name. -/
structure OfferRow where
  product_id : Int
  role_id : Option Int
  buy_quantity : Int
  free_quantity : Int
  active : Bool
  xeroxName : Bool
  deriving DecidableEq, Repr

/-- The columns selected at lines 68-71. -/
def OfferRow.toOffer (o : OfferRow) : Offer :=
  { product_id := o.product_id, buy_quantity := o.buy_quantity,
    free_quantity := o.free_quantity, role_id := o.role_id }

/-- The expression `COALESCE(o.role_id, 0)` of lines 76-77. -/
def coalesceRole (r : Option Int) : Int :=
  match r with
  | some x => x
  | none => 0

/-- The `WHERE` clause of lines 74-76 for the bound parameter `roleId`. -/
def offerCandidate (roleId : Int) (o : OfferRow) : Bool :=
  o.active && o.xeroxName &&
    (decide (coalesceRole o.role_id = 0) || decide (coalesceRole o.role_id = roleId))

/-- The function `getXeroxOfferForRole` over the offer table as a list.
`ORDER BY (COALESCE(o.role_id,0) = ?) DESC LIMIT 1` puts the rows whose
key is true before the others; rows with equal keys are taken in table
order. -/
def getXeroxOfferForRole (offers : List OfferRow) (roleIdRaw : Option Int) : Option Offer :=
  let roleId := coalesceRole roleIdRaw
  let rows := offers.filter (offerCandidate roleId)
  match rows.find? fun o => decide (coalesceRole o.role_id = roleId) with
  | some o => some o.toOffer
  | none => rows.head?.map OfferRow.toOffer

/-! ## The `POST /create` handler over the tables -/

/-- Row of `customers` as far as line 98 reads it. -/
structure Customer where
  id : Int
  mobile : String
  role_id : Option Int
  deriving DecidableEq, Repr

/-- Row of `transactions` (the generated id is its position in the table). -/
structure TxHeader where
  customer_id : Int
  total_amount : Int
  deriving DecidableEq, Repr

/-- The tables the handler reads and writes; `customer_rewards` rows carry
their `customer_id`, `transaction_items` rows their `transaction_id`. -/
structure Db where
  customers : List Customer
  offers : List OfferRow
  customer_rewards : List (Int × Reward)
  transactions : List TxHeader
  transaction_items : List (Nat × ItemRow)
  deriving DecidableEq, Repr

/-- Body of the request: `customerMobile` is `none` when absent, `items` is
`none` when it is not an array, `applyOffer` is `req.body.applyOffer !== false`. -/
structure CreateRequest where
  customerMobile : Option String
  items : Option (List Item)
  applyOffer : Bool
  deriving DecidableEq, Repr

/-- The four ways the handler answers: 400 (lines 91-93), 404 (line 101),
200 (lines 207-212) and 500 (lines 213-216). -/
inductive CreateResponse where
  | badRequest
  | notFound
  | ok (transactionId : Nat) (totalAmount : Int)
  | failed
  deriving DecidableEq, Repr

/-- Lines 107-110: the first `customer_rewards` row of the customer. -/
def findReward (rs : List (Int × Reward)) (customerId : Int) : Option Reward :=
  (rs.find? fun p => decide (p.1 = customerId)).map Prod.snd

/-- Lines 112-123: a zeroed row is inserted when the customer has none. -/
def ensureReward (db : Db) (customerId : Int) : Db × Reward :=
  match findReward db.customer_rewards customerId with
  | some r => (db, r)
  | none =>
    ({ db with customer_rewards := db.customer_rewards ++ [(customerId, ⟨0, 0, 0⟩)] },
      ⟨0, 0, 0⟩)

/-- Lines 112-118: the number of writes issued for the ledger row before the
header is inserted, one (the insert of the zeroed row) when the customer has
no row and none otherwise. -/
def lazyWrites (db : Db) (customerId : Int) : Nat :=
  match findReward db.customer_rewards customerId with
  | some _ => 0
  | none => 1

/-- Lines 147-187 with the inserts: write number `step` is the insert of
the current item, and the write numbered `failAt` throws. The flag tells
whether every insert went through; the rows of the result are those
inserted. -/
def itemsLoopDb (fuel : Nat) (offer : Option Offer) (applyOffer : Bool)
    (failAt : Option Nat) : Nat → TxVars → List Item → Option (Bool × TxVars)
  | _, v, [] => some (true, v)
  | step, v, item :: rest =>
    (processItem fuel offer applyOffer v item).bind fun v1 =>
      if failAt = some step then some (false, v)
      else itemsLoopDb fuel offer applyOffer failAt (step + 1) v1 rest

/-- Lines 189-212, after the items loop: `res` is what the loop with
inserts returned, `db1` the tables before the header was inserted and `n`
the number of the insert of the last item. Write `n + 1` is the update of
the total, write `n + 2` the update of the ledger, issued only when
`xeroxRequested > 0`. -/
def finishCreate (failAt : Option Nat) (db1 : Db) (customerId : Int) (n : Nat)
    (res : Bool × TxVars) : CreateResponse × Db :=
  let v := res.2
  let txId := db1.transactions.length
  let inserted := db1.transaction_items ++ v.rows.map fun r => (txId, r)
  if res.1 = false ∨ failAt = some (n + 1) then
    (CreateResponse.failed,
      { db1 with
        transactions := db1.transactions ++ [⟨customerId, 0⟩]
        transaction_items := inserted })
  else if v.xeroxRequested > 0 then
    if failAt = some (n + 2) then
      (CreateResponse.failed,
        { db1 with
          transactions := db1.transactions ++ [⟨customerId, v.totalAmount⟩]
          transaction_items := inserted })
    else
      (CreateResponse.ok txId v.totalAmount,
        { db1 with
          transactions := db1.transactions ++ [⟨customerId, v.totalAmount⟩]
          transaction_items := inserted
          customer_rewards := db1.customer_rewards.map fun p =>
            if p.1 = customerId then (p.1, updateRewards p.2 v) else p })
  else
    (CreateResponse.ok txId v.totalAmount,
      { db1 with
        transactions := db1.transactions ++ [⟨customerId, v.totalAmount⟩]
        transaction_items := inserted })

/-- Lines 103-212, for the customer found at line 97: offer, ledger row,
header insert, items loop and the two updates. The writes are numbered in
the order they are issued, from 0. When the customer has no ledger row the
insert of lines 113-118 is write 0, and nothing is written if it throws; the
header insert of line 135 comes next (write `lazyWrites db customer.id`),
then the item inserts, the update of the total and the update of the
ledger. -/
def runCreate (fuel : Nat) (failAt : Option Nat) (db : Db) (customer : Customer)
    (applyOffer : Bool) (items : List Item) : Option (CreateResponse × Db) :=
  let offer := getXeroxOfferForRole db.offers customer.role_id
  let base := lazyWrites db customer.id
  if base = 1 ∧ failAt = some 0 then some (CreateResponse.failed, db)
  else
    let db1 := (ensureReward db customer.id).1
    let reward := (ensureReward db customer.id).2
    if failAt = some base then some (CreateResponse.failed, db1)
    else
      (itemsLoopDb fuel offer applyOffer failAt (base + 1) (initVars offer reward) items).map
        (finishCreate failAt db1 customer.id (base + items.length))

/-- The handler `router.post("/create")`, lines 87-217, over the tables.
Its writes are numbered in the order they are issued, from 0: the insert of
a zeroed ledger row when the customer has none (lines 113-118), the insert
of the header, the inserts of the items, the update of the total and the
update of the ledger. The write numbered `failAt` throws and the `catch` of
line 213 answers 500. No write is undone. A read that throws leaves the
tables as the failure of the write issued next does. -/
def postCreate (fuel : Nat) (failAt : Option Nat) (db : Db) (req : CreateRequest) :
    Option (CreateResponse × Db) :=
  match req.customerMobile, req.items with
  | some mobile, some items =>
    if mobile = "" ∨ items = [] then some (CreateResponse.badRequest, db)
    else
      match db.customers.find? fun c => decide (c.mobile = mobile) with
      | none => some (CreateResponse.notFound, db)
      | some customer => runCreate fuel failAt db customer req.applyOffer items
  | _, _ => some (CreateResponse.badRequest, db)

/-! ## The customer status view (`transaction.js`, lines 299-331) -/

/-- The object `rewards.xerox` of the answer (lines 347-358), the product id
apart. -/
structure StatusView where
  totalPrinted : Int
  paid_total : Int
  free_remaining : Int
  buy_quantity : Int
  free_quantity : Int
  cycle_progress : Int
  cycle_count : Int
  next_unlock_in : Int
  deriving DecidableEq, Repr

/-- Lines 302-331 for the offer resolved for the customer and the
customer's ledger row. `x || 0` is `x` on integers; `%` truncates toward
zero and `Math.floor(a / b)` is the floor of the quotient. -/
def statusView (xeroxOffer : Option Offer) (reward : Reward) : StatusView :=
  let buyQty : Int := match xeroxOffer with
    | some o => o.buy_quantity
    | none => 0
  let freeQty : Int := match xeroxOffer with
    | some o => o.free_quantity
    | none => 0
  let totalPrinted := reward.total_xerox_pages
  let freeEarned := reward.free_xerox_pages
  let freeUsed := reward.pages_used
  let free_remaining := max (freeEarned - freeUsed) 0
  let paid_total := max (totalPrinted - freeUsed) 0
  let cycle_progress := if buyQty > 0 then Int.tmod paid_total buyQty else 0
  let cycle_count := if buyQty > 0 then Int.fdiv paid_total buyQty else 0
  let next_unlock_in := if buyQty > 0 then buyQty - cycle_progress else 0
  { totalPrinted := totalPrinted
    paid_total := paid_total
    free_remaining := free_remaining
    buy_quantity := buyQty
    free_quantity := freeQty
    cycle_progress := cycle_progress
    cycle_count := cycle_count
    next_unlock_in := next_unlock_in }

/-! ## The recompute route `PUT /:id/adjust-xerox` (`customer.js`, lines 358-414) -/

/-- Line 368: `const BUY_QTY = 100`. -/
def BUY_QTY : Int := 100

/-- Line 369: `const FREE_QTY = 20`. -/
def FREE_QTY : Int := 20

/-- What a recompute that is not rejected leaves: the row written by the
upsert (lines 385-402) and the fields of the answer (lines 404-409). -/
structure AdjustOutcome where
  row : Reward
  totalPrinted : Int
  freeEarned : Int
  freeRemaining : Int
  deriving DecidableEq, Repr

/-- The handler of `PUT /:id/adjust-xerox` for a customer whose ledger row
is `existing` (`none` when there is no row); `none` is the 400 answer of
lines 363-365. -/
def adjustXerox (existing : Option Reward) (totalPrinted : Int) : Option AdjustOutcome :=
  if totalPrinted < 0 then none
  else
    let cycles := Int.fdiv totalPrinted BUY_QTY
    let freeEarned := cycles * FREE_QTY
    let pagesUsed : Int := match existing with
      | some r => r.pages_used
      | none => 0
    let safePagesUsed := min pagesUsed freeEarned
    some { row := { total_xerox_pages := totalPrinted, free_xerox_pages := freeEarned,
                    pages_used := safePagesUsed }
           totalPrinted := totalPrinted
           freeEarned := freeEarned
           freeRemaining := freeEarned - safePagesUsed }

/-! ## The offer routes (`offers.js`) -/

/-- A value of a request body as `toIntOrNull` tells them apart: absent,
null, the empty string, a value that `Number` turns into the integer `n`,
or a value that `Number` turns into `NaN`. -/
inductive JsValue where
  | undefined
  | null
  | emptyString
  | number (n : Int)
  | notNumeric
  deriving DecidableEq, Repr

/-- Lines 9-13: `toIntOrNull`. -/
def toIntOrNull : JsValue → Option Int
  | JsValue.undefined => none
  | JsValue.null => none
  | JsValue.emptyString => none
  | JsValue.number n => some n
  | JsValue.notNumeric => none

/-- The test `!x` on a result of `toIntOrNull`: null and 0 are falsy. -/
def isFalsy (x : Option Int) : Bool :=
  match x with
  | none => true
  | some n => decide (n = 0)

/-- Lines 14-23: `validateRoleId`, over the ids of the active roles. -/
def validateRoleId (activeRoles : List Int) (roleId : Option Int) : Bool :=
  match roleId with
  | none => true
  | some r => decide (r ∈ activeRoles)

/-- The fields of a body of `POST /offers` or `PUT /offers/:id`. -/
structure OfferBody where
  product_id : JsValue
  buy_quantity : JsValue
  free_quantity : JsValue
  role_id : JsValue
  deriving DecidableEq, Repr

/-- The values an accepted request writes to the `offers` row. -/
structure StoredOffer where
  product_id : Int
  role_id : Option Int
  buy_quantity : Int
  free_quantity : Int
  deriving DecidableEq, Repr

/-- Lines 47-73: `POST /offers`; `none` when the request is answered 400. -/
def postOffer (activeRoles : List Int) (body : OfferBody) : Option StoredOffer :=
  let productId := toIntOrNull body.product_id
  let buyQty := toIntOrNull body.buy_quantity
  let freeQty := toIntOrNull body.free_quantity
  let roleId := toIntOrNull body.role_id
  if isFalsy productId || isFalsy buyQty || isFalsy freeQty then none
  else if !validateRoleId activeRoles roleId then none
  else
    match productId, buyQty, freeQty with
    | some p, some b, some f =>
      some { product_id := p, role_id := roleId, buy_quantity := b, free_quantity := f }
    | _, _, _ => none

/-- Lines 76-125: `PUT /offers/:id` over the ids present in `offers`;
`none` when the request is answered 400 or 404. -/
def putOffer (activeRoles : List Int) (offerIds : List Int) (idParam : JsValue)
    (body : OfferBody) : Option StoredOffer :=
  let id := toIntOrNull idParam
  let roleId := toIntOrNull body.role_id
  if isFalsy id then none
  else
    match id, toIntOrNull body.product_id, toIntOrNull body.buy_quantity,
        toIntOrNull body.free_quantity with
    | some i, some p, some b, some f =>
      if b < 0 ∨ f < 0 then none
      else if !validateRoleId activeRoles roleId then none
      else if i ∈ offerIds then
        some { product_id := p, role_id := roleId, buy_quantity := b, free_quantity := f }
      else none
    | _, _, _, _ => none

/-! ## Two requests of one customer at once

The handler runs until its next `await`, so two requests interleave between
their queries. For the ledger what matters is when each request reads the
row (lines 107-110) and when it updates it (lines 196-205). -/

/-- Where a request stands: before its read of the ledger row, between its
read and its update (with the loop variables computed from the row it
read), or after its update. -/
inductive Phase where
  | idle
  | loaded (v : TxVars)
  | finished
  deriving DecidableEq, Repr

/-- The ledger reads and updates of the two requests. -/
inductive Event where
  | read1
  | write1
  | read2
  | write2
  deriving DecidableEq, Repr

/-- The ledger row of the customer and the standing of the two requests. -/
structure Pair where
  row : Reward
  first : Phase
  second : Phase
  deriving DecidableEq, Repr

/-- One event. A read takes the current row as its snapshot and runs the
items loop on it; an update adds the request's sums to the current row
(`total_xerox_pages = total_xerox_pages + ?`, and so on). An event out of
turn gives `none`. -/
def stepPair (fuel : Nat) (offer : Option Offer) (ao1 : Bool) (items1 : List Item)
    (ao2 : Bool) (items2 : List Item) (s : Pair) : Event → Option Pair
  | Event.read1 =>
    match s.first with
    | Phase.idle =>
      (itemsLoop fuel offer ao1 (initVars offer s.row) items1).map fun v =>
        { s with first := Phase.loaded v }
    | _ => none
  | Event.write1 =>
    match s.first with
    | Phase.loaded v => some { s with row := updateRewards s.row v, first := Phase.finished }
    | _ => none
  | Event.read2 =>
    match s.second with
    | Phase.idle =>
      (itemsLoop fuel offer ao2 (initVars offer s.row) items2).map fun v =>
        { s with second := Phase.loaded v }
    | _ => none
  | Event.write2 =>
    match s.second with
    | Phase.loaded v => some { s with row := updateRewards s.row v, second := Phase.finished }
    | _ => none

/-- The events of a schedule, one after the other. -/
def runPair (fuel : Nat) (offer : Option Offer) (ao1 : Bool) (items1 : List Item)
    (ao2 : Bool) (items2 : List Item) : List Event → Pair → Option Pair
  | [], s => some s
  | e :: rest, s =>
    (stepPair fuel offer ao1 items1 ao2 items2 s e).bind
      (runPair fuel offer ao1 items1 ao2 items2 rest)

/-! ## The reference run: algebra -/

theorem unitRun_add (B F : Int) (ao : Bool) (m n : Nat) (r : SimResult) :
    unitRun B F ao (m + n) r = unitRun B F ao n (unitRun B F ao m r) := by
  induction m generalizing r with
  | zero => simp [unitRun]
  | succ m ih =>
    rw [Nat.succ_add]
    simp only [unitRun]
    exact ih _

/-- Units taken from the free balance while it lasts. -/
theorem unitRun_free (B F : Int) (k : Nat) (pd fu e p fb : Int) (hk : (k : Int) ≤ fb) :
    unitRun B F true k ⟨pd, fu, e, p, fb⟩ = ⟨pd, fu + k, e, p, fb - k⟩ := by
  induction k generalizing fu fb with
  | zero => simp [unitRun]
  | succ k ih =>
    have hpos : 0 < fb := by push_cast at hk; omega
    simp only [unitRun, unitStep, Bool.true_and, decide_eq_true_eq, gt_iff_lt, hpos, if_true]
    rw [ih (fu + 1) (fb - 1) (by push_cast at hk; omega)]
    simp only [SimResult.mk.injEq, true_and]
    push_cast
    constructor <;> omega

/-- Paid units that stay inside the current cycle. -/
theorem unitRun_pay (B F : Int) (ao : Bool) (k : Nat) (pd fu e p fb : Int)
    (hfree : ao = false ∨ fb ≤ 0) (hk : p + k < B) :
    unitRun B F ao k ⟨pd, fu, e, p, fb⟩ = ⟨pd + k, fu, e, p + k, fb⟩ := by
  induction k generalizing pd p with
  | zero => simp [unitRun]
  | succ k ih =>
    have hcond : (ao && decide (fb > 0)) = false := by
      rcases hfree with h | h
      · simp [h]
      · simp [not_lt.mpr h]
    have hne : ¬ p + 1 = B := by push_cast at hk; omega
    simp only [unitRun, unitStep, hcond, hne, if_false, Bool.false_eq_true]
    rw [ih (pd + 1) (p + 1) (by push_cast at hk; omega)]
    simp only [SimResult.mk.injEq, true_and, and_true]
    push_cast
    constructor <;> omega

/-- Paid units that close the current cycle with the last of them. -/
theorem unitRun_close (B F : Int) (ao : Bool) (k : Nat) (pd fu e p fb : Int)
    (hfree : ao = false ∨ fb ≤ 0) (hk : p + (k + 1 : Nat) = B) :
    unitRun B F ao (k + 1) ⟨pd, fu, e, p, fb⟩ = ⟨pd + (k + 1 : Nat), fu, e + F, 0, fb + F⟩ := by
  rw [unitRun_add, unitRun_pay B F ao k pd fu e p fb hfree (by push_cast at hk; omega)]
  have hcond : (ao && decide (fb > 0)) = false := by
    rcases hfree with h | h
    · simp [h]
    · simp [not_lt.mpr h]
  have hB : p + (k : Int) + 1 = B := by push_cast at hk; omega
  simp only [unitRun, unitStep, hcond, hB, if_true, if_false, Bool.false_eq_true]
  simp only [SimResult.mk.injEq, true_and, and_true]
  push_cast
  omega

/-! ## The loop refines the reference run -/

theorem simLoop_done (B F : Int) (ao : Bool) (fuel : Nat) (s : SimState)
    (h : s.remaining ≤ 0) : simLoop B F ao fuel s = some s := by
  cases fuel <;> simp [simLoop, not_lt.mpr h]

theorem simLoop_step (B F : Int) (ao : Bool) (fuel : Nat) (s : SimState)
    (h : 0 < s.remaining) :
    simLoop B F ao (fuel + 1) s = simLoop B F ao fuel (loopBody B F ao s) := by
  simp [simLoop, h]

/-- The body of the loop when the request ends inside the current cycle. -/
theorem loopBody_inside (B F : Int) (ao : Bool) (rem pd fu e p fb : Int)
    (h : rem < B - p) :
    loopBody B F ao ⟨rem, pd, fu, e, p, fb⟩ = ⟨0, pd + rem, fu, e, p + rem, fb⟩ := by
  have hmin : min rem (B - p) = rem := min_eq_left (le_of_lt h)
  have hne : ¬ p + rem = B := by omega
  simp [loopBody, hmin, hne]

/-- The body of the loop when the request reaches the end of the cycle and
newly earned units are used at once. -/
theorem loopBody_close_use (B F : Int) (rem pd fu e p fb : Int)
    (h : B - p ≤ rem) (hfb : 0 < fb + F) (hrem : 0 < rem - (B - p)) :
    loopBody B F true ⟨rem, pd, fu, e, p, fb⟩ =
      ⟨rem - (B - p) - min (rem - (B - p)) (fb + F), pd + (B - p),
        fu + min (rem - (B - p)) (fb + F), e + F, 0,
        fb + F - min (rem - (B - p)) (fb + F)⟩ := by
  have hmin : min rem (B - p) = B - p := min_eq_right h
  simp [loopBody, hmin, consumeFree, hfb, hrem]

/-- The body of the loop when the request reaches the end of the cycle and
nothing is used. -/
theorem loopBody_close_keep (B F : Int) (ao : Bool) (rem pd fu e p fb : Int)
    (h : B - p ≤ rem) (hno : ao = false ∨ fb + F ≤ 0 ∨ rem - (B - p) ≤ 0) :
    loopBody B F ao ⟨rem, pd, fu, e, p, fb⟩ =
      ⟨rem - (B - p), pd + (B - p), fu, e + F, 0, fb + F⟩ := by
  have hmin : min rem (B - p) = B - p := min_eq_right h
  simp only [loopBody, hmin, add_sub_cancel, if_true, Bool.and_eq_true, decide_eq_true_eq]
  rw [if_neg]
  rintro ⟨⟨ha, hb⟩, hc⟩
  rcases hno with h1 | h1 | h1
  · simp [h1] at ha
  · omega
  · omega

/-- The `while` loop, entered with `n` units left and either nothing to
redeem or no redemption, does what the reference run does on `n` units; any
fuel of at least `n` is enough. -/
theorem simLoop_refines (B F : Int) (ao : Bool) (hF : 0 ≤ F) :
    ∀ (fuel n : Nat) (rem pd fu e p fb : Int), rem = n → n ≤ fuel →
      0 ≤ p → p < B → 0 ≤ fb → (ao = true → fb = 0 ∨ n = 0) →
      (simLoop B F ao fuel ⟨rem, pd, fu, e, p, fb⟩).map SimState.toResult =
        some (unitRun B F ao n ⟨pd, fu, e, p, fb⟩) := by
  intro fuel
  induction fuel with
  | zero =>
    intro n rem pd fu e p fb hrem hn _ _ _ _
    have hn0 : n = 0 := by omega
    subst hn0
    rw [simLoop_done _ _ _ _ _ (by simp [hrem])]
    simp [unitRun, SimState.toResult]
  | succ fuel ih =>
    intro n rem pd fu e p fb hrem hn hp hpB hfb hinv
    by_cases hn0 : n = 0
    · subst hn0
      rw [simLoop_done _ _ _ _ _ (by simp [hrem])]
      simp [unitRun, SimState.toResult]
    · have hpos : 0 < rem := by omega
      have hfree : ao = false ∨ fb ≤ 0 := by
        cases ao with
        | false => exact Or.inl rfl
        | true =>
          rcases hinv rfl with h | h
          · exact Or.inr (le_of_eq h)
          · exact absurd h hn0
      rw [simLoop_step _ _ _ _ _ hpos]
      by_cases hin : rem < B - p
      · rw [loopBody_inside _ _ _ _ _ _ _ _ _ hin, simLoop_done _ _ _ _ _ (le_refl _)]
        rw [unitRun_pay B F ao n pd fu e p fb hfree (by omega)]
        simp [SimState.toResult, hrem]
      · have hle : B - p ≤ rem := not_lt.mp hin
        obtain ⟨k, hk⟩ : ∃ k : Nat, B - p = (k + 1 : Nat) :=
          ⟨(B - p - 1).toNat, by omega⟩
        obtain ⟨m, hm⟩ : ∃ m : Nat, n = (k + 1) + m := ⟨n - (k + 1), by omega⟩
        have hclose := unitRun_close B F ao k pd fu e p fb hfree (by omega)
        rw [hm, unitRun_add, hclose]
        by_cases hu : ao = true ∧ 0 < fb + F ∧ 0 < rem - (B - p)
        · obtain ⟨hao, hbal, hleft⟩ := hu
          subst hao
          have hb := loopBody_close_use B F rem pd fu e p fb hle hbal hleft
          obtain ⟨j, hj⟩ : ∃ j : Nat, min (rem - (B - p)) (fb + F) = (j : Int) :=
            ⟨(min (rem - (B - p)) (fb + F)).toNat, by omega⟩
          obtain ⟨m1, hm1⟩ : ∃ m1 : Nat, m = j + m1 := ⟨m - j, by omega⟩
          rw [hj, hk] at hb
          rw [hb, hm1, unitRun_add, unitRun_free B F j _ _ _ _ _ (by omega)]
          exact ih m1 _ _ _ _ _ _ (by omega) (by omega) (le_refl _) (by omega) (by omega)
            (fun _ => by omega)
        · have hno : ao = false ∨ fb + F ≤ 0 ∨ rem - (B - p) ≤ 0 := by
            by_contra hc
            push_neg at hc
            exact hu ⟨by simpa using hc.1, hc.2.1, hc.2.2⟩
          have hb := loopBody_close_keep B F ao rem pd fu e p fb hle hno
          rw [hk] at hb
          rw [hb]
          exact ih m _ _ _ _ _ _ (by omega) (by omega) (le_refl _) (by omega) (by omega)
            (fun hao => by
              rcases hno with h | h | h
              · simp [h] at hao
              · left; omega
              · right; omega)

/-- On a valid input the simulator returns, with any fuel of at least `qty`,
the reference run over `qty` units from the starting state. -/
theorem simulate_refines (inp : SimInput) (hv : inp.Valid) (fuel n : Nat)
    (hq : inp.qty = n) (hfuel : n ≤ fuel) :
    simulateCycleLoyalty fuel inp =
      some (unitRun inp.buyQty inp.freeQty inp.applyOffer n
        ⟨0, 0, 0, inp.progressPaid, inp.freeBalance⟩) := by
  obtain ⟨hq0, hB, hF, hp, hpB, hfb⟩ := hv
  have h1 : max inp.qty 0 = inp.qty := max_eq_left hq0
  have h2 : max inp.progressPaid 0 = inp.progressPaid := max_eq_left hp
  have h3 : max inp.freeBalance 0 = inp.freeBalance := max_eq_left hfb
  unfold simulateCycleLoyalty simInit simPrologue
  rw [h1, h2, h3]
  by_cases hu : inp.applyOffer = true ∧ 0 < inp.freeBalance
  · obtain ⟨hao, hbal⟩ := hu
    obtain ⟨j, hj⟩ : ∃ j : Nat, min inp.qty inp.freeBalance = (j : Int) :=
      ⟨(min inp.qty inp.freeBalance).toNat, by omega⟩
    obtain ⟨m, hm⟩ : ∃ m : Nat, n = j + m := ⟨n - j, by omega⟩
    have hc : (inp.applyOffer && decide (inp.freeBalance > 0)) = true := by simp [hao, hbal]
    simp only [hc, if_true, consumeFree, hj, zero_add]
    rw [hm, unitRun_add, hao, unitRun_free _ _ j _ _ _ _ _ (by omega), zero_add]
    have := simLoop_refines inp.buyQty inp.freeQty true hF fuel m (inp.qty - j) 0 j 0
      inp.progressPaid (inp.freeBalance - j) (by omega) (by omega) hp hpB (by omega)
      (fun _ => by omega)
    rw [← this]
  · have hc : (inp.applyOffer && decide (inp.freeBalance > 0)) = false := by
      by_contra hc
      simp only [Bool.not_eq_false, Bool.and_eq_true, decide_eq_true_eq] at hc
      exact hu hc
    simp only [hc, if_false, Bool.false_eq_true]
    exact simLoop_refines inp.buyQty inp.freeQty inp.applyOffer hF fuel n inp.qty 0 0 0
      inp.progressPaid inp.freeBalance hq hfuel hp hpB hfb
      (fun hao => Or.inl (by
        by_contra hne
        exact hu ⟨hao, by omega⟩))

/-! ## Invariants of the reference run -/

theorem unitRun_induction (B F : Int) (ao : Bool) (P : SimResult → Prop)
    (hstep : ∀ r, P r → P (unitStep B F ao r)) :
    ∀ (n : Nat) (r : SimResult), P r → P (unitRun B F ao n r) := by
  intro n
  induction n with
  | zero => intro r hr; simpa [unitRun] using hr
  | succ n ih => intro r hr; simpa [unitRun] using ih _ (hstep r hr)

/-- Every unit is paid or free: the two counters grow by `n` in total and
neither shrinks. -/
theorem unitRun_conserve (B F : Int) (ao : Bool) (n : Nat) (r : SimResult) :
    (unitRun B F ao n r).paid + (unitRun B F ao n r).freeUsed = r.paid + r.freeUsed + n ∧
      r.paid ≤ (unitRun B F ao n r).paid ∧ r.freeUsed ≤ (unitRun B F ao n r).freeUsed := by
  induction n generalizing r with
  | zero => simp [unitRun]
  | succ n ih =>
    simp only [unitRun]
    obtain ⟨h1, h2, h3⟩ := ih (unitStep B F ao r)
    have hs : (unitStep B F ao r).paid + (unitStep B F ao r).freeUsed = r.paid + r.freeUsed + 1 ∧
        r.paid ≤ (unitStep B F ao r).paid ∧ r.freeUsed ≤ (unitStep B F ao r).freeUsed := by
      unfold unitStep
      split_ifs <;> simp <;> omega
    push_cast
    omega

/-- Progress stays inside the cycle. -/
theorem unitRun_progress (B F : Int) (ao : Bool) (n : Nat) (r : SimResult)
    (h : 0 ≤ r.progress ∧ r.progress < B) :
    0 ≤ (unitRun B F ao n r).progress ∧ (unitRun B F ao n r).progress < B := by
  refine unitRun_induction B F ao (fun r => 0 ≤ r.progress ∧ r.progress < B) ?_ n r h
  intro r hr
  unfold unitStep
  split_ifs <;> simp <;> omega

/-- The balance is what was there plus what was earned minus what was used,
and it never goes below zero. -/
theorem unitRun_balance (B F : Int) (ao : Bool) (hF : 0 ≤ F) (n : Nat) (r : SimResult)
    (h : 0 ≤ r.freeBal) :
    0 ≤ (unitRun B F ao n r).freeBal ∧
      (unitRun B F ao n r).freeBal + (unitRun B F ao n r).freeUsed - (unitRun B F ao n r).earned
        = r.freeBal + r.freeUsed - r.earned := by
  refine unitRun_induction B F ao
    (fun x => 0 ≤ x.freeBal ∧ x.freeBal + x.freeUsed - x.earned
      = r.freeBal + r.freeUsed - r.earned) ?_ n r ⟨h, rfl⟩
  intro x hx
  unfold unitStep
  split_ifs with h1 h2
  · simp only [Bool.and_eq_true, decide_eq_true_eq] at h1
    simp only
    omega
  · simp only
    omega
  · simp only
    omega

/-- Paid units, counted from the starting progress, split into completed
cycles and the progress inside the current one. -/
theorem unitRun_cycle (B F : Int) (ao : Bool) (hB : 0 < B) (n : Nat) (r : SimResult)
    (h : 0 ≤ r.progress ∧ r.progress < B) :
    (unitRun B F ao n r).progress
        = (r.progress + ((unitRun B F ao n r).paid - r.paid)) % B ∧
      (unitRun B F ao n r).earned
        = r.earned + F * ((r.progress + ((unitRun B F ao n r).paid - r.paid)) / B) := by
  have key : 0 ≤ (unitRun B F ao n r).progress ∧ (unitRun B F ao n r).progress < B ∧
      ∃ c : Int, (unitRun B F ao n r).earned = r.earned + F * c ∧
        r.progress + ((unitRun B F ao n r).paid - r.paid)
          = B * c + (unitRun B F ao n r).progress := by
    refine unitRun_induction B F ao
      (fun x => 0 ≤ x.progress ∧ x.progress < B ∧
        ∃ c : Int, x.earned = r.earned + F * c ∧
          r.progress + (x.paid - r.paid) = B * c + x.progress) ?_ n r
      ⟨h.1, h.2, 0, by simp, by simp⟩
    rintro x ⟨hx0, hxB, c, hE, hP⟩
    unfold unitStep
    split_ifs with h1 h2
    · exact ⟨hx0, hxB, c, hE, hP⟩
    · refine ⟨le_refl _, hB, c + 1, ?_, ?_⟩
      · simp only [hE]; ring
      · simp only; linear_combination hP + h2
    · refine ⟨by simp only; omega, by simp only; omega, c, hE, ?_⟩
      simp only; linear_combination hP
  obtain ⟨h0, h1, c, hE, hP⟩ := key
  have hu := (Int.ediv_emod_unique (a := r.progress + ((unitRun B F ao n r).paid - r.paid))
    (r := (unitRun B F ao n r).progress) (q := c) hB).mpr ⟨by rw [hP]; ring, h0, h1⟩
  rw [hu.1, hu.2]
  exact ⟨rfl, hE⟩

/-- Without redemption nothing is taken from the balance. -/
theorem unitRun_noOffer (B F : Int) (n : Nat) (r : SimResult) :
    (unitRun B F false n r).freeUsed = r.freeUsed := by
  refine unitRun_induction B F false (fun x => x.freeUsed = r.freeUsed) ?_ n r rfl
  intro x hx
  unfold unitStep
  split_ifs with h1 h2
  · simp at h1
  · exact hx
  · exact hx

/-- The counters `paid`, `freeUsed` and `earned` only accumulate: starting
them higher shifts the outcome by the same amounts. -/
theorem unitRun_shift (B F : Int) (ao : Bool) (x y z : Int) (n : Nat)
    (pd fu e p fb : Int) :
    unitRun B F ao n ⟨pd + x, fu + y, e + z, p, fb⟩ =
      ⟨(unitRun B F ao n ⟨pd, fu, e, p, fb⟩).paid + x,
        (unitRun B F ao n ⟨pd, fu, e, p, fb⟩).freeUsed + y,
        (unitRun B F ao n ⟨pd, fu, e, p, fb⟩).earned + z,
        (unitRun B F ao n ⟨pd, fu, e, p, fb⟩).progress,
        (unitRun B F ao n ⟨pd, fu, e, p, fb⟩).freeBal⟩ := by
  induction n generalizing pd fu e p fb with
  | zero => simp [unitRun]
  | succ n ih =>
    simp only [unitRun, unitStep]
    split_ifs with h1 h2
    · rw [show fu + y + 1 = fu + 1 + y by ring]
      exact ih _ _ _ _ _
    · rw [show pd + x + 1 = pd + 1 + x by ring, show e + z + F = e + F + z by ring]
      exact ih _ _ _ _ _
    · rw [show pd + x + 1 = pd + 1 + x by ring]
      exact ih _ _ _ _ _

/-! ## Fuel -/

/-- More fuel never changes a result already reached. -/
theorem simLoop_mono (B F : Int) (ao : Bool) :
    ∀ (fuel : Nat) (s t : SimState), simLoop B F ao fuel s = some t →
      ∀ k, simLoop B F ao (fuel + k) s = some t := by
  intro fuel
  induction fuel with
  | zero =>
    intro s t h k
    by_cases hr : 0 < s.remaining
    · simp [simLoop, hr] at h
    · rw [simLoop_done _ _ _ _ _ (not_lt.mp hr)] at h
      rw [simLoop_done _ _ _ _ _ (not_lt.mp hr)]
      exact h
  | succ fuel ih =>
    intro s t h k
    by_cases hr : 0 < s.remaining
    · rw [simLoop_step _ _ _ _ _ hr] at h
      rw [Nat.add_right_comm, simLoop_step _ _ _ _ _ hr]
      exact ih _ _ h k
    · rw [simLoop_done _ _ _ _ _ (not_lt.mp hr)] at h
      rw [simLoop_done _ _ _ _ _ (not_lt.mp hr)]
      exact h

theorem simulate_mono (fuel : Nat) (inp : SimInput) (r : SimResult)
    (h : simulateCycleLoyalty fuel inp = some r) (k : Nat) :
    simulateCycleLoyalty (fuel + k) inp = some r := by
  unfold simulateCycleLoyalty at h ⊢
  rw [Option.map_eq_some'] at h ⊢
  obtain ⟨t, ht, hr⟩ := h
  exact ⟨t, simLoop_mono _ _ _ _ _ _ ht k, hr⟩

theorem processItem_mono (fuel : Nat) (offer : Option Offer) (ao : Bool) (v w : TxVars)
    (item : Item) (h : processItem fuel offer ao v item = some w) (k : Nat) :
    processItem (fuel + k) offer ao v item = some w := by
  unfold processItem at h ⊢
  cases offer with
  | none => exact h
  | some o =>
    simp only at h ⊢
    split_ifs at h ⊢ with hx
    · rw [Option.map_eq_some'] at h ⊢
      obtain ⟨r, hr, hw⟩ := h
      exact ⟨r, simulate_mono _ _ _ hr k, hw⟩
    · exact h

theorem itemsLoop_mono (fuel : Nat) (offer : Option Offer) (ao : Bool) (k : Nat) :
    ∀ (items : List Item) (v w : TxVars), itemsLoop fuel offer ao v items = some w →
      itemsLoop (fuel + k) offer ao v items = some w := by
  intro items
  induction items with
  | nil => intro v w h; simpa [itemsLoop] using h
  | cons item rest ih =>
    intro v w h
    simp only [itemsLoop, Option.bind_eq_some] at h ⊢
    obtain ⟨v1, h1, h2⟩ := h
    exact ⟨v1, processItem_mono _ _ _ _ _ _ h1 k, ih _ _ h2⟩

theorem createTransaction_mono (fuel : Nat) (offer : Option Offer) (reward : Reward)
    (ao : Bool) (items : List Item) (out : TxOutcome)
    (h : createTransaction fuel offer reward ao items = some out) (k : Nat) :
    createTransaction (fuel + k) offer reward ao items = some out := by
  unfold createTransaction at h ⊢
  rw [Option.map_eq_some'] at h ⊢
  obtain ⟨v, hv, ho⟩ := h
  exact ⟨v, itemsLoop_mono _ _ _ k _ _ _ hv, ho⟩

/-- With a cycle length of zero and redemption off, the loop body pays
nothing and the loop never ends. -/
theorem simLoop_zero_cycle (F : Int) :
    ∀ (fuel : Nat) (s : SimState), 0 < s.remaining → s.progress = 0 →
      simLoop 0 F false fuel s = none := by
  intro fuel
  induction fuel with
  | zero => intro s hr _; simp [simLoop, hr]
  | succ fuel ih =>
    intro s hr hp
    rw [simLoop_step _ _ _ _ _ hr]
    obtain ⟨rem, pd, fu, e, p, fb⟩ := s
    simp only at hr hp
    subst hp
    rw [loopBody_close_keep 0 F false rem pd fu e 0 fb (by omega) (Or.inl rfl)]
    exact ih _ (by simp only; omega) rfl

/-! ## The simulator's contract -/

/-- C1 (conservation). On every valid input (non-negative `qty`, positive
`buyQty`, non-negative `freeQty`, progress inside the cycle, non-negative
balance) and for either `applyOffer`, `simulateCycleLoyalty` returns, given
fuel of at least `qty`, a result with `paid ≥ 0`, `freeUsed ≥ 0` and
`paid + freeUsed = qty`. -/
theorem simulate_conservation (inp : SimInput) (hv : inp.Valid) (fuel : Nat)
    (hfuel : inp.qty.toNat ≤ fuel) :
    ∃ r, simulateCycleLoyalty fuel inp = some r ∧
      0 ≤ r.paid ∧ 0 ≤ r.freeUsed ∧ r.paid + r.freeUsed = inp.qty := by
  have hq : inp.qty = (inp.qty.toNat : Int) := (Int.toNat_of_nonneg hv.1).symm
  refine ⟨_, simulate_refines inp hv fuel _ hq hfuel, ?_⟩
  obtain ⟨h1, h2, h3⟩ := unitRun_conserve inp.buyQty inp.freeQty inp.applyOffer inp.qty.toNat
    ⟨0, 0, 0, inp.progressPaid, inp.freeBalance⟩
  simp only at h1 h2 h3
  omega

/-- Witness of C1 at `qty = 30, buyQty = 100, freeQty = 20, progress = 90`,
no balance, redemption on. -/
theorem simulate_conservation_witness :
    (⟨30, 100, 20, true, 90, 0⟩ : SimInput).Valid ∧
      (⟨30, 100, 20, true, 90, 0⟩ : SimInput).qty.toNat ≤ 30 ∧
      ∃ r, simulateCycleLoyalty 30 ⟨30, 100, 20, true, 90, 0⟩ = some r ∧
        0 ≤ r.paid ∧ 0 ≤ r.freeUsed ∧
        r.paid + r.freeUsed = (⟨30, 100, 20, true, 90, 0⟩ : SimInput).qty :=
  ⟨by decide, by decide, simulate_conservation ⟨30, 100, 20, true, 90, 0⟩ (by decide) 30 (by decide)⟩

/-- C2 (split composition). From every valid starting state and for either
`applyOffer`, a call with `qty = a` followed by a call with `qty = b` on the
progress and balance the first one returned ends in the same progress and
balance as one call with `qty = a + b`, and the sums of `paid`, `freeUsed`
and `earned` over the two calls are those of the single call. All three
calls return, given fuel of at least their `qty`. -/
theorem simulate_split (B F : Int) (ao : Bool) (p fb a b : Int)
    (hB : 0 < B) (hF : 0 ≤ F) (hp : 0 ≤ p) (hpB : p < B) (hfb : 0 ≤ fb)
    (ha : 0 ≤ a) (hb : 0 ≤ b) (fuel1 fuel2 fuel3 : Nat)
    (h1 : a.toNat ≤ fuel1) (h2 : b.toNat ≤ fuel2) (h3 : (a + b).toNat ≤ fuel3) :
    ∃ r1 r2 r,
      simulateCycleLoyalty fuel1 ⟨a, B, F, ao, p, fb⟩ = some r1 ∧
      simulateCycleLoyalty fuel2 ⟨b, B, F, ao, r1.progress, r1.freeBal⟩ = some r2 ∧
      simulateCycleLoyalty fuel3 ⟨a + b, B, F, ao, p, fb⟩ = some r ∧
      r2.progress = r.progress ∧ r2.freeBal = r.freeBal ∧
      r1.paid + r2.paid = r.paid ∧ r1.freeUsed + r2.freeUsed = r.freeUsed ∧
      r1.earned + r2.earned = r.earned := by
  have hqa : a = (a.toNat : Int) := (Int.toNat_of_nonneg ha).symm
  have hqb : b = (b.toNat : Int) := (Int.toNat_of_nonneg hb).symm
  have hqab : a + b = ((a.toNat + b.toNat : Nat) : Int) := by push_cast; omega
  have e1 := simulate_refines ⟨a, B, F, ao, p, fb⟩ ⟨ha, hB, hF, hp, hpB, hfb⟩ fuel1 a.toNat
    hqa h1
  have hpr := unitRun_progress B F ao a.toNat ⟨0, 0, 0, p, fb⟩ ⟨hp, hpB⟩
  have hbal := (unitRun_balance B F ao hF a.toNat ⟨0, 0, 0, p, fb⟩ hfb).1
  have e2 := simulate_refines
    ⟨b, B, F, ao, (unitRun B F ao a.toNat ⟨0, 0, 0, p, fb⟩).progress,
      (unitRun B F ao a.toNat ⟨0, 0, 0, p, fb⟩).freeBal⟩
    ⟨hb, hB, hF, hpr.1, hpr.2, hbal⟩ fuel2 b.toNat hqb h2
  have e3 := simulate_refines ⟨a + b, B, F, ao, p, fb⟩
    ⟨Int.add_nonneg ha hb, hB, hF, hp, hpB, hfb⟩ fuel3 (a.toNat + b.toNat) hqab (by omega)
  refine ⟨_, _, _, e1, e2, e3, ?_⟩
  simp only
  rw [unitRun_add]
  generalize unitRun B F ao a.toNat ⟨0, 0, 0, p, fb⟩ = r1
  obtain ⟨pd, fu, e, q, g⟩ := r1
  have hs := unitRun_shift B F ao pd fu e b.toNat 0 0 0 q g
  simp only [zero_add] at hs
  rw [hs]
  simp only
  refine ⟨trivial, trivial, ?_, ?_, ?_⟩ <;> ring

/-- Witness of C2: 150 units then 60 units against 210 units at once, from
an empty cycle and balance with a 100/20 offer. -/
theorem simulate_split_witness :
    (0 : Int) < 100 ∧ (0 : Int) ≤ 20 ∧ (0 : Int) ≤ 0 ∧ (0 : Int) < 100 ∧ (0 : Int) ≤ 0 ∧
      (0 : Int) ≤ 150 ∧ (0 : Int) ≤ 60 ∧
      ∃ r1 r2 r,
        simulateCycleLoyalty 150 ⟨150, 100, 20, true, 0, 0⟩ = some r1 ∧
        simulateCycleLoyalty 60 ⟨60, 100, 20, true, r1.progress, r1.freeBal⟩ = some r2 ∧
        simulateCycleLoyalty 210 ⟨150 + 60, 100, 20, true, 0, 0⟩ = some r ∧
        r2.progress = r.progress ∧ r2.freeBal = r.freeBal ∧
        r1.paid + r2.paid = r.paid ∧ r1.freeUsed + r2.freeUsed = r.freeUsed ∧
        r1.earned + r2.earned = r.earned :=
  ⟨by decide, by decide, by decide, by decide, by decide, by decide, by decide,
    simulate_split 100 20 true 0 0 150 60 (by decide) (by decide) (by decide) (by decide)
      (by decide) (by decide) (by decide) 150 60 210 (by decide) (by decide) (by decide)⟩

/-- C3 (progress range). On every valid input `simulateCycleLoyalty`
returns, given fuel of at least `qty`, a progress with
`0 ≤ progress < buyQty`. -/
theorem simulate_progress_range (inp : SimInput) (hv : inp.Valid) (fuel : Nat)
    (hfuel : inp.qty.toNat ≤ fuel) :
    ∃ r, simulateCycleLoyalty fuel inp = some r ∧
      0 ≤ r.progress ∧ r.progress < inp.buyQty := by
  have hq : inp.qty = (inp.qty.toNat : Int) := (Int.toNat_of_nonneg hv.1).symm
  exact ⟨_, simulate_refines inp hv fuel _ hq hfuel,
    unitRun_progress inp.buyQty inp.freeQty inp.applyOffer inp.qty.toNat
      ⟨0, 0, 0, inp.progressPaid, inp.freeBalance⟩ ⟨hv.2.2.2.1, hv.2.2.2.2.1⟩⟩

/-- Witness of C3: 250 units from progress 90 of a 100/20 cycle with a
balance of 5. -/
theorem simulate_progress_range_witness :
    (⟨250, 100, 20, true, 90, 5⟩ : SimInput).Valid ∧
      (⟨250, 100, 20, true, 90, 5⟩ : SimInput).qty.toNat ≤ 250 ∧
      ∃ r, simulateCycleLoyalty 250 ⟨250, 100, 20, true, 90, 5⟩ = some r ∧
        0 ≤ r.progress ∧ r.progress < (⟨250, 100, 20, true, 90, 5⟩ : SimInput).buyQty :=
  ⟨by decide, by decide,
    simulate_progress_range ⟨250, 100, 20, true, 90, 5⟩ (by decide) 250 (by decide)⟩

/-- C4 (non-negative balances). On every valid input `simulateCycleLoyalty`
returns, given fuel of at least `qty`, a balance `freeBal ≥ 0`, and
`freeUsed` is at most the balance before the call plus `earned`. -/
theorem simulate_balance_bounds (inp : SimInput) (hv : inp.Valid) (fuel : Nat)
    (hfuel : inp.qty.toNat ≤ fuel) :
    ∃ r, simulateCycleLoyalty fuel inp = some r ∧
      0 ≤ r.freeBal ∧ r.freeUsed ≤ inp.freeBalance + r.earned := by
  have hq : inp.qty = (inp.qty.toNat : Int) := (Int.toNat_of_nonneg hv.1).symm
  refine ⟨_, simulate_refines inp hv fuel _ hq hfuel, ?_⟩
  obtain ⟨h1, h2⟩ := unitRun_balance inp.buyQty inp.freeQty inp.applyOffer hv.2.2.1
    inp.qty.toNat ⟨0, 0, 0, inp.progressPaid, inp.freeBalance⟩ hv.2.2.2.2.2
  simp only at h1 h2
  omega

/-- Witness of C4: 40 units against a balance of 15, closing a cycle on the
way. -/
theorem simulate_balance_bounds_witness :
    (⟨40, 100, 20, true, 95, 15⟩ : SimInput).Valid ∧
      (⟨40, 100, 20, true, 95, 15⟩ : SimInput).qty.toNat ≤ 40 ∧
      ∃ r, simulateCycleLoyalty 40 ⟨40, 100, 20, true, 95, 15⟩ = some r ∧
        0 ≤ r.freeBal ∧
        r.freeUsed ≤ (⟨40, 100, 20, true, 95, 15⟩ : SimInput).freeBalance + r.earned :=
  ⟨by decide, by decide,
    simulate_balance_bounds ⟨40, 100, 20, true, 95, 15⟩ (by decide) 40 (by decide)⟩

/-- C5 (banking without redemption). On every valid input with
`applyOffer = false`, `simulateCycleLoyalty` returns, given fuel of at
least `qty`: `paid = qty`, `freeUsed = 0`,
`earned = freeQty * floor((progress + qty) / buyQty)`,
`progress = (progress + qty) mod buyQty` and `freeBal = freeBalance + earned`. -/
theorem simulate_banking (inp : SimInput) (hao : inp.applyOffer = false) (hv : inp.Valid)
    (fuel : Nat) (hfuel : inp.qty.toNat ≤ fuel) :
    simulateCycleLoyalty fuel inp =
      some { paid := inp.qty
             freeUsed := 0
             earned := inp.freeQty * ((inp.progressPaid + inp.qty) / inp.buyQty)
             progress := (inp.progressPaid + inp.qty) % inp.buyQty
             freeBal := inp.freeBalance
               + inp.freeQty * ((inp.progressPaid + inp.qty) / inp.buyQty) } := by
  have hq : inp.qty = (inp.qty.toNat : Int) := (Int.toNat_of_nonneg hv.1).symm
  rw [simulate_refines inp hv fuel _ hq hfuel, hao]
  have hc := unitRun_conserve inp.buyQty inp.freeQty false inp.qty.toNat
    ⟨0, 0, 0, inp.progressPaid, inp.freeBalance⟩
  have hn := unitRun_noOffer inp.buyQty inp.freeQty inp.qty.toNat
    ⟨0, 0, 0, inp.progressPaid, inp.freeBalance⟩
  have hb := unitRun_balance inp.buyQty inp.freeQty false hv.2.2.1 inp.qty.toNat
    ⟨0, 0, 0, inp.progressPaid, inp.freeBalance⟩ hv.2.2.2.2.2
  have hy := unitRun_cycle inp.buyQty inp.freeQty false hv.2.1 inp.qty.toNat
    ⟨0, 0, 0, inp.progressPaid, inp.freeBalance⟩ ⟨hv.2.2.2.1, hv.2.2.2.2.1⟩
  generalize unitRun inp.buyQty inp.freeQty false inp.qty.toNat
    ⟨0, 0, 0, inp.progressPaid, inp.freeBalance⟩ = r at hc hn hb hy
  obtain ⟨pd, fu, e, q, g⟩ := r
  simp only at hc hn hb hy
  have hpd : pd = inp.qty := by omega
  subst hn
  rw [hpd] at hy
  simp only [sub_zero, zero_add] at hy
  simp only [Option.some.injEq, SimResult.mk.injEq]
  refine ⟨hpd, trivial, hy.2, hy.1, ?_⟩
  rw [← hy.2]
  omega

/-- Witness of C5, scenario B: `buyQty = 100`, `freeQty = 20`, progress 90,
no balance, 30 units, redemption off: 30 paid, 20 earned and banked. -/
theorem simulate_banking_witness :
    (⟨30, 100, 20, false, 90, 0⟩ : SimInput).applyOffer = false ∧
      (⟨30, 100, 20, false, 90, 0⟩ : SimInput).Valid ∧
      (⟨30, 100, 20, false, 90, 0⟩ : SimInput).qty.toNat ≤ 30 ∧
      simulateCycleLoyalty 30 ⟨30, 100, 20, false, 90, 0⟩ =
        some { paid := 30, freeUsed := 0, earned := 20, progress := 20, freeBal := 20 } :=
  ⟨rfl, by decide, by decide,
    simulate_banking ⟨30, 100, 20, false, 90, 0⟩ rfl (by decide) 30 (by decide)⟩

/-- C6 (existing balance is used first). On every valid input with
`applyOffer = true` and `qty ≤ freeBalance`, `simulateCycleLoyalty` returns,
with any fuel: `paid = 0`, `freeUsed = qty`, `earned = 0`,
`freeBal = freeBalance - qty`, and the progress it was given. -/
theorem simulate_balance_first (inp : SimInput) (hao : inp.applyOffer = true)
    (hv : inp.Valid) (hle : inp.qty ≤ inp.freeBalance) (fuel : Nat) :
    simulateCycleLoyalty fuel inp =
      some { paid := 0, freeUsed := inp.qty, earned := 0,
             progress := inp.progressPaid, freeBal := inp.freeBalance - inp.qty } := by
  obtain ⟨hq0, hB, hF, hp, hpB, hfb⟩ := hv
  have h1 : max inp.qty 0 = inp.qty := max_eq_left hq0
  have h2 : max inp.progressPaid 0 = inp.progressPaid := max_eq_left hp
  have h3 : max inp.freeBalance 0 = inp.freeBalance := max_eq_left hfb
  have hmin : min inp.qty inp.freeBalance = inp.qty := min_eq_left hle
  unfold simulateCycleLoyalty simInit simPrologue
  rw [h1, h2, h3, hao]
  by_cases hbal : 0 < inp.freeBalance
  · simp only [Bool.true_and, gt_iff_lt, hbal, decide_True, if_true, consumeFree, hmin]
    rw [simLoop_done _ _ _ _ _ (by simp)]
    simp [SimState.toResult]
  · have hq : inp.qty = 0 := by omega
    have hf : inp.freeBalance = 0 := by omega
    simp only [Bool.true_and, gt_iff_lt, hbal, decide_False, if_false, Bool.false_eq_true]
    rw [simLoop_done _ _ _ _ _ (by simp [hq])]
    simp [SimState.toResult, hq, hf]

/-- Witness of C6, scenario C: `buyQty = 100`, `freeQty = 20`, progress 0,
balance 15, 10 units: all 10 free, 5 left, progress untouched. -/
theorem simulate_balance_first_witness :
    (⟨10, 100, 20, true, 0, 15⟩ : SimInput).applyOffer = true ∧
      (⟨10, 100, 20, true, 0, 15⟩ : SimInput).Valid ∧
      (⟨10, 100, 20, true, 0, 15⟩ : SimInput).qty
        ≤ (⟨10, 100, 20, true, 0, 15⟩ : SimInput).freeBalance ∧
      simulateCycleLoyalty 0 ⟨10, 100, 20, true, 0, 15⟩ =
        some { paid := 0, freeUsed := 10, earned := 0, progress := 0, freeBal := 5 } :=
  ⟨rfl, by decide, by decide,
    simulate_balance_first ⟨10, 100, 20, true, 0, 15⟩ rfl (by decide) (by decide) 0⟩

/-- C7 (scenario A). With `buyQty = 100`, `freeQty = 20`, `progressPaid = 90`,
`freeBalance = 0`, `applyOffer = true` and `qty = 30`, `simulateCycleLoyalty`
returns, as soon as one loop iteration is allowed, `paid = 10`,
`freeUsed = 20`, `earned = 20`, `progress = 0` and `freeBal = 0`: the units
earned by closing the cycle pay for the rest of the same purchase. -/
theorem simulate_scenario_A (fuel : Nat) :
    simulateCycleLoyalty (fuel + 1)
        { qty := 30, buyQty := 100, freeQty := 20, applyOffer := true,
          progressPaid := 90, freeBalance := 0 } =
      some { paid := 10, freeUsed := 20, earned := 20, progress := 0, freeBal := 0 } := by
  unfold simulateCycleLoyalty
  have h0 : simPrologue true (simInit ⟨30, 100, 20, true, 90, 0⟩) = ⟨30, 0, 0, 0, 90, 0⟩ := by
    decide
  have h1 : loopBody 100 20 true ⟨30, 0, 0, 0, 90, 0⟩ = ⟨0, 10, 20, 20, 0, 0⟩ := by decide
  simp only [h0]
  rw [simLoop_step _ _ _ _ _ (by decide), h1, simLoop_done _ _ _ _ _ (by decide)]
  rfl

/-- C8 (zero request). For every `buyQty`, `freeQty` and `applyOffer`, and
every progress and balance that are not negative, `simulateCycleLoyalty`
with `qty = 0` returns, with any fuel, all-zero counters and the progress
and balance it was given. -/
theorem simulate_zero (fuel : Nat) (buyQty freeQty : Int) (applyOffer : Bool)
    (cycleProgress freeBalance : Int) (hp : 0 ≤ cycleProgress) (hfb : 0 ≤ freeBalance) :
    simulateCycleLoyalty fuel
        { qty := 0, buyQty := buyQty, freeQty := freeQty, applyOffer := applyOffer,
          progressPaid := cycleProgress, freeBalance := freeBalance } =
      some { paid := 0, freeUsed := 0, earned := 0,
             progress := cycleProgress, freeBal := freeBalance } := by
  have h2 : max cycleProgress 0 = cycleProgress := max_eq_left hp
  have h3 : max freeBalance 0 = freeBalance := max_eq_left hfb
  have hmin : min 0 freeBalance = 0 := min_eq_left hfb
  unfold simulateCycleLoyalty simInit simPrologue
  simp only [h2, h3, max_self]
  split_ifs
  · simp only [consumeFree, hmin]
    rw [simLoop_done _ _ _ _ _ (by simp)]
    simp [SimState.toResult]
  · rw [simLoop_done _ _ _ _ _ (by simp)]
    simp [SimState.toResult]

/-- Witness of C8: a zero request against a cycle length of zero, progress 7
and balance 3, with no fuel at all. -/
theorem simulate_zero_witness :
    (0 : Int) ≤ 7 ∧ (0 : Int) ≤ 3 ∧
      simulateCycleLoyalty 0
          { qty := 0, buyQty := 0, freeQty := -4, applyOffer := true,
            progressPaid := 7, freeBalance := 3 } =
        some { paid := 0, freeUsed := 0, earned := 0, progress := 7, freeBal := 3 } :=
  ⟨by decide, by decide, simulate_zero 0 0 (-4) true 7 3 (by decide) (by decide)⟩

/-! ## The `POST /create` handler and unusable offers -/

/-- C9 (unusable offer), the code at two failing inputs. The handler calls
the simulator for every item of the offer's product, whatever `offerValid`
says. (1) Offer with `buy_quantity = 0`, `free_quantity = 5`, new customer,
one item of 10 units of the offer's product, `applyOffer = true`: the row is
stored with `paid_qty = 0`, `free_qty = 10`, and the ledger earns and
consumes 10 free units. (2) Offer with `buy_quantity = 100`,
`free_quantity = 0`, ledger with 20 unused free units, the same item: the
row is stored with `paid_qty = 0`, `free_qty = 10` and 10 free units are
consumed. -/
theorem create_unusable_offer_redeems (fuel : Nat) :
    offerValid (some ⟨1, 0, 5, none⟩) = false ∧
      createTransaction (fuel + 2) (some ⟨1, 0, 5, none⟩) ⟨0, 0, 0⟩ true [⟨1, 10, 2⟩] =
        some { rows := [{ product_id := 1, quantity := 10, paid_qty := 0,
                          free_qty := 10, price := 2 }]
               totalAmount := 0
               reward := { total_xerox_pages := 10, free_xerox_pages := 10,
                           pages_used := 10 } } ∧
      offerValid (some ⟨1, 100, 0, none⟩) = false ∧
      createTransaction fuel (some ⟨1, 100, 0, none⟩) ⟨0, 20, 0⟩ true [⟨1, 10, 2⟩] =
        some { rows := [{ product_id := 1, quantity := 10, paid_qty := 0,
                          free_qty := 10, price := 2 }]
               totalAmount := 0
               reward := { total_xerox_pages := 10, free_xerox_pages := 20,
                           pages_used := 10 } } := by
  refine ⟨by decide, ?_, by decide, ?_⟩
  · rw [Nat.add_comm]
    exact createTransaction_mono 2 _ _ _ _ _ (by decide) fuel
  · have h := createTransaction_mono 0 (some ⟨1, 100, 0, none⟩) ⟨0, 20, 0⟩ true
      [⟨1, 10, 2⟩] ⟨[⟨1, 10, 0, 10, 2⟩], 0, ⟨10, 20, 10⟩⟩ (by decide) fuel
    rw [Nat.zero_add] at h
    exact h

/-- C10 (loop guard), the code at a failing input. Offer with
`buy_quantity = 0`, `free_quantity = 5`, new customer, one item of 10 units
of the offer's product, `applyOffer = false`: the handler calls the
simulator with `buyQty = 0`, whose loop pays nothing per iteration, and no
amount of fuel lets the request complete. -/
theorem create_zero_buy_quantity_diverges (fuel : Nat) :
    createTransaction fuel (some ⟨1, 0, 5, none⟩) ⟨0, 0, 0⟩ false [⟨1, 10, 2⟩] = none := by
  have hsim : simulateCycleLoyalty fuel ⟨10, 0, 5, false, 0, 0⟩ = none := by
    unfold simulateCycleLoyalty
    have h0 : simPrologue false (simInit ⟨10, 0, 5, false, 0, 0⟩) = ⟨10, 0, 0, 0, 0, 0⟩ := by
      decide
    simp only [h0]
    rw [simLoop_zero_cycle 5 fuel _ (by decide) rfl]
    rfl
  have hv : initVars (some ⟨1, 0, 5, none⟩) ⟨0, 0, 0⟩ = ⟨0, 0, 0, 0, 0, 0, []⟩ := by decide
  unfold createTransaction
  rw [hv]
  simp only [itemsLoop, processItem, isXerox, decide_True, if_true, hsim, Option.map_none',
    Option.none_bind]

/-! ## The items loop: general facts -/

/-- What one item does to the loop variables: either it is not of the
offer's product and is recorded fully paid, or the simulator returned and
its result is recorded. -/
theorem processItem_cases (fuel : Nat) (offer : Option Offer) (ao : Bool) (v v1 : TxVars)
    (item : Item) (h : processItem fuel offer ao v item = some v1) :
    (isXerox offer item = false ∧ v1 = recordItem v item item.quantity 0) ∨
      ∃ o sim, offer = some o ∧ isXerox offer item = true ∧
        simulateCycleLoyalty fuel
          { qty := item.quantity, buyQty := o.buy_quantity, freeQty := o.free_quantity,
            applyOffer := ao, progressPaid := v.progress, freeBalance := v.freeBal } = some sim ∧
        v1 = recordItem
          { v with
            progress := sim.progress
            freeBal := sim.freeBal
            xeroxRequested := v.xeroxRequested + item.quantity
            xeroxFreeUsed := v.xeroxFreeUsed + sim.freeUsed
            xeroxFreeEarned := v.xeroxFreeEarned + sim.earned }
          item sim.paid sim.freeUsed := by
  unfold processItem at h
  cases offer with
  | none =>
    left
    simp only [Option.some.injEq] at h
    exact ⟨rfl, h.symm⟩
  | some o =>
    simp only at h
    split_ifs at h with hx
    · right
      rw [Option.map_eq_some'] at h
      obtain ⟨sim, hs, hv⟩ := h
      exact ⟨o, sim, rfl, hx, hs, hv.symm⟩
    · left
      simp only [Option.some.injEq] at h
      exact ⟨by simpa using hx, h.symm⟩

/-- An item that is not of the offer's product is recorded fully paid. -/
theorem processItem_other (fuel : Nat) (offer : Option Offer) (ao : Bool) (v : TxVars)
    (item : Item) (h : isXerox offer item = false) :
    processItem fuel offer ao v item = some (recordItem v item item.quantity 0) := by
  unfold processItem
  cases offer with
  | none => rfl
  | some o => simp [h]

/-- An item of the offer's product is recorded as the simulator says. -/
theorem processItem_xerox (fuel : Nat) (o : Offer) (ao : Bool) (v : TxVars)
    (item : Item) (sim : SimResult) (h : isXerox (some o) item = true)
    (hs : simulateCycleLoyalty fuel
      { qty := item.quantity, buyQty := o.buy_quantity, freeQty := o.free_quantity,
        applyOffer := ao, progressPaid := v.progress, freeBalance := v.freeBal } = some sim) :
    processItem fuel (some o) ao v item =
      some (recordItem
        { v with
          progress := sim.progress
          freeBal := sim.freeBal
          xeroxRequested := v.xeroxRequested + item.quantity
          xeroxFreeUsed := v.xeroxFreeUsed + sim.freeUsed
          xeroxFreeEarned := v.xeroxFreeEarned + sim.earned }
        item sim.paid sim.freeUsed) := by
  unfold processItem
  simp [h, hs]

/-- A property kept by every item is kept by the loop. -/
theorem itemsLoop_invariant (fuel : Nat) (offer : Option Offer) (ao : Bool)
    (P : TxVars → Prop) :
    ∀ (items : List Item),
      (∀ v item v1, item ∈ items → P v → processItem fuel offer ao v item = some v1 → P v1) →
      ∀ v w, P v → itemsLoop fuel offer ao v items = some w → P w := by
  intro items
  induction items with
  | nil =>
    intro _ v w hv h
    simp only [itemsLoop, Option.some.injEq] at h
    exact h ▸ hv
  | cons item rest ih =>
    intro hstep v w hv h
    simp only [itemsLoop, Option.bind_eq_some] at h
    obtain ⟨v1, h1, h2⟩ := h
    exact ih (fun v item v1 hm => hstep v item v1 (List.mem_cons_of_mem _ hm)) v1 w
      (hstep v item v1 (List.mem_cons_self _ _) hv h1) h2

/-- A property under which every item is processed, and which every item
keeps, makes the loop complete. -/
theorem itemsLoop_total (fuel : Nat) (offer : Option Offer) (ao : Bool)
    (P : TxVars → Prop) :
    ∀ (items : List Item),
      (∀ v item, item ∈ items → P v → ∃ v1, processItem fuel offer ao v item = some v1 ∧ P v1) →
      ∀ v, P v → ∃ w, itemsLoop fuel offer ao v items = some w ∧ P w := by
  intro items
  induction items with
  | nil => intro _ v hv; exact ⟨v, rfl, hv⟩
  | cons item rest ih =>
    intro hstep v hv
    obtain ⟨v1, h1, hP1⟩ := hstep v item (List.mem_cons_self _ _) hv
    obtain ⟨w, h2, hPw⟩ := ih (fun v item hm => hstep v item (List.mem_cons_of_mem _ hm)) v1 hP1
    exact ⟨w, by simp only [itemsLoop, h1, Option.some_bind, h2], hPw⟩

/-- A request of no units (or fewer) returns at once: nothing paid, used or
earned. -/
theorem simulate_nonpos (fuel : Nat) (inp : SimInput) (h : inp.qty ≤ 0) :
    simulateCycleLoyalty fuel inp =
      some { paid := 0, freeUsed := 0, earned := 0,
             progress := max inp.progressPaid 0, freeBal := max inp.freeBalance 0 } := by
  have h1 : max inp.qty 0 = 0 := max_eq_right h
  have hmin : min 0 (max inp.freeBalance 0) = 0 := min_eq_left (le_max_right _ _)
  unfold simulateCycleLoyalty simInit simPrologue
  simp only [h1]
  split_ifs
  · simp only [consumeFree, hmin]
    rw [simLoop_done _ _ _ _ _ (by simp)]
    simp [SimState.toResult]
  · rw [simLoop_done _ _ _ _ _ (by simp)]
    simp [SimState.toResult]

/-- Everything the contract says about a call on a valid input, in one
statement. -/
theorem simulate_valid (inp : SimInput) (hv : inp.Valid) (fuel : Nat)
    (hfuel : inp.qty.toNat ≤ fuel) :
    ∃ r, simulateCycleLoyalty fuel inp = some r ∧
      0 ≤ r.paid ∧ 0 ≤ r.freeUsed ∧ r.paid + r.freeUsed = inp.qty ∧
      0 ≤ r.progress ∧ r.progress < inp.buyQty ∧ 0 ≤ r.freeBal ∧
      r.freeBal + r.freeUsed - r.earned = inp.freeBalance ∧
      r.progress = (inp.progressPaid + r.paid) % inp.buyQty ∧
      r.earned = inp.freeQty * ((inp.progressPaid + r.paid) / inp.buyQty) := by
  have hq : inp.qty = (inp.qty.toNat : Int) := (Int.toNat_of_nonneg hv.1).symm
  refine ⟨_, simulate_refines inp hv fuel _ hq hfuel, ?_⟩
  obtain ⟨c1, c2, c3⟩ := unitRun_conserve inp.buyQty inp.freeQty inp.applyOffer inp.qty.toNat
    ⟨0, 0, 0, inp.progressPaid, inp.freeBalance⟩
  obtain ⟨p1, p2⟩ := unitRun_progress inp.buyQty inp.freeQty inp.applyOffer inp.qty.toNat
    ⟨0, 0, 0, inp.progressPaid, inp.freeBalance⟩ ⟨hv.2.2.2.1, hv.2.2.2.2.1⟩
  obtain ⟨b1, b2⟩ := unitRun_balance inp.buyQty inp.freeQty inp.applyOffer hv.2.2.1
    inp.qty.toNat ⟨0, 0, 0, inp.progressPaid, inp.freeBalance⟩ hv.2.2.2.2.2
  obtain ⟨y1, y2⟩ := unitRun_cycle inp.buyQty inp.freeQty inp.applyOffer hv.2.1 inp.qty.toNat
    ⟨0, 0, 0, inp.progressPaid, inp.freeBalance⟩ ⟨hv.2.2.2.1, hv.2.2.2.2.1⟩
  simp only [sub_zero, zero_add] at c1 c2 c3 b2 y1 y2
  exact ⟨c2, c3, by omega, p1, p2, b1, by omega, y1, y2⟩

/-- The loop starts in such a state when the cycle length is positive. -/
theorem initVars_inv (offer : Option Offer) (reward : Reward)
    (hoffer : ∀ o, offer = some o → 0 < o.buy_quantity) :
    LoopInv offer (initVars offer reward) := by
  refine ⟨le_max_right _ _, ?_, ?_⟩
  · cases offer with
    | none => simp [initVars]
    | some o =>
      simp only [initVars]
      split_ifs
      · rw [Int.tmod_eq_emod (le_max_right _ _) (le_of_lt (hoffer o rfl))]
        exact Int.emod_nonneg _ (ne_of_gt (hoffer o rfl))
      · exact le_refl _
  · intro o ho
    subst ho
    simp only [initVars]
    split_ifs
    · rw [Int.tmod_eq_emod (le_max_right _ _) (le_of_lt (hoffer o rfl))]
      exact Int.emod_lt_of_pos _ (hoffer o rfl)
    · exact hoffer o rfl

/-- One item with a quantity that is not negative, under an offer with a
positive cycle length and a reward that is not negative (or no offer): the
item is processed, its row splits the quantity into a paid and a free part,
neither negative, the state stays good, and the balance moves by what was
earned minus what was used. -/
theorem processItem_valid (fuel : Nat) (offer : Option Offer) (ao : Bool) (v : TxVars)
    (item : Item)
    (hoffer : ∀ o, offer = some o → 0 < o.buy_quantity ∧ 0 ≤ o.free_quantity)
    (hq : 0 ≤ item.quantity) (hfuel : item.quantity.toNat ≤ fuel)
    (hinv : LoopInv offer v) :
    ∃ v1 paid free, processItem fuel offer ao v item = some v1 ∧
      v1.rows = v.rows ++ [⟨item.id, item.quantity, paid, free, item.price⟩] ∧
      0 ≤ paid ∧ 0 ≤ free ∧ paid + free = item.quantity ∧
      LoopInv offer v1 ∧
      v1.freeBal + v1.xeroxFreeUsed - v1.xeroxFreeEarned
        = v.freeBal + v.xeroxFreeUsed - v.xeroxFreeEarned := by
  by_cases hx : isXerox offer item = true
  · cases offer with
    | none => simp [isXerox] at hx
    | some o =>
      obtain ⟨hB, hF⟩ := hoffer o rfl
      obtain ⟨hfb, hp, hpB⟩ := hinv
      obtain ⟨sim, hs, s1, s2, s3, s4, s5, s6, s7, _, _⟩ := simulate_valid
        { qty := item.quantity, buyQty := o.buy_quantity, freeQty := o.free_quantity,
          applyOffer := ao, progressPaid := v.progress, freeBalance := v.freeBal }
        ⟨hq, hB, hF, hp, hpB o rfl, hfb⟩ fuel hfuel
      refine ⟨_, sim.paid, sim.freeUsed, processItem_xerox fuel o ao v item sim hx hs,
        rfl, s1, s2, s3, ⟨s6, s4, ?_⟩, ?_⟩
      · intro o1 ho1
        simp only [Option.some.injEq] at ho1
        subst ho1
        exact s5
      · simp only [recordItem]
        simp only at s7
        omega
  · have hx1 : isXerox offer item = false := by simpa using hx
    exact ⟨_, item.quantity, 0, processItem_other fuel offer ao v item hx1, rfl, hq,
      le_refl _, by omega, hinv, rfl⟩

/-! ## The transaction processor -/

/-- C12 (line-item split), the claim as stated fails: nothing checks the
quantities. With no offer, an item of quantity `-3` is stored with
`paid_qty = -3`; with a 100/20 offer, an item of the offer's product of
quantity `-4` is stored with `paid_qty = 0` and `free_qty = 0`, which do not
add up to `-4`. -/
theorem create_split_counterexample :
    createTransaction 0 none ⟨0, 0, 0⟩ true [⟨7, -3, 2⟩] =
        some { rows := [{ product_id := 7, quantity := -3, paid_qty := -3,
                          free_qty := 0, price := 2 }]
               totalAmount := -6
               reward := ⟨0, 0, 0⟩ } ∧
      createTransaction 0 (some ⟨1, 100, 20, none⟩) ⟨0, 0, 0⟩ true [⟨1, -4, 2⟩] =
        some { rows := [{ product_id := 1, quantity := -4, paid_qty := 0,
                          free_qty := 0, price := 2 }]
               totalAmount := 0
               reward := ⟨0, 0, 0⟩ } ∧
      ¬ ((0 : Int) ≤ -3) ∧ (-4 : Int) ≠ 0 + 0 := by
  decide

/-- C12 as amended. For every request whose items all have a quantity that
is not negative, with no offer resolved or an offer with
`buy_quantity > 0` and `free_quantity ≥ 0`, and for every ledger row, the
handler completes (given fuel of at least every quantity) and every row it
stores has `quantity = paid_qty + free_qty`, `paid_qty ≥ 0` and
`free_qty ≥ 0`. -/
theorem create_split_invariant (fuel : Nat) (offer : Option Offer) (reward : Reward)
    (ao : Bool) (items : List Item)
    (hoffer : ∀ o, offer = some o → 0 < o.buy_quantity ∧ 0 ≤ o.free_quantity)
    (hitems : ∀ item ∈ items, 0 ≤ item.quantity ∧ item.quantity.toNat ≤ fuel) :
    ∃ out, createTransaction fuel offer reward ao items = some out ∧
      ∀ row ∈ out.rows, row.quantity = row.paid_qty + row.free_qty ∧
        0 ≤ row.paid_qty ∧ 0 ≤ row.free_qty := by
  obtain ⟨w, hw, _, hrows⟩ := itemsLoop_total fuel offer ao
    (fun v => LoopInv offer v ∧ ∀ row ∈ v.rows, row.quantity = row.paid_qty + row.free_qty ∧
      0 ≤ row.paid_qty ∧ 0 ≤ row.free_qty) items
    (by
      rintro v item hm ⟨hinv, hrows⟩
      obtain ⟨v1, paid, free, h1, h2, h3, h4, h5, h6, _⟩ := processItem_valid fuel offer ao v
        item hoffer (hitems item hm).1 (hitems item hm).2 hinv
      refine ⟨v1, h1, h6, ?_⟩
      intro row hrow
      rw [h2, List.mem_append, List.mem_singleton] at hrow
      rcases hrow with hrow | hrow
      · exact hrows row hrow
      · subst hrow
        exact ⟨h5.symm, h3, h4⟩)
    (initVars offer reward)
    ⟨initVars_inv offer reward (fun o ho => (hoffer o ho).1), by simp [initVars]⟩
  exact ⟨{ rows := w.rows, totalAmount := w.totalAmount, reward := updateRewards reward w },
    by simp only [createTransaction, hw, Option.map_some'], hrows⟩

/-- Witness of C12 as amended: 150 units of the offer's product, 3 of
another and 60 more of the first, under a 100/20 offer. -/
theorem create_split_invariant_witness :
    (∀ o, some (⟨1, 100, 20, none⟩ : Offer) = some o → 0 < o.buy_quantity ∧ 0 ≤ o.free_quantity) ∧
      (∀ item ∈ [(⟨1, 150, 2⟩ : Item), ⟨2, 3, 5⟩, ⟨1, 60, 2⟩],
        0 ≤ item.quantity ∧ item.quantity.toNat ≤ 150) ∧
      ∃ out, createTransaction 150 (some ⟨1, 100, 20, none⟩) ⟨0, 0, 0⟩ true
          [⟨1, 150, 2⟩, ⟨2, 3, 5⟩, ⟨1, 60, 2⟩] = some out ∧
        ∀ row ∈ out.rows, row.quantity = row.paid_qty + row.free_qty ∧
          0 ≤ row.paid_qty ∧ 0 ≤ row.free_qty :=
  ⟨by intro o ho; cases ho; decide, by decide,
    create_split_invariant 150 (some ⟨1, 100, 20, none⟩) ⟨0, 0, 0⟩ true
      [⟨1, 150, 2⟩, ⟨2, 3, 5⟩, ⟨1, 60, 2⟩] (by intro o ho; cases ho; decide) (by decide)⟩

/-- C13 (transaction total). Whenever the handler completes, the
`total_amount` it writes to the header is the sum of `paid_qty * price` over
the rows it stored; `free_qty` does not enter. -/
theorem create_total_amount (fuel : Nat) (offer : Option Offer) (reward : Reward)
    (ao : Bool) (items : List Item) (out : TxOutcome)
    (h : createTransaction fuel offer reward ao items = some out) :
    out.totalAmount = (out.rows.map fun row => row.paid_qty * row.price).sum := by
  unfold createTransaction at h
  rw [Option.map_eq_some'] at h
  obtain ⟨w, hw, hout⟩ := h
  subst hout
  refine itemsLoop_invariant fuel offer ao
    (fun v => v.totalAmount = (v.rows.map fun row => row.paid_qty * row.price).sum) items ?_
    (initVars offer reward) w (by simp [initVars]) hw
  intro v item v1 _ hv h1
  rcases processItem_cases fuel offer ao v v1 item h1 with ⟨_, hv1⟩ | ⟨o, sim, _, _, _, hv1⟩
  · subst hv1
    simp [recordItem, hv]
  · subst hv1
    simp [recordItem, hv]

/-- Witness of C13, scenario A as a purchase at price 2: 10 units paid and
20 free give a total of 20. -/
theorem create_total_amount_witness :
    createTransaction 1 (some ⟨1, 100, 20, none⟩) ⟨90, 0, 0⟩ true [⟨1, 30, 2⟩] =
        some { rows := [{ product_id := 1, quantity := 30, paid_qty := 10,
                          free_qty := 20, price := 2 }]
               totalAmount := 20
               reward := ⟨120, 20, 20⟩ } ∧
      (20 : Int) = ([({ product_id := 1, quantity := 30, paid_qty := 10,
                        free_qty := 20, price := 2 } : ItemRow)].map
                      fun row => row.paid_qty * row.price).sum :=
  ⟨by decide,
    create_total_amount 1 (some ⟨1, 100, 20, none⟩) ⟨90, 0, 0⟩ true [⟨1, 30, 2⟩]
      ⟨[⟨1, 30, 10, 20, 2⟩], 20, ⟨120, 20, 20⟩⟩ (by decide)⟩

/-- An item whose product is not the offer's, or any item when there is no
offer, fails the test of lines 150-151. -/
theorem isXerox_of_ne (offer : Option Offer) (item : Item)
    (h : ∀ o, offer = some o → item.id ≠ o.product_id) : isXerox offer item = false := by
  cases offer with
  | none => rfl
  | some o => simpa [isXerox] using h o rfl

/-- C14 (non-matching items). An item whose product id differs from the
offer's `product_id`, or any item when no offer is resolved, is stored with
`paid_qty = quantity` and `free_qty = 0`, leaves the threaded progress and
balance as they were and adds nothing to the three ledger deltas; and a
request without any matching item completes and leaves the ledger row
unchanged. -/
theorem create_other_items_untouched (fuel : Nat) (offer : Option Offer) (ao : Bool) :
    (∀ (v : TxVars) (item : Item), (∀ o, offer = some o → item.id ≠ o.product_id) →
      ∃ v1, processItem fuel offer ao v item = some v1 ∧
        v1.rows = v.rows ++ [⟨item.id, item.quantity, item.quantity, 0, item.price⟩] ∧
        v1.progress = v.progress ∧ v1.freeBal = v.freeBal ∧
        v1.xeroxRequested = v.xeroxRequested ∧ v1.xeroxFreeUsed = v.xeroxFreeUsed ∧
        v1.xeroxFreeEarned = v.xeroxFreeEarned) ∧
      (∀ (reward : Reward) (items : List Item),
        (∀ item ∈ items, ∀ o, offer = some o → item.id ≠ o.product_id) →
        ∃ out, createTransaction fuel offer reward ao items = some out ∧
          out.reward = reward ∧
          out.rows = items.map fun item =>
            ⟨item.id, item.quantity, item.quantity, 0, item.price⟩) := by
  constructor
  · intro v item h
    exact ⟨_, processItem_other fuel offer ao v item (isXerox_of_ne offer item h),
      rfl, rfl, rfl, rfl, rfl, rfl⟩
  · intro reward items h
    have key : ∀ (items : List Item) (v : TxVars),
        (∀ item ∈ items, ∀ o, offer = some o → item.id ≠ o.product_id) →
        ∃ w, itemsLoop fuel offer ao v items = some w ∧
          w.xeroxRequested = v.xeroxRequested ∧
          w.rows = v.rows ++ items.map fun item =>
            ⟨item.id, item.quantity, item.quantity, 0, item.price⟩ := by
      intro items
      induction items with
      | nil => intro v _; exact ⟨v, rfl, rfl, by simp⟩
      | cons item rest ih =>
        intro v hall
        obtain ⟨w, hw, hr, hrows⟩ := ih (recordItem v item item.quantity 0)
          (fun it hm => hall it (List.mem_cons_of_mem _ hm))
        refine ⟨w, ?_, hr, ?_⟩
        · simp only [itemsLoop, processItem_other fuel offer ao v item
            (isXerox_of_ne offer item (hall item (List.mem_cons_self _ _))),
            Option.some_bind, hw]
        · rw [hrows]
          simp [recordItem]
    obtain ⟨w, hw, hr, hrows⟩ := key items (initVars offer reward) h
    refine ⟨{ rows := w.rows, totalAmount := w.totalAmount, reward := updateRewards reward w },
      by simp only [createTransaction, hw, Option.map_some'], ?_, ?_⟩
    · have h0 : w.xeroxRequested = 0 := by rw [hr]; simp [initVars]
      simp [updateRewards, h0]
    · simp only [hrows]
      simp [initVars]

/-- Witness of C14: under an offer on product 1, items of products 2 and 3
are stored fully paid and the ledger row `(90, 20, 5)` is left as it was. -/
theorem create_other_items_untouched_witness :
    (∀ o, some (⟨1, 100, 20, none⟩ : Offer) = some o → (⟨2, 7, 3⟩ : Item).id ≠ o.product_id) ∧
      (∀ item ∈ [(⟨2, 7, 3⟩ : Item), ⟨3, 4, 1⟩],
        ∀ o, some (⟨1, 100, 20, none⟩ : Offer) = some o → item.id ≠ o.product_id) ∧
      (∃ v1, processItem 0 (some ⟨1, 100, 20, none⟩) true ⟨40, 15, 0, 0, 0, 0, []⟩ ⟨2, 7, 3⟩
          = some v1 ∧
        v1.rows = [] ++ [⟨2, 7, 7, 0, 3⟩] ∧ v1.progress = 40 ∧ v1.freeBal = 15 ∧
        v1.xeroxRequested = 0 ∧ v1.xeroxFreeUsed = 0 ∧ v1.xeroxFreeEarned = 0) ∧
      ∃ out, createTransaction 0 (some ⟨1, 100, 20, none⟩) ⟨90, 20, 5⟩ true
          [⟨2, 7, 3⟩, ⟨3, 4, 1⟩] = some out ∧
        out.reward = ⟨90, 20, 5⟩ ∧
        out.rows = [(⟨2, 7, 3⟩ : Item), ⟨3, 4, 1⟩].map fun item =>
          ⟨item.id, item.quantity, item.quantity, 0, item.price⟩ :=
  ⟨by intro o ho; cases ho; decide, by intro item hm o ho; cases ho; revert item; decide,
    (create_other_items_untouched 0 (some ⟨1, 100, 20, none⟩) true).1
      ⟨40, 15, 0, 0, 0, 0, []⟩ ⟨2, 7, 3⟩ (by intro o ho; cases ho; decide),
    (create_other_items_untouched 0 (some ⟨1, 100, 20, none⟩) true).2 ⟨90, 20, 5⟩
      [⟨2, 7, 3⟩, ⟨3, 4, 1⟩] (by intro item hm o ho; cases ho; revert item; decide)⟩

/-- C15 (consumed never exceeds earned). For every ledger row with
`pages_used ≤ free_xerox_pages`, every offer with `buy_quantity > 0` and
`free_quantity > 0`, and every list of items whose quantities are not
negative, the handler completes (given fuel of at least every quantity) and
the ledger row it leaves still has `pages_used ≤ free_xerox_pages`. -/
theorem create_consumed_le_earned (fuel : Nat) (o : Offer) (reward : Reward) (ao : Bool)
    (items : List Item) (hvalid : 0 < o.buy_quantity ∧ 0 < o.free_quantity)
    (hledger : reward.pages_used ≤ reward.free_xerox_pages)
    (hitems : ∀ item ∈ items, 0 ≤ item.quantity ∧ item.quantity.toNat ≤ fuel) :
    ∃ out, createTransaction fuel (some o) reward ao items = some out ∧
      out.reward.pages_used ≤ out.reward.free_xerox_pages := by
  have hoffer : ∀ o1, some o = some o1 → 0 < o1.buy_quantity ∧ 0 ≤ o1.free_quantity := by
    intro o1 ho1
    cases ho1
    exact ⟨hvalid.1, le_of_lt hvalid.2⟩
  obtain ⟨w, hw, hinv, hbal⟩ := itemsLoop_total fuel (some o) ao
    (fun v => LoopInv (some o) v ∧
      v.freeBal + v.xeroxFreeUsed - v.xeroxFreeEarned
        = reward.free_xerox_pages - reward.pages_used) items
    (by
      rintro v item hm ⟨hinv, hbal⟩
      obtain ⟨v1, paid, free, h1, _, _, _, _, h6, h7⟩ := processItem_valid fuel (some o) ao v
        item hoffer (hitems item hm).1 (hitems item hm).2 hinv
      exact ⟨v1, h1, h6, by rw [h7]; exact hbal⟩)
    (initVars (some o) reward)
    ⟨initVars_inv (some o) reward (fun o1 ho1 => (hoffer o1 ho1).1), by
      simp only [initVars, add_zero, sub_zero]
      exact max_eq_left (by omega)⟩
  refine ⟨{ rows := w.rows, totalAmount := w.totalAmount, reward := updateRewards reward w },
    by simp only [createTransaction, hw, Option.map_some'], ?_⟩
  have hfb := hinv.1
  simp only [updateRewards]
  split_ifs
  · simp only
    omega
  · exact hledger

/-- Witness of C15: ledger row `(190, 20, 5)`, 100/20 offer, items of 30 and
of 95 units of the offer's product, redemption on. -/
theorem create_consumed_le_earned_witness :
    ((0 : Int) < (⟨1, 100, 20, none⟩ : Offer).buy_quantity ∧
        (0 : Int) < (⟨1, 100, 20, none⟩ : Offer).free_quantity) ∧
      (⟨190, 20, 5⟩ : Reward).pages_used ≤ (⟨190, 20, 5⟩ : Reward).free_xerox_pages ∧
      (∀ item ∈ [(⟨1, 30, 2⟩ : Item), ⟨1, 95, 2⟩],
        0 ≤ item.quantity ∧ item.quantity.toNat ≤ 95) ∧
      ∃ out, createTransaction 95 (some ⟨1, 100, 20, none⟩) ⟨190, 20, 5⟩ true
          [⟨1, 30, 2⟩, ⟨1, 95, 2⟩] = some out ∧
        out.reward.pages_used ≤ out.reward.free_xerox_pages :=
  ⟨by decide, by decide, by decide,
    create_consumed_le_earned 95 ⟨1, 100, 20, none⟩ ⟨190, 20, 5⟩ true
      [⟨1, 30, 2⟩, ⟨1, 95, 2⟩] (by decide) (by decide) (by decide)⟩

/-- One pass through the loop body takes nothing back from `earned` (when
the reward size is not negative) nor from `freeUsed`. -/
theorem loopBody_counters (B F : Int) (ao : Bool) (s : SimState) (hF : 0 ≤ F) :
    s.earned ≤ (loopBody B F ao s).earned ∧ s.freeUsed ≤ (loopBody B F ao s).freeUsed := by
  unfold loopBody
  simp only
  split_ifs with h1 h2
  · simp only [Bool.and_eq_true, decide_eq_true_eq] at h2
    obtain ⟨⟨_, hb⟩, hr⟩ := h2
    simp only [consumeFree]
    have hmin : 0 ≤ min (s.remaining - min s.remaining (B - s.progress)) (s.freeBal + F) :=
      le_min (le_of_lt hr) (le_of_lt hb)
    constructor <;> omega
  · constructor <;> simp only <;> omega
  · exact ⟨le_refl _, le_refl _⟩

theorem simLoop_counters (B F : Int) (ao : Bool) (hF : 0 ≤ F) :
    ∀ (fuel : Nat) (s t : SimState), simLoop B F ao fuel s = some t →
      s.earned ≤ t.earned ∧ s.freeUsed ≤ t.freeUsed := by
  intro fuel
  induction fuel with
  | zero =>
    intro s t h
    by_cases hr : 0 < s.remaining
    · simp [simLoop, hr] at h
    · rw [simLoop_done _ _ _ _ _ (not_lt.mp hr)] at h
      simp only [Option.some.injEq] at h
      subst h
      exact ⟨le_refl _, le_refl _⟩
  | succ fuel ih =>
    intro s t h
    by_cases hr : 0 < s.remaining
    · rw [simLoop_step _ _ _ _ _ hr] at h
      obtain ⟨a, b⟩ := ih _ _ h
      obtain ⟨c, d⟩ := loopBody_counters B F ao s hF
      exact ⟨le_trans c a, le_trans d b⟩
    · rw [simLoop_done _ _ _ _ _ (not_lt.mp hr)] at h
      simp only [Option.some.injEq] at h
      subst h
      exact ⟨le_refl _, le_refl _⟩

/-- Whatever the cycle length, a call that returns with a reward size that
is not negative has earned and used nothing negative. -/
theorem simulate_counters (fuel : Nat) (inp : SimInput) (r : SimResult)
    (hF : 0 ≤ inp.freeQty) (h : simulateCycleLoyalty fuel inp = some r) :
    0 ≤ r.earned ∧ 0 ≤ r.freeUsed := by
  unfold simulateCycleLoyalty at h
  rw [Option.map_eq_some'] at h
  obtain ⟨t, ht, hr⟩ := h
  obtain ⟨a, b⟩ := simLoop_counters _ _ _ hF _ _ _ ht
  subst hr
  have hp : (0 : Int) ≤ (simPrologue inp.applyOffer (simInit inp)).earned ∧
      (0 : Int) ≤ (simPrologue inp.applyOffer (simInit inp)).freeUsed := by
    unfold simPrologue
    split_ifs with hc
    · simp only [Bool.and_eq_true, decide_eq_true_eq] at hc
      simp only [consumeFree, simInit, zero_add] at hc ⊢
      exact ⟨le_refl _, le_min (le_max_right _ _) (le_of_lt hc.2)⟩
    · exact ⟨le_refl _, le_refl _⟩
  exact ⟨le_trans hp.1 a, le_trans hp.2 b⟩

/-- With an offer whose `free_quantity` is not negative (or no offer), a
request that completes lowers none of the three counters of the ledger
row. -/
theorem create_counters_monotone (fuel : Nat) (offer : Option Offer) (reward : Reward)
    (ao : Bool) (items : List Item) (out : TxOutcome)
    (hoffer : ∀ o, offer = some o → 0 ≤ o.free_quantity)
    (h : createTransaction fuel offer reward ao items = some out) :
    reward.total_xerox_pages ≤ out.reward.total_xerox_pages ∧
      reward.free_xerox_pages ≤ out.reward.free_xerox_pages ∧
      reward.pages_used ≤ out.reward.pages_used := by
  unfold createTransaction at h
  rw [Option.map_eq_some'] at h
  obtain ⟨w, hw, hout⟩ := h
  subst hout
  have hinv : 0 ≤ w.xeroxFreeEarned ∧ 0 ≤ w.xeroxFreeUsed := by
    refine itemsLoop_invariant fuel offer ao
      (fun v => 0 ≤ v.xeroxFreeEarned ∧ 0 ≤ v.xeroxFreeUsed) items ?_
      (initVars offer reward) w ⟨le_refl _, le_refl _⟩ hw
    rintro v item v1 _ ⟨he, hu⟩ h1
    rcases processItem_cases fuel offer ao v v1 item h1 with ⟨_, hv1⟩ | ⟨o, sim, ho, _, hs, hv1⟩
    · subst hv1
      exact ⟨he, hu⟩
    · obtain ⟨a, b⟩ := simulate_counters fuel _ sim (hoffer o ho) hs
      subst hv1
      simp only [recordItem]
      constructor <;> omega
  simp only [updateRewards]
  split_ifs with hpos
  · simp only
    refine ⟨?_, ?_, ?_⟩ <;> omega
  · exact ⟨le_refl _, le_refl _, le_refl _⟩

/-- C16 (counters never decrease), the code at a failing input. Offer with
`buy_quantity = 10` and `free_quantity = -5`, ledger row `(0, 20, 0)`, one
item of 10 units of the offer's product, `applyOffer = false`: `offerValid`
is false, yet the simulator runs, closes a cycle and "earns" `-5`, and the
ledger update takes `free_xerox_pages` from 20 down to 15. -/
theorem create_free_pages_decrease (fuel : Nat) :
    offerValid (some ⟨1, 10, -5, none⟩) = false ∧
      createTransaction (fuel + 1) (some ⟨1, 10, -5, none⟩) ⟨0, 20, 0⟩ false [⟨1, 10, 2⟩] =
        some { rows := [{ product_id := 1, quantity := 10, paid_qty := 10,
                          free_qty := 0, price := 2 }]
               totalAmount := 20
               reward := { total_xerox_pages := 10, free_xerox_pages := 15,
                           pages_used := 0 } } ∧
      (15 : Int) < (⟨0, 20, 0⟩ : Reward).free_xerox_pages := by
  refine ⟨by decide, ?_, by decide⟩
  rw [Nat.add_comm]
  exact createTransaction_mono 1 _ _ _ _ _ (by decide) fuel

/-- The sums the loop keeps are the sums over the simulator calls it made,
which are those for the items of the offer's product; when no quantity is
negative and the requested units sum to zero, nothing was earned or used. -/
theorem itemsLoop_trace (fuel : Nat) (offer : Option Offer) (ao : Bool) :
    ∀ (items : List Item) (v w : TxVars), itemsLoop fuel offer ao v items = some w →
      (∀ item ∈ items, 0 ≤ item.quantity) →
      ∃ tr, simTrace fuel offer ao v items = some tr ∧
        tr.map Prod.fst = items.filter (isXerox offer) ∧
        w.xeroxRequested = v.xeroxRequested + (tr.map fun p => p.1.quantity).sum ∧
        w.xeroxFreeEarned = v.xeroxFreeEarned + (tr.map fun p => p.2.earned).sum ∧
        w.xeroxFreeUsed = v.xeroxFreeUsed + (tr.map fun p => p.2.freeUsed).sum ∧
        0 ≤ (tr.map fun p => p.1.quantity).sum ∧
        ((tr.map fun p => p.1.quantity).sum = 0 →
          (tr.map fun p => p.2.earned).sum = 0 ∧ (tr.map fun p => p.2.freeUsed).sum = 0) := by
  intro items
  induction items with
  | nil =>
    intro v w h _
    simp only [itemsLoop, Option.some.injEq] at h
    subst h
    exact ⟨[], rfl, rfl, by simp, by simp, by simp, by simp, by simp⟩
  | cons item rest ih =>
    intro v w h hq
    simp only [itemsLoop, Option.bind_eq_some] at h
    obtain ⟨v1, h1, h2⟩ := h
    obtain ⟨tr, t1, t2, t3, t4, t5, t6, t7⟩ := ih v1 w h2
      (fun it hm => hq it (List.mem_cons_of_mem _ hm))
    have hq0 := hq item (List.mem_cons_self _ _)
    rcases processItem_cases fuel offer ao v v1 item h1 with ⟨hx, hv1⟩ | ⟨o, sim, ho, hx, hs, hv1⟩
    · refine ⟨tr, ?_, ?_, ?_, ?_, ?_, t6, t7⟩
      · simp only [simTrace, h1, Option.some_bind, t1]
        cases offer with
        | none => rfl
        | some o => simp [hx]
      · simp [List.filter_cons, hx, t2]
      · rw [t3, hv1]; rfl
      · rw [t4, hv1]; rfl
      · rw [t5, hv1]; rfl
    · subst ho
      refine ⟨(item, sim) :: tr, ?_, ?_, ?_, ?_, ?_, ?_, ?_⟩
      · simp only [simTrace, h1, Option.some_bind, t1, hx, if_true, hs, Option.map_some']
      · simp [List.filter_cons, hx, t2]
      · rw [t3, hv1]
        simp only [recordItem, List.map_cons, List.sum_cons]
        ring
      · rw [t4, hv1]
        simp only [recordItem, List.map_cons, List.sum_cons]
        ring
      · rw [t5, hv1]
        simp only [recordItem, List.map_cons, List.sum_cons]
        ring
      · simp only [List.map_cons, List.sum_cons]
        omega
      · intro hsum
        simp only [List.map_cons, List.sum_cons] at hsum ⊢
        have hi : item.quantity = 0 := by omega
        have hr : (tr.map fun p => p.1.quantity).sum = 0 := by omega
        rw [simulate_nonpos fuel _ (le_of_eq hi)] at hs
        simp only [Option.some.injEq] at hs
        subst hs
        obtain ⟨e1, e2⟩ := t7 hr
        simp [e1, e2]

/-- C17 (net ledger delta), the claim as stated fails: the accrued-units
counter grows by the units requested, free ones included. Scenario A as a
purchase, ledger row `(90, 0, 0)`: 10 units are paid and 20 are free, and
`total_xerox_pages` goes from 90 to 120, not to 100. -/
theorem create_ledger_delta_counterexample :
    createTransaction 1 (some ⟨1, 100, 20, none⟩) ⟨90, 0, 0⟩ true [⟨1, 30, 2⟩] =
        some { rows := [{ product_id := 1, quantity := 30, paid_qty := 10,
                          free_qty := 20, price := 2 }]
               totalAmount := 20
               reward := { total_xerox_pages := 120, free_xerox_pages := 20,
                           pages_used := 20 } } ∧
      (120 : Int) ≠ (⟨90, 0, 0⟩ : Reward).total_xerox_pages + 10 := by
  decide

/-- C17 as amended. For every request that completes and whose items have
no negative quantity: the simulator was called once for each item of the
offer's product, in order; `total_xerox_pages` has grown by the sum of the
quantities requested in those items (paid and free together),
`free_xerox_pages` by the sum of what the calls earned and `pages_used` by
the sum of what they used. -/
theorem create_ledger_delta (fuel : Nat) (offer : Option Offer) (reward : Reward)
    (ao : Bool) (items : List Item) (out : TxOutcome)
    (h : createTransaction fuel offer reward ao items = some out)
    (hq : ∀ item ∈ items, 0 ≤ item.quantity) :
    ∃ tr, simTrace fuel offer ao (initVars offer reward) items = some tr ∧
      tr.map Prod.fst = items.filter (isXerox offer) ∧
      out.reward.total_xerox_pages
        = reward.total_xerox_pages + (tr.map fun p => p.1.quantity).sum ∧
      out.reward.free_xerox_pages
        = reward.free_xerox_pages + (tr.map fun p => p.2.earned).sum ∧
      out.reward.pages_used
        = reward.pages_used + (tr.map fun p => p.2.freeUsed).sum := by
  unfold createTransaction at h
  rw [Option.map_eq_some'] at h
  obtain ⟨w, hw, hout⟩ := h
  subst hout
  obtain ⟨tr, t1, t2, t3, t4, t5, t6, t7⟩ := itemsLoop_trace fuel offer ao items _ w hw hq
  refine ⟨tr, t1, t2, ?_⟩
  have i1 : (initVars offer reward).xeroxRequested = 0 := rfl
  have i2 : (initVars offer reward).xeroxFreeEarned = 0 := rfl
  have i3 : (initVars offer reward).xeroxFreeUsed = 0 := rfl
  rw [i1, zero_add] at t3
  rw [i2, zero_add] at t4
  rw [i3, zero_add] at t5
  simp only [updateRewards]
  split_ifs with hpos
  · simp only [t3, t4, t5, and_self]
  · have hz : (tr.map fun p => p.1.quantity).sum = 0 := by omega
    obtain ⟨e1, e2⟩ := t7 hz
    simp [hz, e1, e2]

/-- Witness of C17 as amended: ledger row `(90, 0, 0)`, 100/20 offer, items
of 30 units of the offer's product, 3 of another and 60 of the first. -/
theorem create_ledger_delta_witness :
    createTransaction 60 (some ⟨1, 100, 20, none⟩) ⟨90, 0, 0⟩ true
        [⟨1, 30, 2⟩, ⟨2, 3, 5⟩, ⟨1, 60, 2⟩] =
        some { rows := [⟨1, 30, 10, 20, 2⟩, ⟨2, 3, 3, 0, 5⟩, ⟨1, 60, 60, 0, 2⟩]
               totalAmount := 155
               reward := ⟨180, 20, 20⟩ } ∧
      (∀ item ∈ [(⟨1, 30, 2⟩ : Item), ⟨2, 3, 5⟩, ⟨1, 60, 2⟩], 0 ≤ item.quantity) ∧
      ∃ tr, simTrace 60 (some ⟨1, 100, 20, none⟩) true
          (initVars (some ⟨1, 100, 20, none⟩) ⟨90, 0, 0⟩)
          [⟨1, 30, 2⟩, ⟨2, 3, 5⟩, ⟨1, 60, 2⟩] = some tr ∧
        tr.map Prod.fst
          = [(⟨1, 30, 2⟩ : Item), ⟨2, 3, 5⟩, ⟨1, 60, 2⟩].filter
              (isXerox (some ⟨1, 100, 20, none⟩)) ∧
        (180 : Int) = 90 + (tr.map fun p => p.1.quantity).sum ∧
        (20 : Int) = 0 + (tr.map fun p => p.2.earned).sum ∧
        (20 : Int) = 0 + (tr.map fun p => p.2.freeUsed).sum :=
  ⟨by decide, by decide,
    create_ledger_delta 60 (some ⟨1, 100, 20, none⟩) ⟨90, 0, 0⟩ true
      [⟨1, 30, 2⟩, ⟨2, 3, 5⟩, ⟨1, 60, 2⟩]
      ⟨[⟨1, 30, 10, 20, 2⟩, ⟨2, 3, 3, 0, 5⟩, ⟨1, 60, 60, 0, 2⟩], 155, ⟨180, 20, 20⟩⟩
      (by decide) (by decide)⟩

/-! ## Offer resolution -/

theorem offerCandidate_iff (roleId : Int) (o : OfferRow) :
    offerCandidate roleId o = true ↔
      o.active = true ∧ o.xeroxName = true ∧
        (coalesceRole o.role_id = 0 ∨ coalesceRole o.role_id = roleId) := by
  simp [offerCandidate, and_assoc]

/-- Whatever is returned is a candidate row of the table. -/
theorem getXeroxOfferForRole_some (offers : List OfferRow) (roleIdRaw : Option Int)
    (res : Offer) (h : getXeroxOfferForRole offers roleIdRaw = some res) :
    ∃ o ∈ offers, offerCandidate (coalesceRole roleIdRaw) o = true ∧ res = o.toOffer ∧
      (coalesceRole o.role_id = coalesceRole roleIdRaw ∨
        ∀ o1 ∈ offers, offerCandidate (coalesceRole roleIdRaw) o1 = true →
          coalesceRole o1.role_id ≠ coalesceRole roleIdRaw) := by
  unfold getXeroxOfferForRole at h
  simp only at h
  split at h
  · rename_i o hfind
    simp only [Option.some.injEq] at h
    have hm := List.mem_of_find?_eq_some hfind
    have hp := List.find?_some hfind
    rw [List.mem_filter] at hm
    exact ⟨o, hm.1, hm.2, h.symm, Or.inl (by simpa using hp)⟩
  · rename_i hfind
    rw [Option.map_eq_some'] at h
    obtain ⟨o, ho, hres⟩ := h
    have hm := List.mem_of_mem_head? ho
    rw [List.mem_filter] at hm
    refine ⟨o, hm.1, hm.2, hres.symm, Or.inr ?_⟩
    intro o1 hm1 hc1 heq
    rw [List.find?_eq_none] at hfind
    exact hfind o1 (List.mem_filter.mpr ⟨hm1, hc1⟩) (by simpa using heq)

/-- A candidate row of the customer's own role is preferred. -/
theorem getXeroxOfferForRole_own (offers : List OfferRow) (roleIdRaw : Option Int)
    (h : ∃ o ∈ offers, offerCandidate (coalesceRole roleIdRaw) o = true ∧
      coalesceRole o.role_id = coalesceRole roleIdRaw) :
    ∃ o ∈ offers, offerCandidate (coalesceRole roleIdRaw) o = true ∧
      coalesceRole o.role_id = coalesceRole roleIdRaw ∧
      getXeroxOfferForRole offers roleIdRaw = some o.toOffer := by
  obtain ⟨o, hm, hc, heq⟩ := h
  have hsome : ((offers.filter (offerCandidate (coalesceRole roleIdRaw))).find?
      fun o => decide (coalesceRole o.role_id = coalesceRole roleIdRaw)).isSome = true := by
    rw [List.find?_isSome]
    exact ⟨o, List.mem_filter.mpr ⟨hm, hc⟩, by simpa using heq⟩
  obtain ⟨o1, ho1⟩ := Option.isSome_iff_exists.mp hsome
  have hm1 := List.mem_of_find?_eq_some ho1
  have hp1 := List.find?_some ho1
  rw [List.mem_filter] at hm1
  refine ⟨o1, hm1.1, hm1.2, by simpa using hp1, ?_⟩
  unfold getXeroxOfferForRole
  simp only [ho1]

/-- With a candidate row in the table, one is returned. -/
theorem getXeroxOfferForRole_any (offers : List OfferRow) (roleIdRaw : Option Int)
    (h : ∃ o ∈ offers, offerCandidate (coalesceRole roleIdRaw) o = true) :
    ∃ res, getXeroxOfferForRole offers roleIdRaw = some res := by
  obtain ⟨o, hm, hc⟩ := h
  unfold getXeroxOfferForRole
  simp only
  split
  · exact ⟨_, rfl⟩
  · have hmem : o ∈ offers.filter (offerCandidate (coalesceRole roleIdRaw)) :=
      List.mem_filter.mpr ⟨hm, hc⟩
    cases hf : offers.filter (offerCandidate (coalesceRole roleIdRaw)) with
    | nil => rw [hf] at hmem; simp at hmem
    | cons a l => exact ⟨a.toOffer, by simp⟩

/-- Without a candidate row nothing is returned. -/
theorem getXeroxOfferForRole_none (offers : List OfferRow) (roleIdRaw : Option Int)
    (h : ∀ o ∈ offers, offerCandidate (coalesceRole roleIdRaw) o = false) :
    getXeroxOfferForRole offers roleIdRaw = none := by
  have hf : offers.filter (offerCandidate (coalesceRole roleIdRaw)) = [] := by
    rw [List.filter_eq_nil_iff]
    intro o hm
    simp [h o hm]
  unfold getXeroxOfferForRole
  simp [hf]

/-- C11 (role-specific offer wins), the claim as stated fails on a row whose
`role_id` is 0: the query reads `COALESCE(o.role_id, 0)`, so such a row
counts as a default one. For a customer of role 5 and a table holding only
an offer of role 0, that offer is returned although neither an offer of role
5 nor one with `role_id` null exists; and for a customer of role 0, a
default offer listed first is returned although an offer of role 0 exists. -/
theorem resolve_role_counterexample :
    getXeroxOfferForRole [⟨2, some 0, 7, 7, true, true⟩] (some 5) =
        some { product_id := 2, buy_quantity := 7, free_quantity := 7, role_id := some 0 } ∧
      getXeroxOfferForRole
          [⟨1, none, 100, 20, true, true⟩, ⟨1, some 0, 50, 10, true, true⟩] (some 0) =
        some { product_id := 1, buy_quantity := 100, free_quantity := 20, role_id := none } := by
  decide

theorem coalesceRole_zero (x : Option Int) (hx : x ≠ some 0) (h : coalesceRole x = 0) :
    x = none := by
  cases x with
  | none => rfl
  | some y =>
    simp only [coalesceRole] at h
    exact absurd (congrArg some h) hx

theorem coalesceRole_eq (x : Option Int) (r : Int) (h : coalesceRole x = r) :
    x = some r ∨ (x = none ∧ r = 0) := by
  cases x with
  | none => exact Or.inr ⟨rfl, h.symm⟩
  | some y =>
    simp only [coalesceRole] at h
    exact Or.inl (congrArg some h)

/-- C11 as amended. Over an offer table none of whose rows has `role_id` 0,
and for every customer role `r` that is not null: if an active offer of the
eligible product with `role_id = r` exists, an offer with `role_id = r` is
returned, also when an active default offer exists; if none exists but an
active default offer (`role_id` null) does, a default offer is returned; if
neither exists, nothing is returned; and whatever is returned is an active
row of the eligible product whose `role_id` is null or `r`. -/
theorem resolve_role (offers : List OfferRow) (r : Int)
    (hz : ∀ o ∈ offers, o.role_id ≠ some 0) :
    ((∃ o ∈ offers, o.active = true ∧ o.xeroxName = true ∧ o.role_id = some r) →
        ∃ res, getXeroxOfferForRole offers (some r) = some res ∧ res.role_id = some r) ∧
      ((¬ ∃ o ∈ offers, o.active = true ∧ o.xeroxName = true ∧ o.role_id = some r) →
        (∃ o ∈ offers, o.active = true ∧ o.xeroxName = true ∧ o.role_id = none) →
        ∃ res, getXeroxOfferForRole offers (some r) = some res ∧ res.role_id = none) ∧
      ((¬ ∃ o ∈ offers, o.active = true ∧ o.xeroxName = true ∧ o.role_id = some r) →
        (¬ ∃ o ∈ offers, o.active = true ∧ o.xeroxName = true ∧ o.role_id = none) →
        getXeroxOfferForRole offers (some r) = none) ∧
      (∀ res, getXeroxOfferForRole offers (some r) = some res →
        ∃ o ∈ offers, o.active = true ∧ o.xeroxName = true ∧
          (o.role_id = none ∨ o.role_id = some r) ∧ res = o.toOffer) := by
  have hco : coalesceRole (some r) = r := rfl
  -- what a candidate row looks like when no row has role 0
  have hcand : ∀ o ∈ offers, offerCandidate r o = true →
      o.active = true ∧ o.xeroxName = true ∧ (o.role_id = none ∨ o.role_id = some r) := by
    intro o hm hc
    rw [offerCandidate_iff] at hc
    obtain ⟨ha, hx, h0 | hr⟩ := hc
    · exact ⟨ha, hx, Or.inl (coalesceRole_zero _ (hz o hm) h0)⟩
    · rcases coalesceRole_eq _ _ hr with h | ⟨h, _⟩
      · exact ⟨ha, hx, Or.inr h⟩
      · exact ⟨ha, hx, Or.inl h⟩
  refine ⟨?_, ?_, ?_, ?_⟩
  · rintro ⟨o, hm, ha, hx, hr⟩
    have hc : offerCandidate r o = true := by
      rw [offerCandidate_iff]
      exact ⟨ha, hx, Or.inr (by rw [hr]; rfl)⟩
    obtain ⟨o1, hm1, hc1, heq1, hres⟩ := getXeroxOfferForRole_own offers (some r)
      ⟨o, hm, hc, by rw [hr]⟩
    refine ⟨o1.toOffer, hres, ?_⟩
    rw [hco] at heq1
    rcases coalesceRole_eq _ _ heq1 with h | ⟨_, h0⟩
    · exact h
    · exact absurd (by rw [hr, h0]) (hz o hm)
  · rintro hno ⟨d, hm, ha, hx, hr⟩
    have hc : offerCandidate r d = true := by
      rw [offerCandidate_iff]
      exact ⟨ha, hx, Or.inl (by rw [hr]; rfl)⟩
    obtain ⟨res, hres⟩ := getXeroxOfferForRole_any offers (some r) ⟨d, hm, hc⟩
    obtain ⟨o, hmo, hco1, hro, _⟩ := getXeroxOfferForRole_some offers (some r) res hres
    obtain ⟨hao, hxo, hnone | hsome⟩ := hcand o hmo hco1
    · exact ⟨res, hres, by rw [hro]; exact hnone⟩
    · exact absurd ⟨o, hmo, hao, hxo, hsome⟩ hno
  · intro hno hnd
    apply getXeroxOfferForRole_none
    intro o hm
    by_contra hc
    have hc1 : offerCandidate (coalesceRole (some r)) o = true := by simpa using hc
    obtain ⟨hao, hxo, hnone | hsome⟩ := hcand o hm hc1
    · exact hnd ⟨o, hm, hao, hxo, hnone⟩
    · exact hno ⟨o, hm, hao, hxo, hsome⟩
  · intro res hres
    obtain ⟨o, hmo, hco1, hro, _⟩ := getXeroxOfferForRole_some offers (some r) res hres
    obtain ⟨hao, hxo, hrole⟩ := hcand o hmo hco1
    exact ⟨o, hmo, hao, hxo, hrole, hro⟩

/-- Witness of C11 as amended: a default offer, an offer of role 5, an
inactive offer of role 5 and an offer of role 6; the customer has role 5. -/
theorem resolve_role_witness :
    (∀ o ∈ [(⟨1, none, 100, 20, true, true⟩ : OfferRow), ⟨1, some 5, 50, 10, true, true⟩,
        ⟨1, some 5, 40, 40, false, true⟩, ⟨1, some 6, 30, 30, true, true⟩],
        o.role_id ≠ some 0) ∧
      (∃ o ∈ [(⟨1, none, 100, 20, true, true⟩ : OfferRow), ⟨1, some 5, 50, 10, true, true⟩,
        ⟨1, some 5, 40, 40, false, true⟩, ⟨1, some 6, 30, 30, true, true⟩],
        o.active = true ∧ o.xeroxName = true ∧ o.role_id = some 5) ∧
      ∃ res, getXeroxOfferForRole
          [⟨1, none, 100, 20, true, true⟩, ⟨1, some 5, 50, 10, true, true⟩,
            ⟨1, some 5, 40, 40, false, true⟩, ⟨1, some 6, 30, 30, true, true⟩] (some 5)
          = some res ∧ res.role_id = some 5 :=
  ⟨by decide, by decide,
    (resolve_role
      [⟨1, none, 100, 20, true, true⟩, ⟨1, some 5, 50, 10, true, true⟩,
        ⟨1, some 5, 40, 40, false, true⟩, ⟨1, some 6, 30, 30, true, true⟩] 5
      (by decide)).1 (by decide)⟩

/-! ## The ledger update -/

/-- C18 (last line of defence), the claim as stated fails: the `UPDATE` of
lines 196-205 checks nothing. Adding the deltas `(5, 0, 5)` to the row
`(0, 0, 0)` gives `(5, 0, 5)`, with `pages_used > free_xerox_pages`; and the
handler, started on the row `(0, 0, 5)` with a 100/20 offer and one unit of
the offer's product, completes and leaves `(1, 0, 5)`. -/
theorem ledger_check_counterexample :
    updateRewards ⟨0, 0, 0⟩ ⟨0, 0, 0, 5, 5, 0, []⟩ = ⟨5, 0, 5⟩ ∧
      createTransaction 1 (some ⟨1, 100, 20, none⟩) ⟨0, 0, 5⟩ true [⟨1, 1, 2⟩] =
        some { rows := [{ product_id := 1, quantity := 1, paid_qty := 1,
                          free_qty := 0, price := 2 }]
               totalAmount := 2
               reward := { total_xerox_pages := 1, free_xerox_pages := 0,
                           pages_used := 5 } } ∧
      (⟨5, 0, 5⟩ : Reward).pages_used > (⟨5, 0, 5⟩ : Reward).free_xerox_pages ∧
      (⟨5, 0, 5⟩ : Reward) ≠ ⟨0, 0, 0⟩ ∧ (⟨1, 0, 5⟩ : Reward) ≠ ⟨0, 0, 5⟩ := by
  decide

/-- C18 as amended. Applying a ledger delta never fails and checks nothing:
whenever units of the offer's product were requested (`xeroxRequested > 0`)
and adding the deltas makes `pages_used` greater than `free_xerox_pages`,
they are added all the same; the row is changed and is left with
`pages_used > free_xerox_pages`. -/
theorem ledger_update_unchecked (reward : Reward) (v : TxVars)
    (hreq : 0 < v.xeroxRequested)
    (hbad : reward.pages_used + v.xeroxFreeUsed
      > reward.free_xerox_pages + v.xeroxFreeEarned) :
    updateRewards reward v =
        { total_xerox_pages := reward.total_xerox_pages + v.xeroxRequested
          free_xerox_pages := reward.free_xerox_pages + v.xeroxFreeEarned
          pages_used := reward.pages_used + v.xeroxFreeUsed } ∧
      (updateRewards reward v).pages_used > (updateRewards reward v).free_xerox_pages ∧
      updateRewards reward v ≠ reward := by
  have hu : updateRewards reward v =
      { total_xerox_pages := reward.total_xerox_pages + v.xeroxRequested
        free_xerox_pages := reward.free_xerox_pages + v.xeroxFreeEarned
        pages_used := reward.pages_used + v.xeroxFreeUsed } := by
    simp [updateRewards, hreq]
  refine ⟨hu, ?_, ?_⟩
  · rw [hu]
    exact hbad
  · rw [hu]
    intro heq
    have ht := congrArg Reward.total_xerox_pages heq
    simp only at ht
    omega

/-- Witness of C18 as amended: the deltas `(5, 0, 5)` on the row
`(0, 0, 0)`. -/
theorem ledger_update_unchecked_witness :
    (0 : Int) < (⟨0, 0, 0, 5, 5, 0, []⟩ : TxVars).xeroxRequested ∧
      (⟨0, 0, 0⟩ : Reward).pages_used + (⟨0, 0, 0, 5, 5, 0, []⟩ : TxVars).xeroxFreeUsed
        > (⟨0, 0, 0⟩ : Reward).free_xerox_pages
          + (⟨0, 0, 0, 5, 5, 0, []⟩ : TxVars).xeroxFreeEarned ∧
      updateRewards ⟨0, 0, 0⟩ ⟨0, 0, 0, 5, 5, 0, []⟩ = ⟨0 + 5, 0 + 0, 0 + 5⟩ ∧
      (updateRewards ⟨0, 0, 0⟩ ⟨0, 0, 0, 5, 5, 0, []⟩).pages_used
        > (updateRewards ⟨0, 0, 0⟩ ⟨0, 0, 0, 5, 5, 0, []⟩).free_xerox_pages ∧
      updateRewards ⟨0, 0, 0⟩ ⟨0, 0, 0, 5, 5, 0, []⟩ ≠ ⟨0, 0, 0⟩ :=
  ⟨by decide, by decide,
    ledger_update_unchecked ⟨0, 0, 0⟩ ⟨0, 0, 0, 5, 5, 0, []⟩ (by decide) (by decide)⟩

/-! ## The handler over the tables -/

/-- Every processed item adds exactly one row. -/
theorem processItem_rows (fuel : Nat) (offer : Option Offer) (ao : Bool) (v v1 : TxVars)
    (item : Item) (h : processItem fuel offer ao v item = some v1) :
    ∃ row, v1.rows = v.rows ++ [row] := by
  rcases processItem_cases fuel offer ao v v1 item h with ⟨_, hv1⟩ | ⟨o, sim, _, _, _, hv1⟩
  · exact ⟨_, by rw [hv1]; rfl⟩
  · exact ⟨_, by rw [hv1]; rfl⟩

/-- With no failing write, the loop with inserts is the items loop. -/
theorem itemsLoopDb_none (fuel : Nat) (offer : Option Offer) (ao : Bool) :
    ∀ (items : List Item) (step : Nat) (v : TxVars),
      itemsLoopDb fuel offer ao none step v items =
        (itemsLoop fuel offer ao v items).map fun w => (true, w) := by
  intro items
  induction items with
  | nil => intro step v; rfl
  | cons item rest ih =>
    intro step v
    simp only [itemsLoopDb, itemsLoop]
    cases processItem fuel offer ao v item with
    | none => rfl
    | some v1 => simp [ih]

/-- Where the loop with inserts stops when write `k` fails: the rows
inserted are those of the items before the failing insert. -/
theorem itemsLoopDb_rows (fuel : Nat) (offer : Option Offer) (ao : Bool) (k : Nat) :
    ∀ (items : List Item) (step : Nat) (v : TxVars) (done : Bool) (w : TxVars),
      itemsLoopDb fuel offer ao (some k) step v items = some (done, w) →
      ∃ rows, w.rows = v.rows ++ rows ∧
        (done = true → rows.length = items.length ∧ (k < step ∨ step + items.length ≤ k)) ∧
        (done = false → step ≤ k ∧ k < step + items.length ∧ rows.length = k - step) := by
  intro items
  induction items with
  | nil =>
    intro step v done w h
    simp only [itemsLoopDb, Option.some.injEq, Prod.mk.injEq] at h
    obtain ⟨h1, h2⟩ := h
    subst h1 h2
    exact ⟨[], by simp, fun _ => ⟨rfl, by simp; omega⟩, fun hf => by simp at hf⟩
  | cons item rest ih =>
    intro step v done w h
    simp only [itemsLoopDb, Option.bind_eq_some] at h
    obtain ⟨v1, h1, h2⟩ := h
    obtain ⟨row, hrow⟩ := processItem_rows fuel offer ao v v1 item h1
    split_ifs at h2 with hk
    · simp only [Option.some.injEq, Prod.mk.injEq] at h2 hk
      obtain ⟨hd, hw⟩ := h2
      subst hd hw hk
      exact ⟨[], by simp, fun hf => by simp at hf,
        fun _ => ⟨le_refl _, by simp, by simp⟩⟩
    · have hne : k ≠ step := fun heq => hk (by rw [heq])
      obtain ⟨rows, hr, hT, hF⟩ := ih (step + 1) v1 done w h2
      refine ⟨row :: rows, by rw [hr, hrow]; simp, ?_, ?_⟩
      · intro hd
        obtain ⟨hl, hrange⟩ := hT hd
        simp only [List.length_cons]
        omega
      · intro hd
        obtain ⟨a, b, c⟩ := hF hd
        simp only [List.length_cons]
        omega

/-- The lazily inserted zero row changes no customer's ledger reading. -/
theorem findReward_ensure (db : Db) (customerId c : Int) :
    (findReward (ensureReward db customerId).1.customer_rewards c).getD ⟨0, 0, 0⟩ =
      (findReward db.customer_rewards c).getD ⟨0, 0, 0⟩ := by
  unfold ensureReward
  cases hf : findReward db.customer_rewards customerId with
  | some r => rfl
  | none =>
    simp only
    unfold findReward at hf ⊢
    rw [Option.map_eq_none'] at hf
    rw [List.find?_append]
    by_cases hc : c = customerId
    · subst hc
      simp [hf]
    · cases hfc : db.customer_rewards.find? fun p => decide (p.1 = c) with
      | some q => simp
      | none =>
        have : ¬ customerId = c := fun h => hc h.symm
        simp [this]

theorem ensureReward_tables (db : Db) (customerId : Int) :
    (ensureReward db customerId).1.transactions = db.transactions ∧
      (ensureReward db customerId).1.transaction_items = db.transaction_items ∧
      (ensureReward db customerId).1.customers = db.customers ∧
      (ensureReward db customerId).1.offers = db.offers := by
  unfold ensureReward
  split <;> exact ⟨rfl, rfl, rfl, rfl⟩

/-- A 500 answer comes from the part after the customer lookup. -/
theorem postCreate_failed (fuel : Nat) (failAt : Option Nat) (db : Db) (req : CreateRequest)
    (db1 : Db) (h : postCreate fuel failAt db req = some (CreateResponse.failed, db1)) :
    ∃ mobile items customer, req.customerMobile = some mobile ∧ req.items = some items ∧
      mobile ≠ "" ∧ items ≠ [] ∧
      (db.customers.find? fun c => decide (c.mobile = mobile)) = some customer ∧
      runCreate fuel failAt db customer req.applyOffer items
        = some (CreateResponse.failed, db1) := by
  unfold postCreate at h
  split at h
  · rename_i mobile items hm hi
    by_cases hbad : mobile = "" ∨ items = []
    · rw [if_pos hbad] at h
      simp at h
    · rw [if_neg hbad] at h
      push_neg at hbad
      split at h
      · simp at h
      · rename_i customer hfind
        exact ⟨mobile, items, customer, hm, hi, hbad.1, hbad.2, hfind, h⟩
  · simp at h

/-- The items loop adds one row for each item. -/
theorem itemsLoop_rows (fuel : Nat) (offer : Option Offer) (ao : Bool) :
    ∀ (items : List Item) (v w : TxVars), itemsLoop fuel offer ao v items = some w →
      ∃ new, w.rows = v.rows ++ new ∧ new.length = items.length := by
  intro items
  induction items with
  | nil =>
    intro v w h
    simp only [itemsLoop, Option.some.injEq] at h
    subst h
    exact ⟨[], by simp, rfl⟩
  | cons item rest ih =>
    intro v w h
    simp only [itemsLoop, Option.bind_eq_some] at h
    obtain ⟨v1, h1, h2⟩ := h
    obtain ⟨row, hrow⟩ := processItem_rows fuel offer ao v v1 item h1
    obtain ⟨new, hn, hl⟩ := ih v1 w h2
    exact ⟨row :: new, by rw [hn, hrow]; simp, by simp [hl]⟩

/-- The loop with inserts goes through when the failing write is not one of
its inserts. -/
theorem itemsLoopDb_pass (fuel : Nat) (offer : Option Offer) (ao : Bool) (k : Nat) :
    ∀ (items : List Item) (step : Nat) (v w : TxVars),
      itemsLoop fuel offer ao v items = some w →
      (k < step ∨ step + items.length ≤ k) →
      itemsLoopDb fuel offer ao (some k) step v items = some (true, w) := by
  intro items
  induction items with
  | nil =>
    intro step v w h _
    simp only [itemsLoop, Option.some.injEq] at h
    subst h
    rfl
  | cons item rest ih =>
    intro step v w h hk
    simp only [itemsLoop, Option.bind_eq_some] at h
    obtain ⟨v1, h1, h2⟩ := h
    simp only [List.length_cons] at hk
    have hne : ¬ (some k = some step) := fun heq => by
      have := Option.some.inj heq
      omega
    simp only [itemsLoopDb, h1, Option.some_bind]
    rw [if_neg hne]
    exact ih (step + 1) v1 w h2 (by omega)

/-- The loop with inserts stops at the failing insert: the rows inserted are
those of the items before it. -/
theorem itemsLoopDb_fail (fuel : Nat) (offer : Option Offer) (ao : Bool) (k : Nat) :
    ∀ (items : List Item) (step : Nat) (v w : TxVars),
      itemsLoop fuel offer ao v items = some w → step ≤ k → k < step + items.length →
      ∃ u, itemsLoopDb fuel offer ao (some k) step v items = some (false, u) ∧
        u.rows = w.rows.take (v.rows.length + (k - step)) := by
  intro items
  induction items with
  | nil =>
    intro step v w _ h1 h2
    simp only [List.length_nil] at h2
    omega
  | cons item rest ih =>
    intro step v w h hlo hhi
    simp only [itemsLoop, Option.bind_eq_some] at h
    obtain ⟨v1, h1, h2⟩ := h
    obtain ⟨row, hrow⟩ := processItem_rows fuel offer ao v v1 item h1
    simp only [List.length_cons] at hhi
    simp only [itemsLoopDb, h1, Option.some_bind]
    by_cases hk : k = step
    · subst hk
      rw [if_pos rfl]
      obtain ⟨new, hn, _⟩ := itemsLoop_rows fuel offer ao rest v1 w h2
      refine ⟨v, rfl, ?_⟩
      rw [hn, hrow, Nat.sub_self, Nat.add_zero, List.append_assoc]
      simp
    · have hne : ¬ (some k = some step) := fun heq => hk (Option.some.inj heq)
      rw [if_neg hne]
      obtain ⟨u, hu, hrows⟩ := ih (step + 1) v1 w h2 (by omega) (by omega)
      refine ⟨u, hu, ?_⟩
      rw [hrows, hrow, List.length_append, List.length_singleton]
      congr 1
      omega

/-- At most one write is issued for the ledger row before the header. -/
theorem lazyWrites_le (db : Db) (customerId : Int) :
    lazyWrites db customerId = 0 ∨ lazyWrites db customerId = 1 := by
  unfold lazyWrites
  split
  · exact Or.inl rfl
  · exact Or.inr rfl

/-- After a failed item insert the handler answers 500; the header and the
rows inserted so far stay. -/
theorem finishCreate_stopped (failAt : Option Nat) (db1 : Db) (customerId : Int) (n : Nat)
    (u : TxVars) :
    finishCreate failAt db1 customerId n (false, u) =
      (CreateResponse.failed,
        { db1 with
          transactions := db1.transactions ++ [⟨customerId, 0⟩]
          transaction_items := db1.transaction_items ++
            u.rows.map fun r => (db1.transactions.length, r) }) := by
  simp [finishCreate]

/-- When the update of the total fails the handler answers 500; the header
keeps the total 0 and every item row stays. -/
theorem finishCreate_total (db1 : Db) (customerId : Int) (n : Nat) (v : TxVars) :
    finishCreate (some (n + 1)) db1 customerId n (true, v) =
      (CreateResponse.failed,
        { db1 with
          transactions := db1.transactions ++ [⟨customerId, 0⟩]
          transaction_items := db1.transaction_items ++
            v.rows.map fun r => (db1.transactions.length, r) }) := by
  simp [finishCreate]

/-- When the update of the ledger fails the handler answers 500; the header
has its total and every item row stays. -/
theorem finishCreate_ledger (db1 : Db) (customerId : Int) (n : Nat) (v : TxVars)
    (h : 0 < v.xeroxRequested) :
    finishCreate (some (n + 2)) db1 customerId n (true, v) =
      (CreateResponse.failed,
        { db1 with
          transactions := db1.transactions ++ [⟨customerId, v.totalAmount⟩]
          transaction_items := db1.transaction_items ++
            v.rows.map fun r => (db1.transactions.length, r) }) := by
  simp [finishCreate, h]

/-- A well-formed request of a known customer reaches the part after the
customer lookup. -/
theorem postCreate_known (fuel : Nat) (failAt : Option Nat) (db : Db) (req : CreateRequest)
    (mobile : String) (items : List Item) (customer : Customer)
    (hm : req.customerMobile = some mobile) (hi : req.items = some items)
    (hne : mobile ≠ "") (hin : items ≠ [])
    (hc : (db.customers.find? fun c => decide (c.mobile = mobile)) = some customer) :
    postCreate fuel failAt db req = runCreate fuel failAt db customer req.applyOffer items := by
  unfold postCreate
  rw [hm, hi]
  simp only
  rw [if_neg (by push_neg; exact ⟨hne, hin⟩), hc]

/-- C19 (all-or-nothing persistence), the claim as stated fails: the writes
are separate statements and the `catch` of line 213 undoes none. The
customer has a ledger row, so the header insert is write 0. When the insert
of the first item fails (write 1), the handler answers 500 and the header it
inserted just before stays in `transactions`; when the update of the total
fails (write 2 of a one-item request), the header and the item row stay. -/
theorem create_failure_counterexample :
    postCreate 1 (some 1)
        ⟨[⟨1, "9999999999", none⟩], [⟨1, none, 100, 20, true, true⟩], [(1, ⟨90, 0, 0⟩)], [], []⟩
        ⟨some "9999999999", some [⟨1, 30, 2⟩], true⟩ =
      some (CreateResponse.failed,
        ⟨[⟨1, "9999999999", none⟩], [⟨1, none, 100, 20, true, true⟩], [(1, ⟨90, 0, 0⟩)],
          [⟨1, 0⟩], []⟩) ∧
    postCreate 1 (some 2)
        ⟨[⟨1, "9999999999", none⟩], [⟨1, none, 100, 20, true, true⟩], [(1, ⟨90, 0, 0⟩)], [], []⟩
        ⟨some "9999999999", some [⟨1, 30, 2⟩], true⟩ =
      some (CreateResponse.failed,
        ⟨[⟨1, "9999999999", none⟩], [⟨1, none, 100, 20, true, true⟩], [(1, ⟨90, 0, 0⟩)],
          [⟨1, 0⟩], [(0, ⟨1, 30, 10, 20, 2⟩)]⟩) := by
  decide

/-- C19 as amended. The writes of create-transaction are issued one by one:
the insert of a zeroed ledger row when the customer has none
(`lazyWrites` of them, 0 or 1), the header insert, the `n` item inserts, the
update of the total and, when units of the offer's product were requested,
the update of the ledger. For a well-formed request of a known customer
whose items loop completes, if write `k` of these throws the handler
answers 500 and undoes nothing. No customer's ledger reading has changed
(the ledger update is the last write). If the failing write is the insert
of the zeroed ledger row, the tables are untouched: no ledger row and no
header. Otherwise the zeroed row, when one was inserted, stays; if the
failing write is the header insert no header and no item row is written;
after it the header stays in `transactions`, with total 0 unless the failing
write is the ledger update, and the rows of the items inserted before the
failing write stay in `transaction_items`. -/
theorem create_failure_keeps_writes (fuel k : Nat) (db : Db) (req : CreateRequest)
    (mobile : String) (items : List Item) (customer : Customer) (v : TxVars)
    (hm : req.customerMobile = some mobile) (hi : req.items = some items)
    (hne : mobile ≠ "") (hin : items ≠ [])
    (hc : (db.customers.find? fun c => decide (c.mobile = mobile)) = some customer)
    (hv : itemsLoop fuel (getXeroxOfferForRole db.offers customer.role_id) req.applyOffer
      (initVars (getXeroxOfferForRole db.offers customer.role_id)
        (ensureReward db customer.id).2) items = some v)
    (hk : k ≤ lazyWrites db customer.id + items.length + 1 ∨
      (k = lazyWrites db customer.id + items.length + 2 ∧ 0 < v.xeroxRequested)) :
    ∃ db1, postCreate fuel (some k) db req = some (CreateResponse.failed, db1) ∧
      (∀ c, (findReward db1.customer_rewards c).getD ⟨0, 0, 0⟩
        = (findReward db.customer_rewards c).getD ⟨0, 0, 0⟩) ∧
      (k < lazyWrites db customer.id → db1 = db) ∧
      (lazyWrites db customer.id ≤ k →
        db1.customer_rewards = (ensureReward db customer.id).1.customer_rewards) ∧
      (k ≤ lazyWrites db customer.id →
        db1.transactions = db.transactions ∧ db1.transaction_items = db.transaction_items) ∧
      (lazyWrites db customer.id < k →
        db1.transactions = db.transactions ++
          [⟨customer.id, if k = lazyWrites db customer.id + items.length + 2
            then v.totalAmount else 0⟩] ∧
        db1.transaction_items = db.transaction_items ++
          (v.rows.take (k - lazyWrites db customer.id - 1)).map
            fun r => (db.transactions.length, r)) := by
  rw [postCreate_known fuel (some k) db req mobile items customer hm hi hne hin hc]
  obtain ⟨t1, t2, _, _⟩ := ensureReward_tables db customer.id
  obtain ⟨new, hnew, hlen⟩ := itemsLoop_rows fuel _ _ items _ v hv
  have hrl : v.rows.length = items.length := by
    rw [hnew]
    simp [initVars, hlen]
  have hL := lazyWrites_le db customer.id
  unfold runCreate
  simp only
  by_cases hA : lazyWrites db customer.id = 1 ∧ some k = some 0
  · rw [if_pos hA]
    obtain ⟨hL1, hk0⟩ := hA
    have hk0 : k = 0 := Option.some.inj hk0
    exact ⟨db, rfl, fun _ => rfl, fun _ => rfl, fun h => by omega, fun _ => ⟨rfl, rfl⟩,
      fun h => by omega⟩
  · rw [if_neg hA]
    by_cases hB : some k = some (lazyWrites db customer.id)
    · rw [if_pos hB]
      have hkL : k = lazyWrites db customer.id := Option.some.inj hB
      exact ⟨_, rfl, findReward_ensure db customer.id, fun h => by omega, fun _ => rfl,
        fun _ => ⟨t1, t2⟩, fun h => by omega⟩
    · rw [if_neg hB]
      have hkL : k ≠ lazyWrites db customer.id := fun h => hB (by rw [h])
      have hlt : lazyWrites db customer.id < k := by
        by_contra hcon
        have h0 : k = 0 := by omega
        exact hA ⟨by omega, by rw [h0]⟩
      by_cases hC : k < lazyWrites db customer.id + 1 + items.length
      · obtain ⟨u, hu, hrows⟩ := itemsLoopDb_fail fuel _ _ k items
          (lazyWrites db customer.id + 1) _ v hv (by omega) hC
        have hrows1 : u.rows = v.rows.take (k - lazyWrites db customer.id - 1) := by
          rw [hrows]
          congr 1
          simp only [initVars, List.length_nil]
          omega
        rw [hu, Option.map_some', finishCreate_stopped]
        refine ⟨_, rfl, findReward_ensure db customer.id, fun h => by omega, fun _ => rfl,
          fun h => by omega, fun _ => ⟨?_, ?_⟩⟩
        · show (ensureReward db customer.id).1.transactions ++ _ = _
          rw [t1, if_neg (by omega)]
        · show (ensureReward db customer.id).1.transaction_items ++ _ = _
          rw [t1, t2, hrows1]
      · have hpass := itemsLoopDb_pass fuel _ _ k items
          (lazyWrites db customer.id + 1) _ v hv (Or.inr (by omega))
        have htake : v.rows.take (k - lazyWrites db customer.id - 1) = v.rows :=
          List.take_of_length_le (by omega)
        rw [hpass, Option.map_some']
        rcases hk with hk1 | ⟨hk2, hx⟩
        · have hkeq : k = lazyWrites db customer.id + items.length + 1 := by omega
          rw [hkeq, finishCreate_total]
          refine ⟨_, rfl, findReward_ensure db customer.id, fun h => by omega, fun _ => rfl,
            fun h => by omega, fun _ => ⟨?_, ?_⟩⟩
          · show (ensureReward db customer.id).1.transactions ++ _ = _
            rw [t1, if_neg (by omega)]
          · show (ensureReward db customer.id).1.transaction_items ++ _ = _
            rw [t1, t2, ← hkeq, htake]
        · rw [hk2, finishCreate_ledger _ _ _ _ hx]
          refine ⟨_, rfl, findReward_ensure db customer.id, fun h => by omega, fun _ => rfl,
            fun h => by omega, fun _ => ⟨?_, ?_⟩⟩
          · show (ensureReward db customer.id).1.transactions ++ _ = _
            rw [t1, if_pos rfl]
          · show (ensureReward db customer.id).1.transaction_items ++ _ = _
            rw [t1, t2, ← hk2, htake]

/-- Witness of C19 as amended, for a customer with no ledger row and a
request of two items, so that the insert of the zeroed ledger row is write
0, the header insert write 1 and the item inserts writes 2 and 3. When write
0 fails the handler answers 500 and the tables are untouched: no ledger row
and no header. When write 3 fails it answers 500 and the zeroed ledger row,
the header and the row of the first item stay. -/
theorem create_failure_keeps_writes_witness :
    lazyWrites (⟨[⟨1, "9999999999", none⟩], [⟨1, none, 100, 20, true, true⟩], [], [], []⟩ : Db) 1 = 1 ∧
    postCreate 150 (some 0)
        (⟨[⟨1, "9999999999", none⟩], [⟨1, none, 100, 20, true, true⟩], [], [], []⟩ : Db)
        (⟨some "9999999999", some [⟨1, 150, 2⟩, ⟨2, 3, 5⟩], true⟩ : CreateRequest) =
      some (CreateResponse.failed,
        ⟨[⟨1, "9999999999", none⟩], [⟨1, none, 100, 20, true, true⟩], [], [], []⟩) ∧
    postCreate 150 (some 3)
        (⟨[⟨1, "9999999999", none⟩], [⟨1, none, 100, 20, true, true⟩], [], [], []⟩ : Db)
        (⟨some "9999999999", some [⟨1, 150, 2⟩, ⟨2, 3, 5⟩], true⟩ : CreateRequest) =
      some (CreateResponse.failed,
        ⟨[⟨1, "9999999999", none⟩], [⟨1, none, 100, 20, true, true⟩], [(1, ⟨0, 0, 0⟩)],
          [⟨1, 0⟩], [(0, ⟨1, 150, 130, 20, 2⟩)]⟩) ∧
    itemsLoop 150 (getXeroxOfferForRole [⟨1, none, 100, 20, true, true⟩] none) true
        (initVars (getXeroxOfferForRole [⟨1, none, 100, 20, true, true⟩] none) ⟨0, 0, 0⟩)
        [(⟨1, 150, 2⟩ : Item), ⟨2, 3, 5⟩] =
      some (⟨30, 0, 275, 150, 20, 20, [⟨1, 150, 130, 20, 2⟩, ⟨2, 3, 3, 0, 5⟩]⟩ : TxVars) ∧
    (∃ db1, postCreate 150 (some 0)
          (⟨[⟨1, "9999999999", none⟩], [⟨1, none, 100, 20, true, true⟩], [], [], []⟩ : Db)
          (⟨some "9999999999", some [⟨1, 150, 2⟩, ⟨2, 3, 5⟩], true⟩ : CreateRequest) = some (CreateResponse.failed, db1) ∧
        (∀ c, (findReward db1.customer_rewards c).getD ⟨0, 0, 0⟩
          = (findReward ([] : List (Int × Reward)) c).getD ⟨0, 0, 0⟩) ∧
        (0 < lazyWrites (⟨[⟨1, "9999999999", none⟩], [⟨1, none, 100, 20, true, true⟩], [], [], []⟩ : Db) 1 →
          db1 = (⟨[⟨1, "9999999999", none⟩], [⟨1, none, 100, 20, true, true⟩], [], [], []⟩ : Db)) ∧
        (lazyWrites (⟨[⟨1, "9999999999", none⟩], [⟨1, none, 100, 20, true, true⟩], [], [], []⟩ : Db) 1 ≤ 0 →
          db1.customer_rewards = (ensureReward
            (⟨[⟨1, "9999999999", none⟩], [⟨1, none, 100, 20, true, true⟩], [], [], []⟩ : Db) 1).1.customer_rewards) ∧
        (0 ≤ lazyWrites (⟨[⟨1, "9999999999", none⟩], [⟨1, none, 100, 20, true, true⟩], [], [], []⟩ : Db) 1 →
          db1.transactions = [] ∧ db1.transaction_items = []) ∧
        (lazyWrites (⟨[⟨1, "9999999999", none⟩], [⟨1, none, 100, 20, true, true⟩], [], [], []⟩ : Db) 1 < 0 →
          db1.transactions = [] ++
            [⟨1, if 0 = lazyWrites (⟨[⟨1, "9999999999", none⟩], [⟨1, none, 100, 20, true, true⟩], [], [], []⟩ : Db) 1
                + [(⟨1, 150, 2⟩ : Item), ⟨2, 3, 5⟩].length + 2
              then (275 : Int) else 0⟩] ∧
          db1.transaction_items = [] ++
            (List.take (0 - lazyWrites (⟨[⟨1, "9999999999", none⟩], [⟨1, none, 100, 20, true, true⟩], [], [], []⟩ : Db) 1 - 1)
              [(⟨1, 150, 130, 20, 2⟩ : ItemRow), ⟨2, 3, 3, 0, 5⟩]).map
              fun r => (([] : List TxHeader).length, r))) ∧
    (∃ db1, postCreate 150 (some 3)
          (⟨[⟨1, "9999999999", none⟩], [⟨1, none, 100, 20, true, true⟩], [], [], []⟩ : Db)
          (⟨some "9999999999", some [⟨1, 150, 2⟩, ⟨2, 3, 5⟩], true⟩ : CreateRequest) = some (CreateResponse.failed, db1) ∧
        (∀ c, (findReward db1.customer_rewards c).getD ⟨0, 0, 0⟩
          = (findReward ([] : List (Int × Reward)) c).getD ⟨0, 0, 0⟩) ∧
        (3 < lazyWrites (⟨[⟨1, "9999999999", none⟩], [⟨1, none, 100, 20, true, true⟩], [], [], []⟩ : Db) 1 →
          db1 = (⟨[⟨1, "9999999999", none⟩], [⟨1, none, 100, 20, true, true⟩], [], [], []⟩ : Db)) ∧
        (lazyWrites (⟨[⟨1, "9999999999", none⟩], [⟨1, none, 100, 20, true, true⟩], [], [], []⟩ : Db) 1 ≤ 3 →
          db1.customer_rewards = (ensureReward
            (⟨[⟨1, "9999999999", none⟩], [⟨1, none, 100, 20, true, true⟩], [], [], []⟩ : Db) 1).1.customer_rewards) ∧
        (3 ≤ lazyWrites (⟨[⟨1, "9999999999", none⟩], [⟨1, none, 100, 20, true, true⟩], [], [], []⟩ : Db) 1 →
          db1.transactions = [] ∧ db1.transaction_items = []) ∧
        (lazyWrites (⟨[⟨1, "9999999999", none⟩], [⟨1, none, 100, 20, true, true⟩], [], [], []⟩ : Db) 1 < 3 →
          db1.transactions = [] ++
            [⟨1, if 3 = lazyWrites (⟨[⟨1, "9999999999", none⟩], [⟨1, none, 100, 20, true, true⟩], [], [], []⟩ : Db) 1
                + [(⟨1, 150, 2⟩ : Item), ⟨2, 3, 5⟩].length + 2
              then (275 : Int) else 0⟩] ∧
          db1.transaction_items = [] ++
            (List.take (3 - lazyWrites (⟨[⟨1, "9999999999", none⟩], [⟨1, none, 100, 20, true, true⟩], [], [], []⟩ : Db) 1 - 1)
              [(⟨1, 150, 130, 20, 2⟩ : ItemRow), ⟨2, 3, 3, 0, 5⟩]).map
              fun r => (([] : List TxHeader).length, r))) :=
  ⟨by decide, by decide, by decide, by decide,
    create_failure_keeps_writes 150 0
      (⟨[⟨1, "9999999999", none⟩], [⟨1, none, 100, 20, true, true⟩], [], [], []⟩ : Db)
      (⟨some "9999999999", some [⟨1, 150, 2⟩, ⟨2, 3, 5⟩], true⟩ : CreateRequest)
      "9999999999" [(⟨1, 150, 2⟩ : Item), ⟨2, 3, 5⟩] ⟨1, "9999999999", none⟩
      (⟨30, 0, 275, 150, 20, 20, [⟨1, 150, 130, 20, 2⟩, ⟨2, 3, 3, 0, 5⟩]⟩ : TxVars)
      rfl rfl (by decide) (by decide) (by decide) (by decide) (by decide),
    create_failure_keeps_writes 150 3
      (⟨[⟨1, "9999999999", none⟩], [⟨1, none, 100, 20, true, true⟩], [], [], []⟩ : Db)
      (⟨some "9999999999", some [⟨1, 150, 2⟩, ⟨2, 3, 5⟩], true⟩ : CreateRequest)
      "9999999999" [(⟨1, 150, 2⟩ : Item), ⟨2, 3, 5⟩] ⟨1, "9999999999", none⟩
      (⟨30, 0, 275, 150, 20, 20, [⟨1, 150, 130, 20, 2⟩, ⟨2, 3, 3, 0, 5⟩]⟩ : TxVars)
      rfl rfl (by decide) (by decide) (by decide) (by decide) (by decide)⟩

/-- The part after the customer lookup answers 200 or 500, never 400 or
404. -/
theorem runCreate_response (fuel : Nat) (failAt : Option Nat) (db : Db) (customer : Customer)
    (ao : Bool) (items : List Item) (resp : CreateResponse) (db1 : Db)
    (h : runCreate fuel failAt db customer ao items = some (resp, db1)) :
    resp ≠ CreateResponse.badRequest ∧ resp ≠ CreateResponse.notFound := by
  unfold runCreate at h
  simp only at h
  split_ifs at h with h0 h1
  · simp only [Option.some.injEq, Prod.mk.injEq] at h
    rw [← h.1]
    exact ⟨by simp, by simp⟩
  · simp only [Option.some.injEq, Prod.mk.injEq] at h
    rw [← h.1]
    exact ⟨by simp, by simp⟩
  · rw [Option.map_eq_some'] at h
    obtain ⟨res, _, hres⟩ := h
    unfold finishCreate at hres
    simp only at hres
    split_ifs at hres <;>
      · simp only [Prod.mk.injEq] at hres
        rw [← hres.1]
        exact ⟨by simp, by simp⟩

/-- C20 (quantity validation), the claim as stated fails: the handler never
looks at the quantities before it writes. A request with one item of
quantity `-3` for a known customer is answered 200, and the header (with
total `-6`), the item row (with `paid_qty = -3`) and a ledger row for the
customer are written. -/
theorem create_negative_quantity_counterexample :
    postCreate 0 none ⟨[⟨1, "9999999999", none⟩], [], [], [], []⟩
        ⟨some "9999999999", some [⟨7, -3, 2⟩], true⟩ =
      some (CreateResponse.ok 0 (-6),
        ⟨[⟨1, "9999999999", none⟩], [], [(1, ⟨0, 0, 0⟩)], [⟨1, -6⟩],
          [(0, ⟨7, -3, -3, 0, 2⟩)]⟩) := by
  decide

/-- C20 as amended. A create-transaction request is rejected without any
write when `customerMobile` is missing or empty, `items` is not an array or
is empty, or no customer has that mobile number; and these are the only
rejections: a request answered 400 or 404 is of that kind and has left the
tables as they were, whatever the quantities of its items. -/
theorem create_rejection (fuel : Nat) (failAt : Option Nat) (db : Db) (req : CreateRequest) :
    ((req.customerMobile = none ∨ req.customerMobile = some "" ∨ req.items = none ∨
        req.items = some [] ∨
        ∃ m, req.customerMobile = some m ∧
          (db.customers.find? fun c => decide (c.mobile = m)) = none) →
      ∃ resp, postCreate fuel failAt db req = some (resp, db) ∧
        (resp = CreateResponse.badRequest ∨ resp = CreateResponse.notFound)) ∧
    (∀ resp db1, postCreate fuel failAt db req = some (resp, db1) →
      (resp = CreateResponse.badRequest ∨ resp = CreateResponse.notFound) →
      db1 = db ∧
        (req.customerMobile = none ∨ req.customerMobile = some "" ∨ req.items = none ∨
          req.items = some [] ∨
          ∃ m, req.customerMobile = some m ∧
            (db.customers.find? fun c => decide (c.mobile = m)) = none)) := by
  constructor
  · intro hcond
    unfold postCreate
    split
    · rename_i mobile items hm hi
      by_cases hbad : mobile = "" ∨ items = []
      · rw [if_pos hbad]
        exact ⟨_, rfl, Or.inl rfl⟩
      · rw [if_neg hbad]
        push_neg at hbad
        split
        · exact ⟨_, rfl, Or.inr rfl⟩
        · rename_i customer hfind
          exfalso
          rcases hcond with h | h | h | h | ⟨m, h1, h2⟩
          · rw [hm] at h; simp at h
          · rw [hm] at h; exact hbad.1 (Option.some.inj h)
          · rw [hi] at h; simp at h
          · rw [hi] at h; exact hbad.2 (Option.some.inj h)
          · rw [hm] at h1
            have : mobile = m := Option.some.inj h1
            subst this
            rw [hfind] at h2
            simp at h2
    · exact ⟨_, rfl, Or.inl rfl⟩
  · intro resp db1 h hresp
    unfold postCreate at h
    split at h
    · rename_i mobile items hm hi
      by_cases hbad : mobile = "" ∨ items = []
      · rw [if_pos hbad] at h
        simp only [Option.some.injEq, Prod.mk.injEq] at h
        refine ⟨h.2.symm, ?_⟩
        rcases hbad with hb | hb
        · exact Or.inr (Or.inl (by rw [hm, hb]))
        · exact Or.inr (Or.inr (Or.inr (Or.inl (by rw [hi, hb]))))
      · rw [if_neg hbad] at h
        split at h
        · rename_i hfind
          simp only [Option.some.injEq, Prod.mk.injEq] at h
          exact ⟨h.2.symm, Or.inr (Or.inr (Or.inr (Or.inr ⟨mobile, hm, hfind⟩)))⟩
        · rename_i customer hfind
          obtain ⟨n1, n2⟩ := runCreate_response fuel failAt db customer req.applyOffer items
            resp db1 h
          rcases hresp with hr | hr
          · exact absurd hr n1
          · exact absurd hr n2
    · rename_i hno
      simp only [Option.some.injEq, Prod.mk.injEq] at h
      refine ⟨h.2.symm, ?_⟩
      cases hm : req.customerMobile with
      | none => exact Or.inl rfl
      | some m =>
        cases hi : req.items with
        | none => exact Or.inr (Or.inr (Or.inl rfl))
        | some items => exact absurd hi (hno m items hm)

/-- Witness of C20 as amended: a request for a mobile number that no
customer has, with an item of quantity `-3`, is answered 404 and writes
nothing. -/
theorem create_rejection_witness :
    ((⟨some "8888888888", some [⟨7, -3, 2⟩], true⟩ : CreateRequest).customerMobile = none ∨
        (⟨some "8888888888", some [⟨7, -3, 2⟩], true⟩ : CreateRequest).customerMobile = some "" ∨
        (⟨some "8888888888", some [⟨7, -3, 2⟩], true⟩ : CreateRequest).items = none ∨
        (⟨some "8888888888", some [⟨7, -3, 2⟩], true⟩ : CreateRequest).items = some [] ∨
        ∃ m, (⟨some "8888888888", some [⟨7, -3, 2⟩], true⟩ : CreateRequest).customerMobile
            = some m ∧
          ((⟨[⟨1, "9999999999", none⟩], [], [], [], []⟩ : Db).customers.find?
            fun c => decide (c.mobile = m)) = none) ∧
      ∃ resp, postCreate 0 none ⟨[⟨1, "9999999999", none⟩], [], [], [], []⟩
          ⟨some "8888888888", some [⟨7, -3, 2⟩], true⟩
          = some (resp, ⟨[⟨1, "9999999999", none⟩], [], [], [], []⟩) ∧
        (resp = CreateResponse.badRequest ∨ resp = CreateResponse.notFound) :=
  ⟨Or.inr (Or.inr (Or.inr (Or.inr ⟨"8888888888", rfl, by decide⟩))),
    (create_rejection 0 none ⟨[⟨1, "9999999999", none⟩], [], [], [], []⟩
      ⟨some "8888888888", some [⟨7, -3, 2⟩], true⟩).1
      (Or.inr (Or.inr (Or.inr (Or.inr ⟨"8888888888", rfl, by decide⟩))))⟩

/-! ## The handler over the tables and the processor agree -/

theorem findReward_map (rs : List (Int × Reward)) (customerId : Int) (f : Reward → Reward) :
    findReward (rs.map fun p => if p.1 = customerId then (p.1, f p.2) else p) customerId =
      (findReward rs customerId).map f := by
  unfold findReward
  induction rs with
  | nil => rfl
  | cons a l ih =>
    by_cases ha : a.1 = customerId
    · simp [List.find?_cons, ha]
    · rw [List.map_cons, if_neg ha, List.find?_cons_of_neg _ (by simpa using ha),
        List.find?_cons_of_neg _ (by simpa using ha)]
      exact ih

theorem ensureReward_find (db : Db) (customerId : Int) :
    findReward (ensureReward db customerId).1.customer_rewards customerId =
      some (ensureReward db customerId).2 := by
  unfold ensureReward
  cases hf : findReward db.customer_rewards customerId with
  | some r => exact hf
  | none =>
    simp only
    unfold findReward at hf ⊢
    rw [Option.map_eq_none'] at hf
    rw [List.find?_append, hf]
    simp

/-- When no write fails, the handler's answer and the tables it leaves are
those of `createTransaction` on the offer resolved for the customer and on
the customer's ledger row: a 200 answer with the total, the header with the
total, the rows under the new transaction id, and the updated ledger row. -/
theorem runCreate_complete (fuel : Nat) (db : Db) (customer : Customer) (ao : Bool)
    (items : List Item) (resp : CreateResponse) (db1 : Db)
    (h : runCreate fuel none db customer ao items = some (resp, db1)) :
    ∃ out, createTransaction fuel (getXeroxOfferForRole db.offers customer.role_id)
        (ensureReward db customer.id).2 ao items = some out ∧
      resp = CreateResponse.ok db.transactions.length out.totalAmount ∧
      db1.transactions = db.transactions ++ [⟨customer.id, out.totalAmount⟩] ∧
      db1.transaction_items
        = db.transaction_items ++ out.rows.map (fun r => (db.transactions.length, r)) ∧
      findReward db1.customer_rewards customer.id = some out.reward := by
  obtain ⟨t1, t2, _, _⟩ := ensureReward_tables db customer.id
  unfold runCreate at h
  simp only at h
  rw [if_neg (by simp), if_neg (by simp), itemsLoopDb_none, Option.map_map,
    Option.map_eq_some'] at h
  obtain ⟨w, hw, hres⟩ := h
  refine ⟨{ rows := w.rows, totalAmount := w.totalAmount,
            reward := updateRewards (ensureReward db customer.id).2 w },
    by simp only [createTransaction, hw, Option.map_some'], ?_⟩
  simp only [Function.comp, finishCreate] at hres
  rw [if_neg (by simp)] at hres
  by_cases hpos : w.xeroxRequested > 0
  · rw [if_pos hpos, if_neg (by simp)] at hres
    simp only [Prod.mk.injEq] at hres
    obtain ⟨h1, h2⟩ := hres
    subst h1 h2
    refine ⟨by rw [t1], by simp only; rw [t1], by simp only; rw [t1, t2], ?_⟩
    simp only
    rw [findReward_map _ _ (fun r => updateRewards r w), ensureReward_find]
    rfl
  · rw [if_neg hpos] at hres
    simp only [Prod.mk.injEq] at hres
    obtain ⟨h1, h2⟩ := hres
    subst h1 h2
    refine ⟨by rw [t1], by simp only; rw [t1], by simp only; rw [t1, t2], ?_⟩
    simp only
    rw [ensureReward_find]
    simp [updateRewards, hpos]

/-- Conversely, when `createTransaction` completes so does the handler, if
no write fails. -/
theorem runCreate_of_createTransaction (fuel : Nat) (db : Db) (customer : Customer)
    (ao : Bool) (items : List Item) (out : TxOutcome)
    (h : createTransaction fuel (getXeroxOfferForRole db.offers customer.role_id)
      (ensureReward db customer.id).2 ao items = some out) :
    ∃ db1, runCreate fuel none db customer ao items
      = some (CreateResponse.ok db.transactions.length out.totalAmount, db1) := by
  obtain ⟨t1, _, _, _⟩ := ensureReward_tables db customer.id
  unfold createTransaction at h
  rw [Option.map_eq_some'] at h
  obtain ⟨w, hw, hout⟩ := h
  subst hout
  unfold runCreate
  simp only
  rw [if_neg (by simp), if_neg (by simp), itemsLoopDb_none, hw]
  simp only [Option.map_some', finishCreate]
  rw [if_neg (by simp)]
  by_cases hpos : w.xeroxRequested > 0
  · rw [if_pos hpos, if_neg (by simp), t1]
    exact ⟨_, rfl⟩
  · rw [if_neg hpos, t1]
    exact ⟨_, rfl⟩

/-! ## The simulator: termination, cycle arithmetic, reference run -/

/-- One pass through the loop body from a state with units left and a
progress inside the cycle: at least one unit is paid, fewer units are left
(never a negative number), and the progress is again inside the cycle. -/
theorem loopBody_pays (B F : Int) (ao : Bool) (s : SimState)
    (hr : 0 < s.remaining) (hp : 0 ≤ s.progress) (hpB : s.progress < B) :
    s.paid + 1 ≤ (loopBody B F ao s).paid ∧
      (loopBody B F ao s).remaining < s.remaining ∧
      0 ≤ (loopBody B F ao s).remaining ∧
      0 ≤ (loopBody B F ao s).progress ∧ (loopBody B F ao s).progress < B := by
  obtain ⟨rem, pd, fu, e, p, fb⟩ := s
  simp only at hr hp hpB
  by_cases hin : rem < B - p
  · rw [loopBody_inside _ _ _ _ _ _ _ _ _ hin]
    simp only
    omega
  · have hle : B - p ≤ rem := not_lt.mp hin
    by_cases hu : ao = true ∧ 0 < fb + F ∧ 0 < rem - (B - p)
    · obtain ⟨hao, hbal, hleft⟩ := hu
      subst hao
      rw [loopBody_close_use B F rem pd fu e p fb hle hbal hleft]
      simp only
      omega
    · have hno : ao = false ∨ fb + F ≤ 0 ∨ rem - (B - p) ≤ 0 := by
        by_contra hc
        push_neg at hc
        exact hu ⟨by simpa using hc.1, hc.2.1, hc.2.2⟩
      rw [loopBody_close_keep B F ao rem pd fu e p fb hle hno]
      simp only
      omega

/-- C26 (termination). On every input with `buyQty > 0`,
`0 ≤ cycleProgress < buyQty`, `freeQty ≥ 0`, `freeBalance ≥ 0` and
`qty ≥ 0`, `simulateCycleLoyalty` returns as soon as the fuel is at least
`qty`; and each pass through the loop body, from a state with units left and
a progress inside the cycle, pays at least one unit and leaves strictly
fewer units, with the progress again inside the cycle. -/
theorem simulate_terminates (inp : SimInput) (hv : inp.Valid) (fuel : Nat)
    (hfuel : inp.qty.toNat ≤ fuel) :
    (∃ r, simulateCycleLoyalty fuel inp = some r) ∧
      ∀ s : SimState, 0 < s.remaining → 0 ≤ s.progress → s.progress < inp.buyQty →
        s.paid + 1 ≤ (loopBody inp.buyQty inp.freeQty inp.applyOffer s).paid ∧
          (loopBody inp.buyQty inp.freeQty inp.applyOffer s).remaining < s.remaining ∧
          0 ≤ (loopBody inp.buyQty inp.freeQty inp.applyOffer s).remaining ∧
          0 ≤ (loopBody inp.buyQty inp.freeQty inp.applyOffer s).progress ∧
          (loopBody inp.buyQty inp.freeQty inp.applyOffer s).progress < inp.buyQty := by
  have hq : inp.qty = (inp.qty.toNat : Int) := (Int.toNat_of_nonneg hv.1).symm
  exact ⟨⟨_, simulate_refines inp hv fuel _ hq hfuel⟩,
    fun s hr hp hpB => loopBody_pays inp.buyQty inp.freeQty inp.applyOffer s hr hp hpB⟩

/-- Witness of C26: 250 units from progress 90 of a 100/20 cycle, balance 5. -/
theorem simulate_terminates_witness :
    (⟨250, 100, 20, true, 90, 5⟩ : SimInput).Valid ∧
      (⟨250, 100, 20, true, 90, 5⟩ : SimInput).qty.toNat ≤ 250 ∧
      (∃ r, simulateCycleLoyalty 250 ⟨250, 100, 20, true, 90, 5⟩ = some r) ∧
      ∀ s : SimState, 0 < s.remaining → 0 ≤ s.progress →
        s.progress < (⟨250, 100, 20, true, 90, 5⟩ : SimInput).buyQty →
        s.paid + 1 ≤ (loopBody 100 20 true s).paid ∧
          (loopBody 100 20 true s).remaining < s.remaining ∧
          0 ≤ (loopBody 100 20 true s).remaining ∧
          0 ≤ (loopBody 100 20 true s).progress ∧
          (loopBody 100 20 true s).progress < 100 :=
  ⟨by decide, by decide,
    simulate_terminates ⟨250, 100, 20, true, 90, 5⟩ (by decide) 250 (by decide)⟩

/-- C27 (only paid units advance the cycle), the last part of the claim
fails when `freeQty = 0`: closing a cycle then earns nothing, so `earned = 0`
although the progress was reset. With `buyQty = 100`, `freeQty = 0`,
progress 90 and 30 units, 30 units are paid, `earned = 0` and the progress is
20, not 120. -/
theorem simulate_cycle_counterexample :
    (⟨30, 100, 0, false, 90, 0⟩ : SimInput).Valid ∧
      simulateCycleLoyalty 2 ⟨30, 100, 0, false, 90, 0⟩ =
        some { paid := 30, freeUsed := 0, earned := 0, progress := 20, freeBal := 0 } ∧
      (20 : Int) ≠ 90 + 30 := by
  decide

/-- C27 as amended. On every valid input and for either `applyOffer`, the
result of `simulateCycleLoyalty` (given fuel of at least `qty`) has
`progress = (cycleProgress + paid) mod buyQty` and
`earned = freeQty * floor((cycleProgress + paid) / buyQty)`; and when
`freeQty > 0` and `earned = 0`, `progress = cycleProgress + paid`. -/
theorem simulate_cycle (inp : SimInput) (hv : inp.Valid) (fuel : Nat)
    (hfuel : inp.qty.toNat ≤ fuel) :
    ∃ r, simulateCycleLoyalty fuel inp = some r ∧
      r.progress = (inp.progressPaid + r.paid) % inp.buyQty ∧
      r.earned = inp.freeQty * ((inp.progressPaid + r.paid) / inp.buyQty) ∧
      (0 < inp.freeQty → r.earned = 0 → r.progress = inp.progressPaid + r.paid) := by
  obtain ⟨r, hr, h1, _, _, h4, h5, _, _, h8, h9⟩ := simulate_valid inp hv fuel hfuel
  refine ⟨r, hr, h8, h9, ?_⟩
  intro hF he
  rw [h9] at he
  have hq : (inp.progressPaid + r.paid) / inp.buyQty = 0 := by
    rcases Int.mul_eq_zero.mp he with h | h
    · omega
    · exact h
  have hsplit := Int.emod_add_ediv (inp.progressPaid + r.paid) inp.buyQty
  rw [hq, mul_zero, add_zero] at hsplit
  rw [h8, hsplit]

/-- Witness of C27 as amended: scenario A. -/
theorem simulate_cycle_witness :
    (⟨30, 100, 20, true, 90, 0⟩ : SimInput).Valid ∧
      (⟨30, 100, 20, true, 90, 0⟩ : SimInput).qty.toNat ≤ 30 ∧
      ∃ r, simulateCycleLoyalty 30 ⟨30, 100, 20, true, 90, 0⟩ = some r ∧
        r.progress = (90 + r.paid) % 100 ∧
        r.earned = 20 * ((90 + r.paid) / 100) ∧
        ((0 : Int) < 20 → r.earned = 0 → r.progress = 90 + r.paid) :=
  ⟨by decide, by decide,
    simulate_cycle ⟨30, 100, 20, true, 90, 0⟩ (by decide) 30 (by decide)⟩

/-- C29 (batch simulator and unit-by-unit reference). On every valid input
`simulateCycleLoyalty` returns, given fuel of at least `qty`, exactly what
the reference run returns after `qty` single units from zeroed counters and
the given progress and balance: each unit is taken from the free balance if
`applyOffer` holds and the balance is positive, and is otherwise paid, adding
1 to the progress and, when the progress reaches `buyQty`, adding `freeQty`
to `earned` and to the balance and resetting the progress to 0. -/
theorem simulate_unit_reference (inp : SimInput) (hv : inp.Valid) (fuel : Nat)
    (hfuel : inp.qty.toNat ≤ fuel) :
    simulateCycleLoyalty fuel inp =
      some (unitRun inp.buyQty inp.freeQty inp.applyOffer inp.qty.toNat
        { paid := 0, freeUsed := 0, earned := 0,
          progress := inp.progressPaid, freeBal := inp.freeBalance }) :=
  simulate_refines inp hv fuel _ (Int.toNat_of_nonneg hv.1).symm hfuel

/-- Witness of C29: 7 units from progress 3 of a cycle of 5 that earns 2,
balance 1, redemption on; the same result is reached unit by unit. -/
theorem simulate_unit_reference_witness :
    (⟨7, 5, 2, true, 3, 1⟩ : SimInput).Valid ∧
      (⟨7, 5, 2, true, 3, 1⟩ : SimInput).qty.toNat ≤ 7 ∧
      simulateCycleLoyalty 7 ⟨7, 5, 2, true, 3, 1⟩ =
        some (unitRun 5 2 true 7 ⟨0, 0, 0, 3, 1⟩) ∧
      unitRun 5 2 true 7 ⟨0, 0, 0, 3, 1⟩ = ⟨4, 3, 2, 2, 0⟩ :=
  ⟨by decide, by decide,
    simulate_unit_reference ⟨7, 5, 2, true, 3, 1⟩ (by decide) 7 (by decide), by decide⟩

/-! ## The recompute route -/

/-- C21 (recompute formula), the claim as stated fails: the route does not
resolve an offer, it uses the constants `BUY_QTY = 100` and `FREE_QTY = 20`.
For a customer of role 5 whose resolved offer is "buy 50, get 10" and a
total of 50, it stores `free_xerox_pages = 0`, not `floor(50 / 50) * 10 = 10`. -/
theorem adjust_formula_counterexample :
    getXeroxOfferForRole [⟨1, some 5, 50, 10, true, true⟩] (some 5) =
        some { product_id := 1, buy_quantity := 50, free_quantity := 10, role_id := some 5 } ∧
      adjustXerox none 50 =
        some { row := { total_xerox_pages := 50, free_xerox_pages := 0, pages_used := 0 }
               totalPrinted := 50, freeEarned := 0, freeRemaining := 0 } ∧
      (0 : Int) ≠ Int.fdiv 50 50 * 10 := by
  decide

/-- C21 as amended. For every customer (with or without a ledger row) and
every total `T ≥ 0`, the recompute is accepted and stores
`total_xerox_pages = T` and `free_xerox_pages = floor(T / 100) * 20`, with
the constants written in the handler, whatever offer is resolved for the
customer. -/
theorem adjust_formula (existing : Option Reward) (T : Int) (hT : 0 ≤ T) :
    ∃ out, adjustXerox existing T = some out ∧
      out.row.total_xerox_pages = T ∧
      out.row.free_xerox_pages = T / 100 * 20 ∧
      out.row.free_xerox_pages = Int.fdiv T BUY_QTY * FREE_QTY := by
  unfold adjustXerox
  rw [if_neg (not_lt.mpr hT)]
  refine ⟨_, rfl, rfl, ?_, rfl⟩
  simp only [BUY_QTY, FREE_QTY]
  rw [Int.fdiv_eq_ediv T (by decide : (0 : Int) ≤ 100)]

/-- Witness of C21 as amended: a total of 250 gives 40 free pages. -/
theorem adjust_formula_witness :
    (0 : Int) ≤ 250 ∧
      ∃ out, adjustXerox (some ⟨0, 0, 30⟩) 250 = some out ∧
        out.row.total_xerox_pages = 250 ∧
        out.row.free_xerox_pages = 250 / 100 * 20 ∧
        out.row.free_xerox_pages = Int.fdiv 250 BUY_QTY * FREE_QTY :=
  ⟨by decide, adjust_formula (some ⟨0, 0, 30⟩) 250 (by decide)⟩

/-- C22 (recompute clamp). For every existing ledger row, or none (then the
previous `pages_used` counts as 0), and every total `T ≥ 0`, the recompute is
accepted and stores `pages_used = min(previous pages_used, new
free_xerox_pages)`; so the stored row has `pages_used ≤ free_xerox_pages`,
and the `freeRemaining` of the answer is `free_xerox_pages - pages_used` of
the stored row and is not negative. -/
theorem adjust_clamp (existing : Option Reward) (T : Int) (hT : 0 ≤ T) :
    ∃ out, adjustXerox existing T = some out ∧
      out.row.pages_used
        = min (match existing with
          | some r => r.pages_used
          | none => 0) out.row.free_xerox_pages ∧
      out.row.pages_used ≤ out.row.free_xerox_pages ∧
      out.freeRemaining = out.row.free_xerox_pages - out.row.pages_used ∧
      0 ≤ out.freeRemaining := by
  unfold adjustXerox
  rw [if_neg (not_lt.mpr hT)]
  refine ⟨_, rfl, rfl, min_le_right _ _, rfl, ?_⟩
  simp only
  have := min_le_right (match existing with
    | some r => r.pages_used
    | none => 0) (Int.fdiv T BUY_QTY * FREE_QTY)
  omega

/-- Witness of C22: 30 pages used so far, and a total of 120 that earns only
20. -/
theorem adjust_clamp_witness :
    (0 : Int) ≤ 120 ∧
      ∃ out, adjustXerox (some ⟨500, 100, 30⟩) 120 = some out ∧
        out.row.pages_used
          = min (match (some ⟨500, 100, 30⟩ : Option Reward) with
            | some r => r.pages_used
            | none => 0) out.row.free_xerox_pages ∧
        out.row.pages_used ≤ out.row.free_xerox_pages ∧
        out.freeRemaining = out.row.free_xerox_pages - out.row.pages_used ∧
        0 ≤ out.freeRemaining :=
  ⟨by decide, adjust_clamp (some ⟨500, 100, 30⟩) 120 (by decide)⟩

/-! ## The customer status view -/

/-- C23 (status view arithmetic). For every ledger row and every resolved
offer (or none), the view reports `paid_total = max(total_xerox_pages -
pages_used, 0)` and `free_remaining = max(free_xerox_pages - pages_used, 0)`;
when the offer's `buy_quantity` `B` is positive, `paid_total = cycle_count *
B + cycle_progress` with `0 ≤ cycle_progress < B`, and `next_unlock_in = B -
cycle_progress` lies in `[1, B]`; when `B ≤ 0` or there is no offer,
`cycle_progress`, `cycle_count` and `next_unlock_in` are 0. -/
theorem status_view_arithmetic (offer : Option Offer) (reward : Reward) :
    (statusView offer reward).paid_total
        = max (reward.total_xerox_pages - reward.pages_used) 0 ∧
      (statusView offer reward).free_remaining
        = max (reward.free_xerox_pages - reward.pages_used) 0 ∧
      (∀ o, offer = some o → 0 < o.buy_quantity →
        (statusView offer reward).paid_total
            = (statusView offer reward).cycle_count * o.buy_quantity
              + (statusView offer reward).cycle_progress ∧
          0 ≤ (statusView offer reward).cycle_progress ∧
          (statusView offer reward).cycle_progress < o.buy_quantity ∧
          (statusView offer reward).next_unlock_in
            = o.buy_quantity - (statusView offer reward).cycle_progress ∧
          1 ≤ (statusView offer reward).next_unlock_in ∧
          (statusView offer reward).next_unlock_in ≤ o.buy_quantity) ∧
      ((offer = none ∨ ∃ o, offer = some o ∧ o.buy_quantity ≤ 0) →
        (statusView offer reward).cycle_progress = 0 ∧
          (statusView offer reward).cycle_count = 0 ∧
          (statusView offer reward).next_unlock_in = 0) := by
  refine ⟨rfl, rfl, ?_, ?_⟩
  · intro o ho hB
    subst ho
    have hpt : (0 : Int) ≤ max (reward.total_xerox_pages - reward.pages_used) 0 :=
      le_max_right _ _
    have hmod := Int.tmod_eq_emod hpt (le_of_lt hB)
    have hdiv := Int.fdiv_eq_ediv (max (reward.total_xerox_pages - reward.pages_used) 0)
      (le_of_lt hB)
    have h1 := Int.emod_nonneg (max (reward.total_xerox_pages - reward.pages_used) 0)
      (ne_of_gt hB)
    have h2 := Int.emod_lt_of_pos (max (reward.total_xerox_pages - reward.pages_used) 0) hB
    have h3 := Int.ediv_add_emod' (max (reward.total_xerox_pages - reward.pages_used) 0)
      o.buy_quantity
    have hcp : (statusView (some o) reward).cycle_progress
        = max (reward.total_xerox_pages - reward.pages_used) 0 % o.buy_quantity := by
      simp only [statusView, gt_iff_lt, hB, if_true, hmod]
    have hcc : (statusView (some o) reward).cycle_count
        = max (reward.total_xerox_pages - reward.pages_used) 0 / o.buy_quantity := by
      simp only [statusView, gt_iff_lt, hB, if_true, hdiv]
    have hnu : (statusView (some o) reward).next_unlock_in
        = o.buy_quantity - (statusView (some o) reward).cycle_progress := by
      simp only [statusView, gt_iff_lt, hB, if_true]
    have hpd : (statusView (some o) reward).paid_total
        = max (reward.total_xerox_pages - reward.pages_used) 0 := rfl
    rw [hnu, hcp, hcc, hpd]
    exact ⟨h3.symm, h1, h2, rfl, by omega, by omega⟩
  · rintro (ho | ⟨o, ho, hB⟩)
    · subst ho
      simp [statusView]
    · subst ho
      simp [statusView, not_lt.mpr hB]

/-- Witness of C23: ledger row `(250, 40, 20)` under a 100/20 offer: 230
paid pages are 2 cycles and 30 pages, 70 to go. -/
theorem status_view_arithmetic_witness :
    statusView (some ⟨1, 100, 20, none⟩) ⟨250, 40, 20⟩ =
        { totalPrinted := 250, paid_total := 230, free_remaining := 20,
          buy_quantity := 100, free_quantity := 20, cycle_progress := 30,
          cycle_count := 2, next_unlock_in := 70 } ∧
      (0 : Int) < (⟨1, 100, 20, none⟩ : Offer).buy_quantity ∧
      (statusView (some ⟨1, 100, 20, none⟩) ⟨250, 40, 20⟩).paid_total
          = (statusView (some ⟨1, 100, 20, none⟩) ⟨250, 40, 20⟩).cycle_count * 100
            + (statusView (some ⟨1, 100, 20, none⟩) ⟨250, 40, 20⟩).cycle_progress ∧
      0 ≤ (statusView (some ⟨1, 100, 20, none⟩) ⟨250, 40, 20⟩).cycle_progress ∧
      (statusView (some ⟨1, 100, 20, none⟩) ⟨250, 40, 20⟩).cycle_progress < 100 ∧
      (statusView (some ⟨1, 100, 20, none⟩) ⟨250, 40, 20⟩).next_unlock_in
        = 100 - (statusView (some ⟨1, 100, 20, none⟩) ⟨250, 40, 20⟩).cycle_progress ∧
      1 ≤ (statusView (some ⟨1, 100, 20, none⟩) ⟨250, 40, 20⟩).next_unlock_in ∧
      (statusView (some ⟨1, 100, 20, none⟩) ⟨250, 40, 20⟩).next_unlock_in ≤ 100 :=
  ⟨by decide, by decide,
    (status_view_arithmetic (some ⟨1, 100, 20, none⟩) ⟨250, 40, 20⟩).2.2.1
      ⟨1, 100, 20, none⟩ rfl (by decide)⟩

/-! ## The offer routes -/

/-- C24 (stored offers are strictly positive), the claim as stated fails:
`PUT /offers/:id` accepts zero quantities (its check is `< 0`), and
`POST /offers` only refuses falsy quantities. A `PUT` with `buy_quantity = 0`
and `free_quantity = 0` is stored, and so is a `POST` with `-5` and `-2`. -/
theorem offer_positive_counterexample :
    putOffer [] [7] (JsValue.number 7)
        ⟨JsValue.number 1, JsValue.number 0, JsValue.number 0, JsValue.null⟩ =
        some { product_id := 1, role_id := none, buy_quantity := 0, free_quantity := 0 } ∧
      postOffer [] ⟨JsValue.number 1, JsValue.number (-5), JsValue.number (-2), JsValue.null⟩ =
        some { product_id := 1, role_id := none, buy_quantity := -5, free_quantity := -2 } := by
  decide

/-- C24 as amended. Every offer row written by `PUT /offers/:id` has
`buy_quantity ≥ 0` and `free_quantity ≥ 0` (zero is allowed), and every
offer row written by `POST /offers` has `buy_quantity` and `free_quantity`
different from 0. -/
theorem offer_quantities_stored (activeRoles : List Int) (body : OfferBody) :
    (∀ row, postOffer activeRoles body = some row →
        row.buy_quantity ≠ 0 ∧ row.free_quantity ≠ 0) ∧
      (∀ offerIds idParam row, putOffer activeRoles offerIds idParam body = some row →
        0 ≤ row.buy_quantity ∧ 0 ≤ row.free_quantity) := by
  constructor
  · intro row h
    unfold postOffer at h
    simp only at h
    cases hp : toIntOrNull body.product_id with
    | none => simp [hp, isFalsy] at h
    | some p =>
      cases hb : toIntOrNull body.buy_quantity with
      | none => simp [hp, hb, isFalsy] at h
      | some b =>
        cases hf : toIntOrNull body.free_quantity with
        | none => simp [hp, hb, hf, isFalsy] at h
        | some f =>
          simp only [hp, hb, hf, isFalsy, Bool.or_eq_true, decide_eq_true_eq] at h
          split_ifs at h with h1 h2
          simp only [Option.some.injEq] at h
          subst h
          push_neg at h1
          exact ⟨h1.1.2, h1.2⟩
  · intro offerIds idParam row h
    unfold putOffer at h
    simp only at h
    by_cases h0 : isFalsy (toIntOrNull idParam) = true
    · rw [if_pos h0] at h
      simp at h
    · rw [if_neg h0] at h
      split at h
      · rename_i i p b f _ _ _ _
        by_cases h1 : b < 0 ∨ f < 0
        · rw [if_pos h1] at h
          simp at h
        · rw [if_neg h1] at h
          split_ifs at h
          simp only [Option.some.injEq] at h
          subst h
          push_neg at h1
          exact h1
      · simp at h

/-- Witness of C24 as amended: an accepted `POST` of a "buy 100, get 20"
offer for the active role 5. -/
theorem offer_quantities_stored_witness :
    postOffer [5] ⟨JsValue.number 1, JsValue.number 100, JsValue.number 20, JsValue.number 5⟩ =
        some { product_id := 1, role_id := some 5, buy_quantity := 100, free_quantity := 20 } ∧
      (100 : Int) ≠ 0 ∧ (20 : Int) ≠ 0 :=
  ⟨by decide,
    (offer_quantities_stored [5]
      ⟨JsValue.number 1, JsValue.number 100, JsValue.number 20, JsValue.number 5⟩).1
      ⟨1, some 5, 100, 20⟩ (by decide)⟩

/-! ## Display and checkout -/

/-- C30 (display and checkout agree), the claim as stated fails for an offer
with `buy_quantity > 0` and `free_quantity ≤ 0`: the status view only tests
`buyQty > 0`, the handler of `POST /create` tests `offerValid`. For the
offer "buy 100, get 0" and the ledger row `(50, 0, 0)` the view reports a
cycle progress of 50 and the handler starts from 0. -/
theorem progress_agreement_counterexample :
    (statusView (some ⟨1, 100, 0, none⟩) ⟨50, 0, 0⟩).cycle_progress = 50 ∧
      (initVars (some ⟨1, 100, 0, none⟩) ⟨50, 0, 0⟩).progress = 0 := by
  decide

/-- C30 as amended. For every ledger row and every resolved offer that is
missing, has `buy_quantity ≤ 0`, or has `free_quantity > 0`, the
`cycle_progress` of the status view equals the starting progress that the
handler of `POST /create` computes from the same row and offer. -/
theorem progress_agreement (offer : Option Offer) (reward : Reward)
    (h : ∀ o, offer = some o → 0 < o.buy_quantity → 0 < o.free_quantity) :
    (statusView offer reward).cycle_progress = (initVars offer reward).progress := by
  cases offer with
  | none => simp [statusView, initVars]
  | some o =>
    by_cases hB : 0 < o.buy_quantity
    · have hF := h o rfl hB
      simp [statusView, initVars, offerValid, hB, hF]
    · simp [statusView, initVars, offerValid, hB]

/-- Witness of C30 as amended: a 100/20 offer and the ledger row
`(250, 40, 20)`: both give 30. -/
theorem progress_agreement_witness :
    (∀ o, some (⟨1, 100, 20, none⟩ : Offer) = some o →
        0 < o.buy_quantity → 0 < o.free_quantity) ∧
      (statusView (some ⟨1, 100, 20, none⟩) ⟨250, 40, 20⟩).cycle_progress
        = (initVars (some ⟨1, 100, 20, none⟩) ⟨250, 40, 20⟩).progress ∧
      (initVars (some ⟨1, 100, 20, none⟩) ⟨250, 40, 20⟩).progress = 30 :=
  ⟨by intro o ho _; cases ho; decide,
    progress_agreement (some ⟨1, 100, 20, none⟩) ⟨250, 40, 20⟩
      (by intro o ho _; cases ho; decide), by decide⟩

/-! ## Ledger and simulator across transactions -/

/-- One item under an offer with a positive cycle length and a reward that
is not negative, in terms of what the item adds for the offer's product:
`req` units requested, of which `paid` are paid and `free` are free, and
`earned` units earned (all zero for an item of another product). The
progress moves by the paid units modulo the cycle length and the balance by
what was earned minus what was used. -/
theorem processItem_step (fuel : Nat) (o : Offer) (ao : Bool) (v : TxVars) (item : Item)
    (hB : 0 < o.buy_quantity) (hF : 0 ≤ o.free_quantity)
    (hq : 0 ≤ item.quantity) (hfuel : item.quantity.toNat ≤ fuel)
    (hinv : LoopInv (some o) v) :
    ∃ v1 req paid free earned, processItem fuel (some o) ao v item = some v1 ∧
      LoopInv (some o) v1 ∧
      0 ≤ paid ∧ 0 ≤ free ∧ 0 ≤ earned ∧ req = paid + free ∧
      (req = 0 → earned = 0) ∧
      v1.progress = (v.progress + paid) % o.buy_quantity ∧
      v1.freeBal = v.freeBal + earned - free ∧
      v1.xeroxRequested = v.xeroxRequested + req ∧
      v1.xeroxFreeUsed = v.xeroxFreeUsed + free ∧
      v1.xeroxFreeEarned = v.xeroxFreeEarned + earned := by
  obtain ⟨hfb, hp, hpB⟩ := hinv
  by_cases hx : isXerox (some o) item = true
  · obtain ⟨sim, hs, s1, s2, s3, s4, s5, s6, s7, s8, _⟩ := simulate_valid
      { qty := item.quantity, buyQty := o.buy_quantity, freeQty := o.free_quantity,
        applyOffer := ao, progressPaid := v.progress, freeBalance := v.freeBal }
      ⟨hq, hB, hF, hp, hpB o rfl, hfb⟩ fuel hfuel
    obtain ⟨c1, _⟩ := simulate_counters fuel _ sim hF hs
    have hzero : item.quantity = 0 → sim.earned = 0 := by
      intro h0
      have hn := simulate_nonpos fuel
        { qty := item.quantity, buyQty := o.buy_quantity, freeQty := o.free_quantity,
          applyOffer := ao, progressPaid := v.progress, freeBalance := v.freeBal }
        (le_of_eq h0)
      rw [hs] at hn
      simp only [Option.some.injEq] at hn
      rw [hn]
    refine ⟨_, item.quantity, sim.paid, sim.freeUsed, sim.earned,
      processItem_xerox fuel o ao v item sim hx hs, ⟨s6, s4, ?_⟩, s1, s2, c1, s3.symm,
      hzero, s8, ?_, rfl, rfl, rfl⟩
    · intro o1 ho1
      simp only [Option.some.injEq] at ho1
      subst ho1
      exact s5
    · simp only [recordItem]
      simp only at s7
      omega
  · have hx1 : isXerox (some o) item = false := by simpa using hx
    refine ⟨_, 0, 0, 0, 0, processItem_other fuel (some o) ao v item hx1, ⟨hfb, hp, hpB⟩,
      le_refl _, le_refl _, le_refl _, rfl, fun _ => rfl, ?_, ?_, ?_, ?_, ?_⟩
    · simp only [recordItem, add_zero]
      exact (Int.emod_eq_of_lt hp (hpB o rfl)).symm
    · simp [recordItem]
    · simp [recordItem]
    · simp [recordItem]
    · simp [recordItem]

/-- C28 (ledger and simulator stay in step). For every ledger row with
`pages_used ≤ free_xerox_pages` and `pages_used ≤ total_xerox_pages`, every
offer with `buy_quantity > 0` and `free_quantity > 0` and every list of
items whose quantities are not negative, the handler completes (given fuel
of at least every quantity) and the ledger row it leaves gives back the
progress and the balance threaded out of the items loop:
`max(total_xerox_pages - pages_used, 0) mod buy_quantity` is the final
progress and `max(free_xerox_pages - pages_used, 0)` is the final balance;
so the next request starts (lines 125-132) where this one ended. -/
theorem create_ledger_in_step (fuel : Nat) (o : Offer) (reward : Reward) (ao : Bool)
    (items : List Item) (hvalid : 0 < o.buy_quantity ∧ 0 < o.free_quantity)
    (hfree : reward.pages_used ≤ reward.free_xerox_pages)
    (htotal : reward.pages_used ≤ reward.total_xerox_pages)
    (hitems : ∀ item ∈ items, 0 ≤ item.quantity ∧ item.quantity.toNat ≤ fuel) :
    ∃ v out, itemsLoop fuel (some o) ao (initVars (some o) reward) items = some v ∧
      createTransaction fuel (some o) reward ao items = some out ∧
      max (out.reward.total_xerox_pages - out.reward.pages_used) 0 % o.buy_quantity
        = v.progress ∧
      max (out.reward.free_xerox_pages - out.reward.pages_used) 0 = v.freeBal ∧
      (initVars (some o) out.reward).progress = v.progress ∧
      (initVars (some o) out.reward).freeBal = v.freeBal := by
  obtain ⟨hB, hF⟩ := hvalid
  have hov : offerValid (some o) = true := by simp [offerValid, hB, hF]
  obtain ⟨w, hw, hinv, hbal, hprog, hU0, hUR, hRE⟩ := itemsLoop_total fuel (some o) ao
    (fun v => LoopInv (some o) v ∧
      v.freeBal = (reward.free_xerox_pages - reward.pages_used)
        + v.xeroxFreeEarned - v.xeroxFreeUsed ∧
      v.progress = ((reward.total_xerox_pages - reward.pages_used)
        + (v.xeroxRequested - v.xeroxFreeUsed)) % o.buy_quantity ∧
      0 ≤ v.xeroxFreeUsed ∧ v.xeroxFreeUsed ≤ v.xeroxRequested ∧
      (v.xeroxRequested = 0 → v.xeroxFreeEarned = 0)) items
    (by
      rintro v item hm ⟨hinv, hbal, hprog, hU0, hUR, hRE⟩
      obtain ⟨v1, req, paid, free, earned, h1, i1, p1, p2, p3, p4, p5, e1, e2, e3, e4, e5⟩ :=
        processItem_step fuel o ao v item hB (le_of_lt hF) (hitems item hm).1
          (hitems item hm).2 hinv
      refine ⟨v1, h1, i1, by rw [e2, e5, e4, hbal]; ring, ?_, by rw [e4]; omega,
        by rw [e3, e4]; omega, ?_⟩
      · rw [e1, hprog, Int.emod_add_emod, e3, e4]
        congr 1
        omega
      · intro hz
        rw [e3] at hz
        have hr0 : req = 0 := by omega
        have hR0 : v.xeroxRequested = 0 := by omega
        rw [e5, hRE hR0, p5 hr0]
        rfl)
    (initVars (some o) reward)
    ⟨initVars_inv (some o) reward (fun o1 ho1 => by cases ho1; exact hB), by
      simp only [initVars, add_zero, sub_zero]
      exact max_eq_left (by omega), by
      simp only [initVars, hov, if_true, sub_zero, add_zero]
      rw [Int.tmod_eq_emod (le_max_right _ _) (le_of_lt hB), max_eq_left (by omega)],
      le_refl _, le_refl _, fun _ => rfl⟩
  have hfb := hinv.1
  -- the row after the update, whether or not the update was issued
  have hrow : (updateRewards reward w).total_xerox_pages - (updateRewards reward w).pages_used
        = (reward.total_xerox_pages - reward.pages_used)
          + (w.xeroxRequested - w.xeroxFreeUsed) ∧
      (updateRewards reward w).free_xerox_pages - (updateRewards reward w).pages_used
        = (reward.free_xerox_pages - reward.pages_used)
          + w.xeroxFreeEarned - w.xeroxFreeUsed := by
    simp only [updateRewards]
    split_ifs with hpos
    · simp only
      constructor <;> omega
    · have hR0 : w.xeroxRequested = 0 := by omega
      have hE0 := hRE hR0
      constructor <;> omega
  have ht : max ((updateRewards reward w).total_xerox_pages
        - (updateRewards reward w).pages_used) 0
      = (reward.total_xerox_pages - reward.pages_used)
        + (w.xeroxRequested - w.xeroxFreeUsed) := by
    rw [hrow.1]
    exact max_eq_left (by omega)
  have hf : max ((updateRewards reward w).free_xerox_pages
        - (updateRewards reward w).pages_used) 0 = w.freeBal := by
    rw [hrow.2, ← hbal]
    exact max_eq_left hfb
  refine ⟨w, { rows := w.rows, totalAmount := w.totalAmount,
               reward := updateRewards reward w },
    hw, by simp only [createTransaction, hw, Option.map_some'], ?_, hf, ?_, ?_⟩
  · simp only
    rw [ht, hprog]
  · simp only [initVars, hov, if_true]
    rw [Int.tmod_eq_emod (le_max_right _ _) (le_of_lt hB), ht, hprog]
  · simp only [initVars]
    exact hf

/-- Witness of C28: ledger row `(190, 20, 5)`, 100/20 offer, items of 30 and
of 95 units of the offer's product, redemption on. -/
theorem create_ledger_in_step_witness :
    ((0 : Int) < (⟨1, 100, 20, none⟩ : Offer).buy_quantity ∧
        (0 : Int) < (⟨1, 100, 20, none⟩ : Offer).free_quantity) ∧
      (⟨190, 20, 5⟩ : Reward).pages_used ≤ (⟨190, 20, 5⟩ : Reward).free_xerox_pages ∧
      (⟨190, 20, 5⟩ : Reward).pages_used ≤ (⟨190, 20, 5⟩ : Reward).total_xerox_pages ∧
      (∀ item ∈ [(⟨1, 30, 2⟩ : Item), ⟨1, 95, 2⟩],
        0 ≤ item.quantity ∧ item.quantity.toNat ≤ 95) ∧
      ∃ v out, itemsLoop 95 (some ⟨1, 100, 20, none⟩) true
          (initVars (some ⟨1, 100, 20, none⟩) ⟨190, 20, 5⟩) [⟨1, 30, 2⟩, ⟨1, 95, 2⟩] = some v ∧
        createTransaction 95 (some ⟨1, 100, 20, none⟩) ⟨190, 20, 5⟩ true
          [⟨1, 30, 2⟩, ⟨1, 95, 2⟩] = some out ∧
        max (out.reward.total_xerox_pages - out.reward.pages_used) 0 % 100 = v.progress ∧
        max (out.reward.free_xerox_pages - out.reward.pages_used) 0 = v.freeBal ∧
        (initVars (some ⟨1, 100, 20, none⟩) out.reward).progress = v.progress ∧
        (initVars (some ⟨1, 100, 20, none⟩) out.reward).freeBal = v.freeBal :=
  ⟨by decide, by decide, by decide, by decide,
    create_ledger_in_step 95 ⟨1, 100, 20, none⟩ ⟨190, 20, 5⟩ true
      [⟨1, 30, 2⟩, ⟨1, 95, 2⟩] (by decide) (by decide) (by decide) (by decide)⟩

/-! ## Two requests of one customer at once -/

/-- Two ledger updates add up the same way in either order. -/
theorem updateRewards_comm (r : Reward) (v1 v2 : TxVars) :
    updateRewards (updateRewards r v1) v2 = updateRewards (updateRewards r v2) v1 := by
  simp only [updateRewards]
  split_ifs <;> first
    | rfl
    | (simp only [Reward.mk.injEq]; omega)

/-- Both requests done: nothing more can happen. -/
theorem runPair_done (fuel : Nat) (offer : Option Offer) (ao1 : Bool) (items1 : List Item)
    (ao2 : Bool) (items2 : List Item) (sched : List Event) (r r1 : Reward)
    (h : runPair fuel offer ao1 items1 ao2 items2 sched ⟨r, Phase.finished, Phase.finished⟩
      = some ⟨r1, Phase.finished, Phase.finished⟩) : r1 = r := by
  cases sched with
  | nil =>
    simp only [runPair, Option.some.injEq, Pair.mk.injEq] at h
    exact h.1.symm
  | cons e rest => cases e <;> simp [runPair, stepPair] at h

/-- The first request still has to update, the second is done. -/
theorem runPair_first_loaded (fuel : Nat) (offer : Option Offer) (ao1 : Bool)
    (items1 : List Item) (ao2 : Bool) (items2 : List Item) (sched : List Event)
    (r r1 : Reward) (v : TxVars)
    (h : runPair fuel offer ao1 items1 ao2 items2 sched ⟨r, Phase.loaded v, Phase.finished⟩
      = some ⟨r1, Phase.finished, Phase.finished⟩) : r1 = updateRewards r v := by
  cases sched with
  | nil => simp [runPair] at h
  | cons e rest =>
    cases e <;> simp only [runPair, stepPair, Option.some_bind, Option.none_bind] at h
    · simp at h
    · exact runPair_done fuel offer ao1 items1 ao2 items2 rest _ _ h
    · simp at h
    · simp at h

/-- The second request still has to update, the first is done. -/
theorem runPair_second_loaded (fuel : Nat) (offer : Option Offer) (ao1 : Bool)
    (items1 : List Item) (ao2 : Bool) (items2 : List Item) (sched : List Event)
    (r r1 : Reward) (v : TxVars)
    (h : runPair fuel offer ao1 items1 ao2 items2 sched ⟨r, Phase.finished, Phase.loaded v⟩
      = some ⟨r1, Phase.finished, Phase.finished⟩) : r1 = updateRewards r v := by
  cases sched with
  | nil => simp [runPair] at h
  | cons e rest =>
    cases e <;> simp only [runPair, stepPair, Option.some_bind, Option.none_bind] at h
    · simp at h
    · simp at h
    · simp at h
    · exact runPair_done fuel offer ao1 items1 ao2 items2 rest _ _ h

/-- Both requests have read and still have to update. -/
theorem runPair_both_loaded (fuel : Nat) (offer : Option Offer) (ao1 : Bool)
    (items1 : List Item) (ao2 : Bool) (items2 : List Item) (sched : List Event)
    (r r1 : Reward) (v1 v2 : TxVars)
    (h : runPair fuel offer ao1 items1 ao2 items2 sched ⟨r, Phase.loaded v1, Phase.loaded v2⟩
      = some ⟨r1, Phase.finished, Phase.finished⟩) :
    r1 = updateRewards (updateRewards r v1) v2 := by
  cases sched with
  | nil => simp [runPair] at h
  | cons e rest =>
    cases e <;> simp only [runPair, stepPair, Option.some_bind, Option.none_bind] at h
    · simp at h
    · exact runPair_second_loaded fuel offer ao1 items1 ao2 items2 rest _ _ _ h
    · simp at h
    · rw [updateRewards_comm]
      exact runPair_first_loaded fuel offer ao1 items1 ao2 items2 rest _ _ _ h

/-- The first request is done, the second has not read yet: it reads the
row the first one left. -/
theorem runPair_second_idle (fuel : Nat) (offer : Option Offer) (ao1 : Bool)
    (items1 : List Item) (ao2 : Bool) (items2 : List Item) (sched : List Event)
    (r r1 : Reward)
    (h : runPair fuel offer ao1 items1 ao2 items2 sched ⟨r, Phase.finished, Phase.idle⟩
      = some ⟨r1, Phase.finished, Phase.finished⟩) :
    ∃ v2, itemsLoop fuel offer ao2 (initVars offer r) items2 = some v2 ∧
      r1 = updateRewards r v2 := by
  cases sched with
  | nil => simp [runPair] at h
  | cons e rest =>
    cases e <;> simp only [runPair, stepPair, Option.some_bind, Option.none_bind] at h
    · simp at h
    · simp at h
    · rw [Option.bind_eq_some] at h
      obtain ⟨s1, hs1, hrun⟩ := h
      rw [Option.map_eq_some'] at hs1
      obtain ⟨v2, hv2, hs⟩ := hs1
      subst hs
      exact ⟨v2, hv2, runPair_second_loaded fuel offer ao1 items1 ao2 items2 rest _ _ _ hrun⟩
    · simp at h

/-- The second request is done, the first has not read yet. -/
theorem runPair_first_idle (fuel : Nat) (offer : Option Offer) (ao1 : Bool)
    (items1 : List Item) (ao2 : Bool) (items2 : List Item) (sched : List Event)
    (r r1 : Reward)
    (h : runPair fuel offer ao1 items1 ao2 items2 sched ⟨r, Phase.idle, Phase.finished⟩
      = some ⟨r1, Phase.finished, Phase.finished⟩) :
    ∃ v1, itemsLoop fuel offer ao1 (initVars offer r) items1 = some v1 ∧
      r1 = updateRewards r v1 := by
  cases sched with
  | nil => simp [runPair] at h
  | cons e rest =>
    cases e <;> simp only [runPair, stepPair, Option.some_bind, Option.none_bind] at h
    · rw [Option.bind_eq_some] at h
      obtain ⟨s1, hs1, hrun⟩ := h
      rw [Option.map_eq_some'] at hs1
      obtain ⟨v1, hv1, hs⟩ := hs1
      subst hs
      exact ⟨v1, hv1, runPair_first_loaded fuel offer ao1 items1 ao2 items2 rest _ _ _ hrun⟩
    · simp at h
    · simp at h
    · simp at h

/-- The first request has read the row `r`; the second reads either `r` too
or the row the first one leaves. -/
theorem runPair_first_ahead (fuel : Nat) (offer : Option Offer) (ao1 : Bool)
    (items1 : List Item) (ao2 : Bool) (items2 : List Item) (sched : List Event)
    (r r1 : Reward) (v1 : TxVars)
    (h : runPair fuel offer ao1 items1 ao2 items2 sched ⟨r, Phase.loaded v1, Phase.idle⟩
      = some ⟨r1, Phase.finished, Phase.finished⟩) :
    (∃ v2, itemsLoop fuel offer ao2 (initVars offer r) items2 = some v2 ∧
        r1 = updateRewards (updateRewards r v1) v2) ∨
      ∃ v2, itemsLoop fuel offer ao2 (initVars offer (updateRewards r v1)) items2 = some v2 ∧
        r1 = updateRewards (updateRewards r v1) v2 := by
  cases sched with
  | nil => simp [runPair] at h
  | cons e rest =>
    cases e <;> simp only [runPair, stepPair, Option.some_bind, Option.none_bind] at h
    · simp at h
    · exact Or.inr (runPair_second_idle fuel offer ao1 items1 ao2 items2 rest _ _ h)
    · rw [Option.bind_eq_some] at h
      obtain ⟨s1, hs1, hrun⟩ := h
      rw [Option.map_eq_some'] at hs1
      obtain ⟨v2, hv2, hs⟩ := hs1
      subst hs
      exact Or.inl ⟨v2, hv2,
        runPair_both_loaded fuel offer ao1 items1 ao2 items2 rest _ _ _ _ hrun⟩
    · simp at h

/-- The second request has read the row `r`; the first reads either `r` too
or the row the second one leaves. -/
theorem runPair_second_ahead (fuel : Nat) (offer : Option Offer) (ao1 : Bool)
    (items1 : List Item) (ao2 : Bool) (items2 : List Item) (sched : List Event)
    (r r1 : Reward) (v2 : TxVars)
    (h : runPair fuel offer ao1 items1 ao2 items2 sched ⟨r, Phase.idle, Phase.loaded v2⟩
      = some ⟨r1, Phase.finished, Phase.finished⟩) :
    (∃ v1, itemsLoop fuel offer ao1 (initVars offer r) items1 = some v1 ∧
        r1 = updateRewards (updateRewards r v1) v2) ∨
      ∃ v1, itemsLoop fuel offer ao1 (initVars offer (updateRewards r v2)) items1 = some v1 ∧
        r1 = updateRewards (updateRewards r v2) v1 := by
  cases sched with
  | nil => simp [runPair] at h
  | cons e rest =>
    cases e <;> simp only [runPair, stepPair, Option.some_bind, Option.none_bind] at h
    · rw [Option.bind_eq_some] at h
      obtain ⟨s1, hs1, hrun⟩ := h
      rw [Option.map_eq_some'] at hs1
      obtain ⟨v1, hv1, hs⟩ := hs1
      subst hs
      exact Or.inl ⟨v1, hv1,
        runPair_both_loaded fuel offer ao1 items1 ao2 items2 rest _ _ _ _ hrun⟩
    · simp at h
    · simp at h
    · exact Or.inr (runPair_first_idle fuel offer ao1 items1 ao2 items2 rest _ _ h)

/-- Every complete schedule from the start: one request after the other, in
one of the two orders, or both reading the starting row. -/
theorem runPair_outcomes (fuel : Nat) (offer : Option Offer) (ao1 : Bool)
    (items1 : List Item) (ao2 : Bool) (items2 : List Item) (sched : List Event)
    (r r1 : Reward)
    (h : runPair fuel offer ao1 items1 ao2 items2 sched ⟨r, Phase.idle, Phase.idle⟩
      = some ⟨r1, Phase.finished, Phase.finished⟩) :
    (∃ v1 v2, itemsLoop fuel offer ao1 (initVars offer r) items1 = some v1 ∧
        itemsLoop fuel offer ao2 (initVars offer (updateRewards r v1)) items2 = some v2 ∧
        r1 = updateRewards (updateRewards r v1) v2) ∨
      (∃ v1 v2, itemsLoop fuel offer ao2 (initVars offer r) items2 = some v2 ∧
        itemsLoop fuel offer ao1 (initVars offer (updateRewards r v2)) items1 = some v1 ∧
        r1 = updateRewards (updateRewards r v2) v1) ∨
      ∃ v1 v2, itemsLoop fuel offer ao1 (initVars offer r) items1 = some v1 ∧
        itemsLoop fuel offer ao2 (initVars offer r) items2 = some v2 ∧
        r1 = updateRewards (updateRewards r v1) v2 := by
  cases sched with
  | nil => simp [runPair] at h
  | cons e rest =>
    cases e <;> simp only [runPair, stepPair, Option.some_bind, Option.none_bind] at h
    · rw [Option.bind_eq_some] at h
      obtain ⟨s1, hs1, hrun⟩ := h
      rw [Option.map_eq_some'] at hs1
      obtain ⟨v1, hv1, hs⟩ := hs1
      subst hs
      rcases runPair_first_ahead fuel offer ao1 items1 ao2 items2 rest _ _ _ hrun with
        ⟨v2, hv2, hr⟩ | ⟨v2, hv2, hr⟩
      · exact Or.inr (Or.inr ⟨v1, v2, hv1, hv2, hr⟩)
      · exact Or.inl ⟨v1, v2, hv1, hv2, hr⟩
    · simp at h
    · rw [Option.bind_eq_some] at h
      obtain ⟨s1, hs1, hrun⟩ := h
      rw [Option.map_eq_some'] at hs1
      obtain ⟨v2, hv2, hs⟩ := hs1
      subst hs
      rcases runPair_second_ahead fuel offer ao1 items1 ao2 items2 rest _ _ _ hrun with
        ⟨v1, hv1, hr⟩ | ⟨v1, hv1, hr⟩
      · exact Or.inr (Or.inr ⟨v1, v2, hv1, hv2, hr⟩)
      · exact Or.inr (Or.inl ⟨v1, v2, hv2, hv1, hr⟩)
    · simp at h

/-- Two updates computed from the same row: each counter ends at the sum
of what the two updates alone would give, less its starting value. -/
theorem updateRewards_both (r : Reward) (v1 v2 : TxVars) :
    (updateRewards (updateRewards r v1) v2).total_xerox_pages
        = (updateRewards r v1).total_xerox_pages + (updateRewards r v2).total_xerox_pages
          - r.total_xerox_pages ∧
      (updateRewards (updateRewards r v1) v2).free_xerox_pages
        = (updateRewards r v1).free_xerox_pages + (updateRewards r v2).free_xerox_pages
          - r.free_xerox_pages ∧
      (updateRewards (updateRewards r v1) v2).pages_used
        = (updateRewards r v1).pages_used + (updateRewards r v2).pages_used
          - r.pages_used := by
  simp only [updateRewards]
  split_ifs <;> refine ⟨?_, ?_, ?_⟩ <;> first
    | omega
    | (simp only; omega)

/-- C25 (same-customer serialisation), the claim as stated fails: the
handler takes no lock and opens no database transaction, so two requests of
one customer can both read the ledger row before either updates it. Ledger
row `(100, 20, 0)`, 100/20 offer, one request for 20 units and one for 15,
both with redemption on: run one after the other, in either order, they
leave `(135, 20, 20)`; when both read first, each spends the same 20 free
pages and they leave `(135, 20, 35)`, with `pages_used > free_xerox_pages`. -/
theorem concurrent_counterexample :
    runPair 20 (some ⟨1, 100, 20, none⟩) true [⟨1, 20, 2⟩] true [⟨1, 15, 2⟩]
        [Event.read1, Event.read2, Event.write1, Event.write2]
        ⟨⟨100, 20, 0⟩, Phase.idle, Phase.idle⟩ =
      some ⟨⟨135, 20, 35⟩, Phase.finished, Phase.finished⟩ ∧
    ((createTransaction 20 (some ⟨1, 100, 20, none⟩) ⟨100, 20, 0⟩ true [⟨1, 20, 2⟩]).bind
        fun out1 => (createTransaction 20 (some ⟨1, 100, 20, none⟩) out1.reward true
          [⟨1, 15, 2⟩]).map fun out2 => out2.reward) = some ⟨135, 20, 20⟩ ∧
    ((createTransaction 20 (some ⟨1, 100, 20, none⟩) ⟨100, 20, 0⟩ true [⟨1, 15, 2⟩]).bind
        fun out2 => (createTransaction 20 (some ⟨1, 100, 20, none⟩) out2.reward true
          [⟨1, 20, 2⟩]).map fun out1 => out1.reward) = some ⟨135, 20, 20⟩ ∧
    (⟨135, 20, 35⟩ : Reward) ≠ ⟨135, 20, 20⟩ ∧
    (⟨135, 20, 35⟩ : Reward).pages_used > (⟨135, 20, 35⟩ : Reward).free_xerox_pages := by
  decide

/-- C25 as amended. For every pair of create-transaction requests of one
customer and every complete interleaving of their ledger reads and ledger
updates, the final ledger row is one of three: that of the first request
followed by the second, that of the second followed by the first, or, when
both read the row before either updates it, the starting row plus the
deltas that each request computes from the starting row on its own. The
third case is reached by the schedule read, read, update, update whenever
both requests complete on the starting row. -/
theorem concurrent_outcomes (fuel : Nat) (offer : Option Offer) (ao1 : Bool)
    (items1 : List Item) (ao2 : Bool) (items2 : List Item) (r : Reward) :
    (∀ sched r1,
      runPair fuel offer ao1 items1 ao2 items2 sched ⟨r, Phase.idle, Phase.idle⟩
        = some ⟨r1, Phase.finished, Phase.finished⟩ →
      (∃ out1 out2, createTransaction fuel offer r ao1 items1 = some out1 ∧
          createTransaction fuel offer out1.reward ao2 items2 = some out2 ∧
          r1 = out2.reward) ∨
        (∃ out2 out1, createTransaction fuel offer r ao2 items2 = some out2 ∧
          createTransaction fuel offer out2.reward ao1 items1 = some out1 ∧
          r1 = out1.reward) ∨
        ∃ out1 out2, createTransaction fuel offer r ao1 items1 = some out1 ∧
          createTransaction fuel offer r ao2 items2 = some out2 ∧
          r1.total_xerox_pages
            = out1.reward.total_xerox_pages + out2.reward.total_xerox_pages
              - r.total_xerox_pages ∧
          r1.free_xerox_pages
            = out1.reward.free_xerox_pages + out2.reward.free_xerox_pages
              - r.free_xerox_pages ∧
          r1.pages_used
            = out1.reward.pages_used + out2.reward.pages_used - r.pages_used) ∧
    (∀ out1 out2, createTransaction fuel offer r ao1 items1 = some out1 →
      createTransaction fuel offer r ao2 items2 = some out2 →
      ∃ r1, runPair fuel offer ao1 items1 ao2 items2
          [Event.read1, Event.read2, Event.write1, Event.write2]
          ⟨r, Phase.idle, Phase.idle⟩ = some ⟨r1, Phase.finished, Phase.finished⟩ ∧
        r1.total_xerox_pages
          = out1.reward.total_xerox_pages + out2.reward.total_xerox_pages
            - r.total_xerox_pages ∧
        r1.free_xerox_pages
          = out1.reward.free_xerox_pages + out2.reward.free_xerox_pages
            - r.free_xerox_pages ∧
        r1.pages_used
          = out1.reward.pages_used + out2.reward.pages_used - r.pages_used) := by
  have hct : ∀ (ao : Bool) (items : List Item) (row : Reward) (v : TxVars),
      itemsLoop fuel offer ao (initVars offer row) items = some v →
      createTransaction fuel offer row ao items
        = some { rows := v.rows, totalAmount := v.totalAmount,
                 reward := updateRewards row v } := by
    intro ao items row v hv
    simp only [createTransaction, hv, Option.map_some']
  constructor
  · intro sched r1 h
    rcases runPair_outcomes fuel offer ao1 items1 ao2 items2 sched r r1 h with
      ⟨v1, v2, h1, h2, hr⟩ | ⟨v1, v2, h2, h1, hr⟩ | ⟨v1, v2, h1, h2, hr⟩
    · exact Or.inl ⟨_, _, hct ao1 items1 r v1 h1, hct ao2 items2 _ v2 h2, hr⟩
    · exact Or.inr (Or.inl ⟨_, _, hct ao2 items2 r v2 h2, hct ao1 items1 _ v1 h1, hr⟩)
    · refine Or.inr (Or.inr ⟨_, _, hct ao1 items1 r v1 h1, hct ao2 items2 r v2 h2, ?_⟩)
      rw [hr]
      exact updateRewards_both r v1 v2
  · intro out1 out2 h1 h2
    unfold createTransaction at h1 h2
    rw [Option.map_eq_some'] at h1 h2
    obtain ⟨v1, hv1, ho1⟩ := h1
    obtain ⟨v2, hv2, ho2⟩ := h2
    subst ho1 ho2
    refine ⟨updateRewards (updateRewards r v1) v2, ?_, updateRewards_both r v1 v2⟩
    simp [runPair, stepPair, hv1, hv2]

/-- Witness of C25 as amended: the two requests of the counterexample with
both reads first; the third outcome, `(135, 20, 35)`, is `(120, 20, 20)` plus
`(115, 20, 15)` less the starting row `(100, 20, 0)`. -/
theorem concurrent_outcomes_witness :
    runPair 20 (some ⟨1, 100, 20, none⟩) true [⟨1, 20, 2⟩] true [⟨1, 15, 2⟩]
        [Event.read1, Event.read2, Event.write1, Event.write2]
        ⟨⟨100, 20, 0⟩, Phase.idle, Phase.idle⟩ =
      some ⟨⟨135, 20, 35⟩, Phase.finished, Phase.finished⟩ ∧
    ((∃ out1 out2,
        createTransaction 20 (some ⟨1, 100, 20, none⟩) ⟨100, 20, 0⟩ true [⟨1, 20, 2⟩]
          = some out1 ∧
        createTransaction 20 (some ⟨1, 100, 20, none⟩) out1.reward true [⟨1, 15, 2⟩]
          = some out2 ∧
        (⟨135, 20, 35⟩ : Reward) = out2.reward) ∨
      (∃ out2 out1,
        createTransaction 20 (some ⟨1, 100, 20, none⟩) ⟨100, 20, 0⟩ true [⟨1, 15, 2⟩]
          = some out2 ∧
        createTransaction 20 (some ⟨1, 100, 20, none⟩) out2.reward true [⟨1, 20, 2⟩]
          = some out1 ∧
        (⟨135, 20, 35⟩ : Reward) = out1.reward) ∨
      ∃ out1 out2,
        createTransaction 20 (some ⟨1, 100, 20, none⟩) ⟨100, 20, 0⟩ true [⟨1, 20, 2⟩]
          = some out1 ∧
        createTransaction 20 (some ⟨1, 100, 20, none⟩) ⟨100, 20, 0⟩ true [⟨1, 15, 2⟩]
          = some out2 ∧
        (⟨135, 20, 35⟩ : Reward).total_xerox_pages
          = out1.reward.total_xerox_pages + out2.reward.total_xerox_pages
            - (⟨100, 20, 0⟩ : Reward).total_xerox_pages ∧
        (⟨135, 20, 35⟩ : Reward).free_xerox_pages
          = out1.reward.free_xerox_pages + out2.reward.free_xerox_pages
            - (⟨100, 20, 0⟩ : Reward).free_xerox_pages ∧
        (⟨135, 20, 35⟩ : Reward).pages_used
          = out1.reward.pages_used + out2.reward.pages_used
            - (⟨100, 20, 0⟩ : Reward).pages_used) :=
  ⟨by decide,
    (concurrent_outcomes 20 (some ⟨1, 100, 20, none⟩) true [⟨1, 20, 2⟩] true [⟨1, 15, 2⟩]
      ⟨100, 20, 0⟩).1 [Event.read1, Event.read2, Event.write1, Event.write2] ⟨135, 20, 35⟩
      (by decide)⟩

end DigiCopy
